import Mathlib

/-!
ASPECT material-model plugins: table lookup, melting laws, grain size rheology.

Shallow embedding of

* `Lookup::MaterialLookup`, `Lookup::PerplexReader`, `Lookup::HeFESToReader`
  (`source/material_model/damage_rheology.cc`), whose `value`/`get_nT`/`get_np`
  are repeated verbatim in `Lookup::MeltFractionLookup`
  (`source/material_model/melt_global.cc`);
* `MeltPeridotiteEclogite::melt_fraction` / `entropy_change` and the melting rate of
  `MeltPeridotiteEclogite::evaluate`
  (`source/material_model/melt_peridotite_eclogite.cc`), and
  `LatentHeatMelt::peridotite_melt_fraction`
  (`source/material_model/latent_heat_melt.cc`);
* `MeltGlobal::melt_fraction` and the melting rate, reaction terms and reaction rates
  of `MeltGlobal::evaluate` (`source/material_model/melt_global.cc`);
* `DamageRheology::viscosity`, `diffusion_viscosity`, `dislocation_viscosity`,
  `convert_log_grain_size`, `grain_size_growth_rate`, `phase_function`,
  `thermodynamic_phase`, `get_phase_index` and the list checks of `parse_parameters`
  (`source/material_model/damage_rheology.cc`);
* the unit selection in the constructor of `Lookup::MeltFractionLookup`
  (`source/material_model/melt_global.cc`) and the reaction terms of
  `MeltPeridotiteEclogite::evaluate`;
* `Viscoelastic::compute_volume_fractions` (`source/material_model/viscoelastic.cc`);
* `AnalyticSolutions::interpolate` (`benchmark/solitary_wave/solitary_wave.cc`).

Conventions.  A C++ `double` of the table code and of `MeltGlobal` is a rational
number, a `double` of the Katz melting law and of the creep laws is a real number
(`std::pow`, `exp`, `log` and `sqrt` have no rational model); the sub-stepping loop of
the grain size and the phase functions are written over an arbitrary ordered field.
Where the rounding of `double` arithmetic decides a property, the function takes the
rounding `fl` of every arithmetic result as an argument: `fl = id` is exact arithmetic,
`fl = binary64` is IEEE 754 double precision; likewise `convert_log_grain_size` takes
`std::log` and `std::exp` as arguments.
An `unsigned int` is a natural number below `2^32`, a `std::size_t` one below `2^64`;
a `std::vector` is a list.  A failing `Assert`, an out-of-range table access and an
undefined conversion are the result `none`.
-/

namespace Aspect

/-! ## `dealii::Table<2,double>` -/

/-- Dense two-dimensional table with `n_rows` rows and `n_cols` columns. -/
structure Table where
  n_rows : Nat
  n_cols : Nat
  data : Nat → Nat → ℚ

/-- Effect of `reinit(r, c)`: an `r` by `c` table of zeros. -/
def Table.reinit (r c : Nat) : Table :=
  { n_rows := r, n_cols := c, data := fun _ _ => 0 }

/-- Read access `values[i][j]`; the index check of the table fails outside the table. -/
def Table.get (t : Table) (i j : Nat) : Option ℚ :=
  if i < t.n_rows ∧ j < t.n_cols then some (t.data i j) else none

/-- Write access `values[i][j] = v`; the index check of the table fails outside the table. -/
def Table.set (t : Table) (i j : Nat) (v : ℚ) : Option Table :=
  if i < t.n_rows ∧ j < t.n_cols then
    some { n_rows := t.n_rows, n_cols := t.n_cols,
           data := fun a b => if a = i ∧ b = j then v else t.data a b }
  else none

/-- Conversion `static_cast<unsigned int>(x)` of a `double`: truncation towards zero,
defined when the truncated value fits into 32 bits. -/
def toUnsigned (x : ℚ) : Option Nat :=
  if -1 < x ∧ x < 4294967296 then some (Int.toNat ⌊x⌋) else none

/-- Value of `i-1` for an `unsigned int i` (wraps around at `i = 0`). -/
def usub1 (i : Nat) : Nat := (i + 4294967295) % 4294967296

/-! ## Rounding to `double` -/

/-- The power `2^e` for an integer exponent. -/
def pow2 (e : ℤ) : ℚ :=
  if 0 ≤ e then ((2 ^ e.toNat : Nat) : ℚ) else 1 / ((2 ^ (-e).toNat : Nat) : ℚ)

/-- Nearest integer, ties to the even one. -/
def round_half_even (x : ℚ) : ℤ :=
  if x - ⌊x⌋ < 1 / 2 then ⌊x⌋
  else if x - ⌊x⌋ > 1 / 2 then ⌊x⌋ + 1
  else if ⌊x⌋ % 2 = 0 then ⌊x⌋ else ⌊x⌋ + 1

/-- Binary logarithm of a natural number, rounded down, by at most `fuel` halvings. -/
def log2_halving : Nat → Nat → Nat
  | 0, _ => 0
  | fuel + 1, n => if n < 2 then 0 else log2_halving fuel (n / 2) + 1

/-- The integer `e` with `2^e ≤ a < 2^(e+1)`, for `a > 0`. -/
def ilog2 (a : ℚ) : ℤ :=
  let e : ℤ := (log2_halving a.num.natAbs a.num.natAbs : ℤ) - (log2_halving a.den a.den : ℤ)
  if pow2 e ≤ a then e else e - 1

/-- The `double` nearest to a rational number: IEEE 754 binary64, round to nearest, ties
to even, with 53 significant bits and the smallest exponent `-1022`; overflow is not
modelled.  Every arithmetic operation on `double`s returns the exact result rounded in
this way. -/
def binary64 (x : ℚ) : ℚ :=
  if x = 0 then 0
  else
    let ulp := pow2 (max (ilog2 |x|) (-1022) - 52)
    if 0 < x then (round_half_even (x / ulp) : ℚ) * ulp
    else -((round_half_even (-x / ulp) : ℚ) * ulp)

/-! ## `Lookup::MaterialLookup` -/

/-- Data members of `Lookup::MaterialLookup`. -/
structure MaterialLookup where
  density_values : Table
  thermal_expansivity_values : Table
  specific_heat_values : Table
  vp_values : Table
  vs_values : Table
  enthalpy_values : Table
  delta_press : ℚ
  min_press : ℚ
  max_press : ℚ
  delta_temp : ℚ
  min_temp : ℚ
  max_temp : ℚ
  numtemp : Nat
  numpress : Nat
  interpolation : Bool

/-- The six property tables of a lookup object. -/
def MaterialLookup.tables (L : MaterialLookup) : List Table :=
  [L.density_values, L.thermal_expansivity_values, L.specific_heat_values,
   L.vp_values, L.vs_values, L.enthalpy_values]

/-- Scalar members and table dimensions of a lookup object. -/
def MaterialLookup.shape (L : MaterialLookup) :
    (ℚ × ℚ × ℚ × ℚ × ℚ × ℚ) × (Nat × Nat × Bool) × List (Nat × Nat) :=
  ((L.delta_press, L.min_press, L.max_press, L.delta_temp, L.min_temp, L.max_temp),
   (L.numtemp, L.numpress, L.interpolation),
   L.tables.map fun t => (t.n_rows, t.n_cols))

/-- Fractional temperature index `get_nT`. -/
def MaterialLookup.get_nT (L : MaterialLookup) (temperature : ℚ) : Option ℚ :=
  let temperature := max L.min_temp temperature
  let temperature := min temperature (L.max_temp - L.delta_temp)
  if ¬ (temperature ≥ L.min_temp) then none
  else if ¬ (temperature ≤ L.max_temp) then none
  else some ((temperature - L.min_temp) / L.delta_temp)

/-- Fractional pressure index `get_np`. -/
def MaterialLookup.get_np (L : MaterialLookup) (pressure : ℚ) : Option ℚ :=
  let pressure := max L.min_press pressure
  let pressure := min pressure (L.max_press - L.delta_press)
  if ¬ (pressure ≥ L.min_press) then none
  else if ¬ (pressure ≤ L.max_press) then none
  else some ((pressure - L.min_press) / L.delta_press)

/-- Table lookup `value(temperature, pressure, values, interpol)`. -/
def MaterialLookup.value (L : MaterialLookup) (temperature pressure : ℚ)
    (values : Table) (interpol : Bool) : Option ℚ :=
  (L.get_nT temperature).bind fun nT =>
  (toUnsigned nT).bind fun inT =>
  (L.get_np pressure).bind fun np =>
  (toUnsigned np).bind fun inp =>
  if ¬ (inT < values.n_rows) then none
  else if ¬ (inp < values.n_cols) then none
  else if !interpol then values.get inT inp
  else
    let xi : ℚ := nT - inT
    let eta : ℚ := np - inp
    if ¬ (0 ≤ xi ∧ xi ≤ 1) then none
    else if ¬ (0 ≤ eta ∧ eta ≤ 1) then none
    else
      (values.get inT inp).bind fun v00 =>
      (values.get (inT+1) inp).bind fun v10 =>
      (values.get inT (inp+1)).bind fun v01 =>
      (values.get (inT+1) (inp+1)).bind fun v11 =>
      some ((1-xi)*(1-eta)*v00 + xi*(1-eta)*v10 + (1-xi)*eta*v01 + xi*eta*v11)

/-- The function `get_nT` with every arithmetic result rounded by `fl`. -/
def MaterialLookup.get_nT_rounded (fl : ℚ → ℚ) (L : MaterialLookup) (temperature : ℚ) :
    Option ℚ :=
  let temperature := max L.min_temp temperature
  let temperature := min temperature (fl (L.max_temp - L.delta_temp))
  if ¬ (temperature ≥ L.min_temp) then none
  else if ¬ (temperature ≤ L.max_temp) then none
  else some (fl (fl (temperature - L.min_temp) / L.delta_temp))

/-- The function `get_np` with every arithmetic result rounded by `fl`. -/
def MaterialLookup.get_np_rounded (fl : ℚ → ℚ) (L : MaterialLookup) (pressure : ℚ) :
    Option ℚ :=
  let pressure := max L.min_press pressure
  let pressure := min pressure (fl (L.max_press - L.delta_press))
  if ¬ (pressure ≥ L.min_press) then none
  else if ¬ (pressure ≤ L.max_press) then none
  else some (fl (fl (pressure - L.min_press) / L.delta_press))

/-- The function `value(temperature, pressure, values, interpol)` with every arithmetic
result rounded by `fl` (the sum of the four products is evaluated from left to right);
for `fl = id` this is `MaterialLookup.value`. -/
def MaterialLookup.value_rounded (fl : ℚ → ℚ) (L : MaterialLookup) (temperature pressure : ℚ)
    (values : Table) (interpol : Bool) : Option ℚ :=
  (L.get_nT_rounded fl temperature).bind fun nT =>
  (toUnsigned nT).bind fun inT =>
  (L.get_np_rounded fl pressure).bind fun np =>
  (toUnsigned np).bind fun inp =>
  if ¬ (inT < values.n_rows) then none
  else if ¬ (inp < values.n_cols) then none
  else if !interpol then values.get inT inp
  else
    let xi : ℚ := fl (nT - inT)
    let eta : ℚ := fl (np - inp)
    if ¬ (0 ≤ xi ∧ xi ≤ 1) then none
    else if ¬ (0 ≤ eta ∧ eta ≤ 1) then none
    else
      (values.get inT inp).bind fun v00 =>
      (values.get (inT+1) inp).bind fun v10 =>
      (values.get inT (inp+1)).bind fun v01 =>
      (values.get (inT+1) (inp+1)).bind fun v11 =>
      some (fl (fl (fl (fl (fl (fl (1-xi) * fl (1-eta)) * v00)
                + fl (fl (xi * fl (1-eta)) * v10))
              + fl (fl (fl (1-xi) * eta) * v01))
            + fl (fl (xi * eta) * v11)))

/-- A lookup object with `min_temp = 273.15`, `delta_temp = 14.3` (as `double`s), five
temperature lines and two pressure lines, for the table `values[a][b] = a`. -/
def MaterialLookup.roundingExample : MaterialLookup where
  density_values := ⟨5, 2, fun a _ => a⟩
  thermal_expansivity_values := ⟨5, 2, fun a _ => a⟩
  specific_heat_values := ⟨5, 2, fun a _ => a⟩
  vp_values := ⟨5, 2, fun a _ => a⟩
  vs_values := ⟨5, 2, fun a _ => a⟩
  enthalpy_values := ⟨5, 2, fun a _ => a⟩
  delta_press := 1
  min_press := 0
  max_press := 1
  delta_temp := binary64 (143 / 10)
  min_temp := binary64 (27315 / 100)
  max_temp := binary64 (binary64 (27315 / 100) + binary64 (4 * binary64 (143 / 10)))
  numtemp := 5
  numpress := 2
  interpolation := true

/-! ## `Lookup::PerplexReader` -/

/-- The six numbers of a PerpleX header, in the units of the file (pressures in bar). -/
structure PerplexHeader where
  min_temp : ℚ
  delta_temp : ℚ
  numtemp : Nat
  min_press : ℚ
  delta_press : ℚ
  numpress : Nat

/-- One data row of a PerpleX file: the six property fields, `none` where the
extraction from the stream failed. -/
structure PerplexRow where
  rho : Option ℚ
  alpha : Option ℚ
  cp : Option ℚ
  vp : Option ℚ
  vs : Option ℚ
  h : Option ℚ

/-- Header part of the constructor: unit conversion, the header assertions, the
upper axis bounds and the `reinit` of the six tables. -/
def PerplexReader.header (hdr : PerplexHeader) (interpol : Bool) : Option MaterialLookup :=
  let min_temp := hdr.min_temp
  let delta_temp := hdr.delta_temp
  let numtemp := hdr.numtemp
  let min_press := hdr.min_press * 100000
  let delta_press := hdr.delta_press * 100000
  let numpress := hdr.numpress
  if ¬ (min_temp ≥ 0) then none
  else if ¬ (delta_temp > 0) then none
  else if ¬ (numtemp > 0) then none
  else if ¬ (min_press ≥ 0) then none
  else if ¬ (delta_press > 0) then none
  else if ¬ (numpress > 0) then none
  else
    some
      { density_values := Table.reinit numtemp numpress
        thermal_expansivity_values := Table.reinit numtemp numpress
        specific_heat_values := Table.reinit numtemp numpress
        vp_values := Table.reinit numtemp numpress
        vs_values := Table.reinit numtemp numpress
        enthalpy_values := Table.reinit numtemp numpress
        delta_press := delta_press
        min_press := min_press
        max_press := min_press + ((numtemp - 1 : Nat) : ℚ) * delta_press
        delta_temp := delta_temp
        min_temp := min_temp
        max_temp := min_temp + ((numtemp - 1 : Nat) : ℚ) * delta_temp
        numtemp := numtemp
        numpress := numpress
        interpolation := interpol }

/-- Cell `[(i-1)%numtemp][(i-1)/numtemp]` read when a field of row `i` fails to parse. -/
def PerplexReader.fallback_cell (numtemp i : Nat) : Nat × Nat :=
  (usub1 i % numtemp, usub1 i / numtemp)

/-- Cell `[i%numtemp][i/numtemp]` into which row `i` is written. -/
def PerplexReader.write_cell (numtemp i : Nat) : Nat × Nat :=
  (i % numtemp, i / numtemp)

/-- Value of one property field of row `i`: the parsed number, or the fallback cell. -/
def PerplexReader.field (numtemp : Nat) (t : Table) (i : Nat) (parsed : Option ℚ) : Option ℚ :=
  match parsed with
  | some v => some v
  | none => t.get (PerplexReader.fallback_cell numtemp i).1 (PerplexReader.fallback_cell numtemp i).2

/-- One pass of the data loop: read the six fields of row `i`, store them, increment `i`. -/
def PerplexReader.row (s : MaterialLookup × Nat) (r : PerplexRow) : Option (MaterialLookup × Nat) :=
  let L := s.1
  let i := s.2
  let c := PerplexReader.write_cell L.numtemp i
  (PerplexReader.field L.numtemp L.density_values i r.rho).bind fun rho =>
  (PerplexReader.field L.numtemp L.thermal_expansivity_values i r.alpha).bind fun alpha =>
  (PerplexReader.field L.numtemp L.specific_heat_values i r.cp).bind fun cp =>
  (PerplexReader.field L.numtemp L.vp_values i r.vp).bind fun vp =>
  (PerplexReader.field L.numtemp L.vs_values i r.vs).bind fun vs =>
  (PerplexReader.field L.numtemp L.enthalpy_values i r.h).bind fun h =>
  (L.density_values.set c.1 c.2 rho).bind fun t1 =>
  (L.thermal_expansivity_values.set c.1 c.2 alpha).bind fun t2 =>
  (L.specific_heat_values.set c.1 c.2 cp).bind fun t3 =>
  (L.vp_values.set c.1 c.2 vp).bind fun t4 =>
  (L.vs_values.set c.1 c.2 vs).bind fun t5 =>
  (L.enthalpy_values.set c.1 c.2 h).bind fun t6 =>
  some ({ L with density_values := t1, thermal_expansivity_values := t2,
                 specific_heat_values := t3, vp_values := t4, vs_values := t5,
                 enthalpy_values := t6 }, i + 1)

/-- The data loop over the rows of the file. -/
def PerplexReader.loop (s : MaterialLookup × Nat) : List PerplexRow → Option (MaterialLookup × Nat)
  | [] => some s
  | r :: rs => (PerplexReader.row s r).bind fun s1 => PerplexReader.loop s1 rs

/-- The constructor `PerplexReader(filename, interpol)` on a parsed file. -/
def PerplexReader (hdr : PerplexHeader) (rows : List PerplexRow) (interpol : Bool) :
    Option MaterialLookup :=
  (PerplexReader.header hdr interpol).bind fun L0 =>
  (PerplexReader.loop (L0, 0) rows).bind fun s =>
  if ¬ (s.2 = s.1.numtemp * s.1.numpress) then none else some s.1

/-! ## `Lookup::HeFESToReader`, the data loop -/

/-- One data row of a HeFESTo file: the values of `P` (in GPa) and `T` after the
extraction, and the property fields that have a fallback, `none` where the
extraction from the stream failed. -/
structure HeFESToRow where
  P : ℚ
  T : ℚ
  rho : Option ℚ
  vs : Option ℚ
  vp : Option ℚ
  h : Option ℚ

/-- Cell `[(i-1)%numtemp][(i-1)/numtemp]` read when a field of row `i` fails to parse. -/
def HeFESToReader.fallback_cell (numtemp i : Nat) : Nat × Nat :=
  (usub1 i % numtemp, usub1 i / numtemp)

/-- Cell `[i/numpress][i%numpress]` into which row `i` is written. -/
def HeFESToReader.write_cell (numpress i : Nat) : Nat × Nat :=
  (i / numpress, i % numpress)

/-- Value of one property field of row `i`: the parsed number times the unit
conversion factor, or the fallback cell. -/
def HeFESToReader.field (numtemp : Nat) (t : Table) (i : Nat) (parsed : Option ℚ)
    (factor : ℚ) : Option ℚ :=
  match parsed with
  | some v => some (v * factor)
  | none => t.get (HeFESToReader.fallback_cell numtemp i).1 (HeFESToReader.fallback_cell numtemp i).2

/-- One pass of the second loop of the constructor (the data loop): axis bounds,
the fields with their fallback, the six stores, the increment of `i`. -/
def HeFESToReader.row (s : MaterialLookup × Nat) (r : HeFESToRow) :
    Option (MaterialLookup × Nat) :=
  let L := s.1
  let i := s.2
  let alpha : ℚ := 0
  let cp : ℚ := 0
  let P := r.P * 1000000000
  let c := HeFESToReader.write_cell L.numpress i
  (HeFESToReader.field L.numtemp L.density_values i r.rho 1000).bind fun rho =>
  (HeFESToReader.field L.numtemp L.vs_values i r.vs 1).bind fun vs =>
  (HeFESToReader.field L.numtemp L.vp_values i r.vp 1).bind fun vp =>
  (HeFESToReader.field L.numtemp L.enthalpy_values i r.h 1000000).bind fun h =>
  (L.density_values.set c.1 c.2 rho).bind fun t1 =>
  (L.thermal_expansivity_values.set c.1 c.2 alpha).bind fun t2 =>
  (L.specific_heat_values.set c.1 c.2 cp).bind fun t3 =>
  (L.vp_values.set c.1 c.2 vp).bind fun t4 =>
  (L.vs_values.set c.1 c.2 vs).bind fun t5 =>
  (L.enthalpy_values.set c.1 c.2 h).bind fun t6 =>
  some ({ L with density_values := t1, thermal_expansivity_values := t2,
                 specific_heat_values := t3, vp_values := t4, vs_values := t5,
                 enthalpy_values := t6,
                 min_press := min P L.min_press, min_temp := min r.T L.min_temp,
                 max_temp := max r.T L.max_temp, max_press := max P L.max_press }, i + 1)

/-- The data loop over the rows of the file. -/
def HeFESToReader.loop (s : MaterialLookup × Nat) : List HeFESToRow → Option (MaterialLookup × Nat)
  | [] => some s
  | r :: rs => (HeFESToReader.row s r).bind fun s1 => HeFESToReader.loop s1 rs

/-- State of the constructor when the data loop starts: the initial member values,
`numtemp` and `numpress` as counted by the first loop, the six tables after `reinit`. -/
def HeFESToReader.start (numtemp numpress : Nat) (interpol : Bool) : MaterialLookup :=
  { density_values := Table.reinit numtemp numpress
    thermal_expansivity_values := Table.reinit numtemp numpress
    specific_heat_values := Table.reinit numtemp numpress
    vp_values := Table.reinit numtemp numpress
    vs_values := Table.reinit numtemp numpress
    enthalpy_values := Table.reinit numtemp numpress
    delta_press := -1
    min_press := 10 ^ 300
    max_press := -10 ^ 300
    delta_temp := -1
    min_temp := 10 ^ 300
    max_temp := -10 ^ 300
    numtemp := numtemp
    numpress := numpress
    interpolation := interpol }

/-! ## Katz (2003) melting law: `MeltPeridotiteEclogite`, `LatentHeatMelt` -/

/-- Coefficients of the anhydrous peridotite melting law (run-time parameters
`A1` ... `C3`, `r1`, `r2`, `beta`, `Mass fraction cpx`). -/
structure KatzParameters where
  A1 : ℝ
  A2 : ℝ
  A3 : ℝ
  B1 : ℝ
  B2 : ℝ
  B3 : ℝ
  C1 : ℝ
  C2 : ℝ
  C3 : ℝ
  r1 : ℝ
  r2 : ℝ
  beta : ℝ
  M_cpx : ℝ

/-- Default values of the coefficients in `declare_parameters` (the same in
`melt_peridotite_eclogite.cc` and `latent_heat_melt.cc`). -/
noncomputable def defaultKatz : KatzParameters :=
  { A1 := 1085.7, A2 := 1.329e-7, A3 := -5.1e-18
    B1 := 1475.0, B2 := 8.0e-8, B3 := -3.2e-18
    C1 := 1780.0, C2 := 4.50e-8, C3 := -2.0e-18
    r1 := 0.5, r2 := 8e-11, beta := 1.5, M_cpx := 0.15 }

/-- Solidus temperature `T_solidus` at a pressure. -/
noncomputable def KatzParameters.T_solidus (k : KatzParameters) (pressure : ℝ) : ℝ :=
  k.A1 + 273.15 + k.A2 * pressure + k.A3 * pressure * pressure

/-- Lherzolite liquidus temperature `T_lherz_liquidus` at a pressure. -/
noncomputable def KatzParameters.T_lherz_liquidus (k : KatzParameters) (pressure : ℝ) : ℝ :=
  k.B1 + 273.15 + k.B2 * pressure + k.B3 * pressure * pressure

/-- Liquidus temperature `T_liquidus` at a pressure. -/
noncomputable def KatzParameters.T_liquidus (k : KatzParameters) (pressure : ℝ) : ℝ :=
  k.C1 + 273.15 + k.C2 * pressure + k.C3 * pressure * pressure

/-- The function `MeltPeridotiteEclogite::melt_fraction`.  `std::pow` is the real
power; with ordered solidus and liquidus curves and `F_max > 0` every power that is
evaluated on a taken branch has a non-negative base. -/
noncomputable def MeltPeridotiteEclogite.melt_fraction (k : KatzParameters)
    (temperature pressure : ℝ) : ℝ :=
  let T_solidus := k.T_solidus pressure
  let T_lherz_liquidus := k.T_lherz_liquidus pressure
  let T_liquidus := k.T_liquidus pressure
  let peridotite_melt_fraction : ℝ :=
    if temperature < T_solidus ∨ pressure > 1.3e10 then 0
    else if temperature > T_lherz_liquidus then 1
    else ((temperature - T_solidus) / (T_lherz_liquidus - T_solidus)) ^ k.beta
  let R_cpx := k.r1 + k.r2 * max 0 pressure
  let F_max := k.M_cpx / R_cpx
  if peridotite_melt_fraction > F_max ∧ temperature < T_liquidus then
    let T_max := F_max ^ (1 / k.beta) * (T_lherz_liquidus - T_solidus) + T_solidus
    F_max + (1 - F_max) * ((temperature - T_max) / (T_liquidus - T_max)) ^ k.beta
  else peridotite_melt_fraction

/-- The function `LatentHeatMelt::peridotite_melt_fraction` (composition and position
are not used by the body). -/
noncomputable def LatentHeatMelt.peridotite_melt_fraction (k : KatzParameters)
    (temperature pressure : ℝ) : ℝ :=
  let T_solidus := k.T_solidus pressure
  let T_lherz_liquidus := k.T_lherz_liquidus pressure
  let T_liquidus := k.T_liquidus pressure
  let peridotite_melt_fraction : ℝ :=
    if temperature < T_solidus ∨ pressure > 1.3e10 then 0
    else if temperature > T_lherz_liquidus then 1
    else ((temperature - T_solidus) / (T_lherz_liquidus - T_solidus)) ^ k.beta
  let R_cpx := k.r1 + k.r2 * pressure
  let F_max := k.M_cpx / R_cpx
  if peridotite_melt_fraction > F_max ∧ temperature < T_liquidus then
    let T_max := F_max ^ (1 / k.beta) * (T_lherz_liquidus - T_solidus) + T_solidus
    F_max + (1 - F_max) * ((temperature - T_max) / (T_liquidus - T_max)) ^ k.beta
  else peridotite_melt_fraction

/-- The enumeration `NonlinearDependence::Dependence`. -/
inductive Dependence where
  | none
  | temperature
  | pressure
  | strain_rate
  | compositional_fields
  deriving DecidableEq

/-- The function `MeltPeridotiteEclogite::entropy_change`; `none` is the
`AssertThrow(false, "not implemented")`.  The pair `melt_fraction_derivative` holds
the two local variables `melt_fraction_derivative_temperature` and
`melt_fraction_derivative_pressure` after the clinopyroxene-exhaustion branch. -/
noncomputable def MeltPeridotiteEclogite.entropy_change (k : KatzParameters)
    (temperature pressure _maximum_melt_fraction : ℝ) (dependence : Dependence) : Option ℝ :=
  let T_solidus := k.T_solidus pressure
  let T_lherz_liquidus := k.T_lherz_liquidus pressure
  let T_liquidus := k.T_liquidus pressure
  let dT_solidus_dp := k.A2 + 2 * k.A3 * pressure
  let dT_lherz_liquidus_dp := k.B2 + 2 * k.B3 * pressure
  let dT_liquidus_dp := k.C2 + 2 * k.C3 * pressure
  if temperature > T_solidus ∧ temperature < T_liquidus ∧ pressure < 1.3e10 then
    let melt_fraction_derivative_temperature0 : ℝ :=
      k.beta * ((temperature - T_solidus) / (T_lherz_liquidus - T_solidus)) ^ (k.beta - 1)
        / (T_lherz_liquidus - T_solidus)
    let melt_fraction_derivative_pressure0 : ℝ :=
      k.beta * ((temperature - T_solidus) / (T_lherz_liquidus - T_solidus)) ^ (k.beta - 1)
        * (dT_solidus_dp * (temperature - T_lherz_liquidus)
           + dT_lherz_liquidus_dp * (T_solidus - temperature))
        / (T_lherz_liquidus - T_solidus) ^ 2
    let R_cpx := k.r1 + k.r2 * max 0 pressure
    let F_max := k.M_cpx / R_cpx
    let T_max := F_max ^ (1 / k.beta) * (T_lherz_liquidus - T_solidus) + T_solidus
    let dF_max_dp := - k.M_cpx * (k.r1 + k.r2 * pressure) ^ (-2 : ℤ) * k.r2
    let dT_max_dp := dT_solidus_dp
      + 1 / k.beta * F_max ^ (1 / k.beta - 1) * dF_max_dp * (T_lherz_liquidus - T_solidus)
      + F_max ^ (1 / k.beta) * (dT_lherz_liquidus_dp - dT_solidus_dp)
    let melt_fraction_derivative : ℝ × ℝ :=
      if MeltPeridotiteEclogite.melt_fraction k temperature pressure > F_max then
        ((1 - F_max) * k.beta * ((temperature - T_max) / (T_liquidus - T_max)) ^ (k.beta - 1)
            / (T_liquidus - T_max),
         dF_max_dp
            - dF_max_dp * ((temperature - T_max) / (T_liquidus - T_max)) ^ k.beta
            + (1 - F_max) * k.beta * ((temperature - T_max) / (T_liquidus - T_max)) ^ (k.beta - 1)
              * (dT_max_dp * (T_max - T_liquidus)
                 - (dT_liquidus_dp - dT_max_dp) * (temperature - T_max))
              / (T_liquidus - T_max) ^ 2)
      else (melt_fraction_derivative_temperature0, melt_fraction_derivative_pressure0)
    if dependence = Dependence.temperature then some melt_fraction_derivative.1
    else if dependence = Dependence.pressure then some melt_fraction_derivative.2
    else none
  else some 0

/-- Clinopyroxene-exhaustion melt fraction `F_max = M_cpx / R_cpx` of
`MeltPeridotiteEclogite::melt_fraction`. -/
noncomputable def KatzParameters.F_max (k : KatzParameters) (pressure : ℝ) : ℝ :=
  k.M_cpx / (k.r1 + k.r2 * max 0 pressure)

/-- Temperature `T_max` at which the melt fraction reaches `F_max`. -/
noncomputable def KatzParameters.T_max (k : KatzParameters) (pressure : ℝ) : ℝ :=
  k.F_max pressure ^ (1 / k.beta) * (k.T_lherz_liquidus pressure - k.T_solidus pressure)
    + k.T_solidus pressure

/-- Conditions on the coefficients at a pressure under which the melting law is
well-formed: positive exponent, ordered solidus / lherzolite liquidus / liquidus,
and `0 < F_max < 1`. -/
def KatzParameters.Regular (k : KatzParameters) (P : ℝ) : Prop :=
  0 < k.beta ∧ k.T_solidus P < k.T_lherz_liquidus P ∧
  k.T_lherz_liquidus P < k.T_liquidus P ∧ 0 < k.F_max P ∧ k.F_max P < 1

/-- The first-stage melt fraction (clinopyroxene present) of `melt_fraction`. -/
noncomputable def MeltPeridotiteEclogite.first_stage (k : KatzParameters) (T P : ℝ) : ℝ :=
  if T < k.T_solidus P ∨ P > 1.3e10 then 0
  else if T > k.T_lherz_liquidus P then 1
  else ((T - k.T_solidus P) / (k.T_lherz_liquidus P - k.T_solidus P)) ^ k.beta

/-! ## `MeltGlobal` -/

/-- Run-time parameters of `MeltGlobal` that enter the melting rate. -/
structure MeltGlobal where
  surface_solidus : ℚ
  pressure_solidus_change : ℚ
  depletion_solidus_change : ℚ
  include_melting_and_freezing : Bool
  read_melt_from_file : Bool

/-- Default values of `declare_parameters`: `Surface solidus = 1300`,
`Pressure solidus change = 6e-8`, `Depletion solidus change = 200`,
`Include melting and freezing = true`, `Read melt fraction from file = false`. -/
def MeltGlobal.defaults : MeltGlobal :=
  { surface_solidus := 1300
    pressure_solidus_change := 6 / 100000000
    depletion_solidus_change := 200
    include_melting_and_freezing := true
    read_melt_from_file := false }

/-- The function `MeltGlobal::melt_fraction`. -/
def MeltGlobal.melt_fraction (M : MeltGlobal) (temperature pressure depletion : ℚ) : ℚ :=
  let T_solidus := M.surface_solidus + M.pressure_solidus_change * pressure
    + max (M.depletion_solidus_change * depletion) (-200)
  let T_liquidus := T_solidus + 500
  if temperature < T_solidus then 0
  else if temperature > T_liquidus then 1
  else (temperature - T_solidus) / (T_liquidus - T_solidus)

/-- What `MeltGlobal::evaluate` takes from the simulator: switches, time step and the
indices of the named compositional fields (all named fields are assumed to exist). -/
structure MeltGlobal.Context where
  include_melt_transport : Bool
  use_operator_splitting : Bool
  timestep_number : Nat
  timestep : ℚ
  porosity_idx : Nat
  peridotite_idx : Nat
  crystallized_fraction_idx : Nat
  reaction_rate_out : Bool

/-- Data of one evaluation point `i` of `MeltGlobal::evaluate`: the inputs, the values
of the old solution at the point (`fe_value.value_list`), the adiabatic pressure at
the position, the two values looked up in the melt fraction file, and the density
`out.densities[i]` computed at the top of the loop body. -/
structure MeltGlobal.Point where
  temperature : ℚ
  pressure : ℚ
  adiabatic_pressure : ℚ
  composition : Nat → ℚ
  cell_valid : Bool
  has_strain_rate : Bool
  trace_strain_rate : ℚ
  old_solution_porosity : ℚ
  old_solution_peridotite : ℚ
  old_solution_crystallized_fraction : ℚ
  file_peridotite_melt_fraction : ℚ
  file_basalt_melt_fraction : ℚ
  density : ℚ

/-- The entries `old_porosity[i]`, `old_depletion[i]`, `old_melt_composition[i]` after
the first part of `evaluate` (the three vectors start filled with zeros). -/
def MeltGlobal.old_values (M : MeltGlobal) (C : MeltGlobal.Context) (p : MeltGlobal.Point) :
    ℚ × ℚ × ℚ :=
  if C.include_melt_transport = true ∧ p.cell_valid = true ∧ C.timestep_number > 0
      ∧ C.use_operator_splitting = false then
    if M.read_melt_from_file = true ∧ M.include_melting_and_freezing = true then
      (p.old_solution_porosity, p.old_solution_peridotite, p.old_solution_crystallized_fraction)
    else (p.old_solution_porosity, 0, 0)
  else if C.use_operator_splitting = true then
    if M.read_melt_from_file = true then
      (p.composition C.porosity_idx, p.composition C.peridotite_idx,
       p.composition C.crystallized_fraction_idx)
    else (p.composition C.porosity_idx, 0, 0)
  else (0, 0, 0)

/-- The value of `melting_rate` before the two clamping steps. -/
def MeltGlobal.unclamped_melting_rate (M : MeltGlobal) (C : MeltGlobal.Context)
    (p : MeltGlobal.Point) : ℚ :=
  let old_porosity := (M.old_values C p).1
  let old_depletion := (M.old_values C p).2.1
  let old_melt_composition := (M.old_values C p).2.2
  if M.read_melt_from_file = true then
    let eq_melt_fraction := p.file_peridotite_melt_fraction
    let eq_melt_composition := p.file_basalt_melt_fraction
    if eq_melt_fraction ≥ max old_depletion 0 then eq_melt_fraction - max old_depletion 0
    else if old_melt_composition > max eq_melt_composition 0 then
      (eq_melt_composition - old_melt_composition) / old_melt_composition
    else 0
  else
    let eq_melt_fraction := M.melt_fraction p.temperature p.adiabatic_pressure
      (p.composition C.peridotite_idx - p.composition C.porosity_idx)
    eq_melt_fraction - old_porosity

/-- The two clamping steps `do not allow negative porosity or porosity > 1`. -/
def MeltGlobal.limit_melting_rate (old_porosity melting_rate : ℚ) : ℚ :=
  let melting_rate := if old_porosity + melting_rate < 0 then -old_porosity else melting_rate
  if old_porosity + melting_rate > 1 then 1 - old_porosity else melting_rate

/-- The value of `melting_rate` used for the reaction terms. -/
def MeltGlobal.melting_rate (M : MeltGlobal) (C : MeltGlobal.Context)
    (p : MeltGlobal.Point) : ℚ :=
  MeltGlobal.limit_melting_rate (M.old_values C p).1 (M.unclamped_melting_rate C p)

/-- The index `crystallization_idx` (`numbers::invalid_unsigned_int` without a file). -/
def MeltGlobal.crystallization_idx (M : MeltGlobal) (C : MeltGlobal.Context) : Nat :=
  if M.read_melt_from_file = true then C.crystallized_fraction_idx else 4294967295

/-- The entry `out.reaction_terms[i][c]` as first assigned in the loop over the fields. -/
def MeltGlobal.reaction_term (M : MeltGlobal) (C : MeltGlobal.Context)
    (p : MeltGlobal.Point) (c : Nat) : ℚ :=
  let melting_rate := M.melting_rate C p
  let old_melt_composition := (M.old_values C p).2.2
  if c = C.peridotite_idx ∧ C.timestep_number > 1 ∧ p.has_strain_rate = true then
    melting_rate - p.composition C.peridotite_idx * p.trace_strain_rate * C.timestep
  else if c = C.porosity_idx ∧ C.timestep_number > 1 ∧ p.has_strain_rate = true then
    melting_rate * p.density / C.timestep
  else if c = M.crystallization_idx C ∧ C.timestep_number > 1 ∧ p.has_strain_rate = true then
    (if melting_rate > 0 then 0
     else max (melting_rate / old_melt_composition) (-old_melt_composition))
  else 0

/-- The pair (`out.reaction_terms[i][c]`, `reaction_rate_out->reaction_rates[i][c]`)
left by `MeltGlobal::evaluate` for the field `c`; the second component is `none` when
no reaction rate is written. -/
def MeltGlobal.reaction (M : MeltGlobal) (C : MeltGlobal.Context)
    (p : MeltGlobal.Point) (c : Nat) : ℚ × Option ℚ :=
  if C.include_melt_transport = true ∧ M.include_melting_and_freezing = true then
    let melting_rate := M.melting_rate C p
    let reaction_term := M.reaction_term C p c
    if C.use_operator_splitting = true then
      if C.reaction_rate_out = true then
        if (c = C.peridotite_idx ∨ c = M.crystallization_idx C) ∧ C.timestep_number > 0 then
          (0, some (reaction_term / C.timestep))
        else if c = C.porosity_idx ∧ C.timestep_number > 0 then
          (0, some (melting_rate / C.timestep))
        else (0, some 0)
      else (0, none)
    else (reaction_term, none)
  else (0, none)

/-- Simulator state of the examples: melt transport, fields `porosity` (index 0) and
`peridotite` (index 1), time step size 1. -/
def MeltGlobal.exampleContext (use_operator_splitting : Bool) (timestep_number : Nat) :
    MeltGlobal.Context :=
  { include_melt_transport := true
    use_operator_splitting := use_operator_splitting
    timestep_number := timestep_number
    timestep := 1
    porosity_idx := 0
    peridotite_idx := 1
    crystallized_fraction_idx := 2
    reaction_rate_out := true }

/-- Evaluation point of the examples: 1400 K at zero adiabatic pressure, current
porosity `porosity`, peridotite field 0, porosity 0 in the old solution, a strain
rate with zero trace. -/
def MeltGlobal.examplePoint (porosity : ℚ) : MeltGlobal.Point :=
  { temperature := 1400
    pressure := 0
    adiabatic_pressure := 0
    composition := fun c => if c = 0 then porosity else 0
    cell_valid := true
    has_strain_rate := true
    trace_strain_rate := 0
    old_solution_porosity := 0
    old_solution_peridotite := 0
    old_solution_crystallized_fraction := 0
    file_peridotite_melt_fraction := 0
    file_basalt_melt_fraction := 0
    density := 3000 }

/-! ## `MeltPeridotiteEclogite::evaluate`, the melting rate -/

/-- Run-time parameters of `MeltPeridotiteEclogite` that enter the melting rate. -/
structure MeltPeridotiteEclogite.Parameters where
  katz : KatzParameters
  fractional_melting : Bool
  freezing_rate : ℝ
  depletion_solidus_change : ℝ

/-- Data of one evaluation point `i` of `MeltPeridotiteEclogite::evaluate` with melt
transport: temperature, adiabatic pressure at the position, the current fields
`peridotite` and `porosity`, and the entries `old_porosity[i]` and
`maximum_melt_fractions[i]`. -/
structure MeltPeridotiteEclogite.Point where
  temperature : ℝ
  adiabatic_pressure : ℝ
  peridotite : ℝ
  porosity : ℝ
  old_porosity : ℝ
  maximum_melt_fraction : ℝ

/-- The final value of `melting` in `MeltPeridotiteEclogite::evaluate` (melt transport
enabled): fractional or batch melting, freezing, and the clamp `do not allow negative
porosity`.  `year_in_seconds` is a constant of the simulator. -/
noncomputable def MeltPeridotiteEclogite.melting (M : MeltPeridotiteEclogite.Parameters)
    (timestep_number : Nat) (timestep year_in_seconds : ℝ)
    (p : MeltPeridotiteEclogite.Point) : ℝ :=
  let melting0 : ℝ :=
    if M.fractional_melting = true then
      let solidus_change := (p.peridotite - p.porosity) * M.depletion_solidus_change
      let eq_melt_fraction := MeltPeridotiteEclogite.melt_fraction M.katz
        (p.temperature - solidus_change) p.adiabatic_pressure
      eq_melt_fraction - p.old_porosity
    else if timestep_number > 0 then
      MeltPeridotiteEclogite.melt_fraction M.katz p.temperature p.adiabatic_pressure
        - max p.maximum_melt_fraction 0
    else 0
  let freezing_potential :=
    MeltPeridotiteEclogite.melt_fraction M.katz p.temperature p.adiabatic_pressure - p.old_porosity
  let freezing := M.freezing_rate * timestep / year_in_seconds * 0.5
    * (freezing_potential - |freezing_potential|)
  let melting := melting0 + freezing
  if p.old_porosity + melting < 0 then -p.old_porosity else melting

/-! ## `DamageRheology`: viscosity -/

/-- Parameters of one creep law (diffusion or dislocation) in the phase `ol_index`
selected by `get_phase_index`: the entries `[ol_index]` of the activation energy,
activation volume, creep exponent, prefactor and grain size exponent lists. -/
structure DamageRheology.Creep where
  activation_energy : ℝ
  activation_volume : ℝ
  creep_exponent : ℝ
  creep_prefactor : ℝ
  grain_size_exponent : ℝ

/-- State of one call of the viscosity functions: temperature, the pressure used in
the creep laws (`adiabatic_pressure`), the adiabatic temperature at the position when
the adiabatic conditions are initialized, the entry of the field `olivine_grain_size`
and the value `second_invariant(shear_strain_rate)` of the deviatoric strain rate. -/
structure DamageRheology.State where
  temperature : ℝ
  adiabatic_pressure : ℝ
  adiabatic_temperature : Option ℝ
  grain_size : ℝ
  second_invariant : ℝ

/-- The variable `energy_term` of `diffusion_viscosity` and `dislocation_viscosity`
after the clamping against the adiabatic energy term. -/
noncomputable def DamageRheology.energy_term (c : DamageRheology.Creep)
    (gas_constant max_temperature_dependence_of_eta : ℝ) (s : DamageRheology.State) : ℝ :=
  let energy_term := Real.exp ((c.activation_energy + c.activation_volume * s.adiabatic_pressure)
    / (c.creep_exponent * gas_constant * s.temperature))
  match s.adiabatic_temperature with
  | none => energy_term
  | some adiabatic_temperature =>
    let adiabatic_energy_term :=
      Real.exp ((c.activation_energy + c.activation_volume * s.adiabatic_pressure)
        / (c.creep_exponent * gas_constant * adiabatic_temperature))
    let temperature_dependence := energy_term / adiabatic_energy_term
    let energy_term :=
      if temperature_dependence > max_temperature_dependence_of_eta then
        adiabatic_energy_term * max_temperature_dependence_of_eta
      else energy_term
    if temperature_dependence < 1 / max_temperature_dependence_of_eta then
      adiabatic_energy_term / max_temperature_dependence_of_eta
    else energy_term

/-- The function `DamageRheology::diffusion_viscosity` (`std::pow` as the real power). -/
noncomputable def DamageRheology.diffusion_viscosity (c : DamageRheology.Creep)
    (gas_constant max_temperature_dependence_of_eta : ℝ) (s : DamageRheology.State) : ℝ :=
  let second_strain_rate_invariant := Real.sqrt (-s.second_invariant)
  let energy_term := DamageRheology.energy_term c gas_constant max_temperature_dependence_of_eta s
  let strain_rate_dependence := (1 - c.creep_exponent) / c.creep_exponent
  c.creep_prefactor ^ (-1 / c.creep_exponent)
    * second_strain_rate_invariant ^ strain_rate_dependence
    * s.grain_size ^ (c.grain_size_exponent / c.creep_exponent)
    * energy_term

/-- The function `DamageRheology::dislocation_viscosity` (`std::pow` as the real power). -/
noncomputable def DamageRheology.dislocation_viscosity (c : DamageRheology.Creep)
    (gas_constant max_temperature_dependence_of_eta : ℝ) (s : DamageRheology.State) : ℝ :=
  let second_strain_rate_invariant := Real.sqrt (-s.second_invariant)
  let energy_term := DamageRheology.energy_term c gas_constant max_temperature_dependence_of_eta s
  let strain_rate_dependence := (1 - c.creep_exponent) / c.creep_exponent
  c.creep_prefactor ^ (-1 / c.creep_exponent)
    * second_strain_rate_invariant ^ strain_rate_dependence
    * energy_term

/-- The function `DamageRheology::viscosity`; `diffusion` and `dislocation` are the
creep parameters of the phase of the point. -/
noncomputable def DamageRheology.viscosity (diffusion dislocation : DamageRheology.Creep)
    (gas_constant max_temperature_dependence_of_eta : ℝ) (s : DamageRheology.State) : ℝ :=
  let second_strain_rate_invariant := Real.sqrt (-s.second_invariant)
  let diff_viscosity := DamageRheology.diffusion_viscosity diffusion gas_constant
    max_temperature_dependence_of_eta s
  let disl_viscosity := DamageRheology.dislocation_viscosity dislocation gas_constant
    max_temperature_dependence_of_eta s
  if |second_strain_rate_invariant| > 1e-30 then
    disl_viscosity * diff_viscosity / (disl_viscosity + diff_viscosity)
  else diff_viscosity

/-! ## `DamageRheology`: grain size -/

/-- The function `DamageRheology::convert_log_grain_size`; `field` is the index of the
compositional field `olivine_grain_size` when a field of this name exists, `log` and `exp`
are `std::log` and `std::exp`. -/
def DamageRheology.convert_log_grain_size {α : Type} [LinearOrder α] [Neg α]
    (log exp : α → α) (min_grain_size : α)
    (field : Option Nat) (normal_to_log : Bool) (composition : Nat → α) : Nat → α :=
  match field with
  | none => composition
  | some idx =>
    let grain_size := composition idx
    let grain_size :=
      if normal_to_log = true then -log (max grain_size min_grain_size)
      else max (exp (-grain_size)) min_grain_size
    Function.update composition idx grain_size

/-- Default value `1e-5` of the parameter `Minimum grain size`. -/
def DamageRheology.default_min_grain_size : ℚ := 1 / 100000

/-- Local variables `grain_size`, `grain_growth_timestep` and `time` of the
sub-stepping loop of `grain_size_growth_rate`. -/
structure DamageRheology.Substep (α : Type) where
  grain_size : α
  grain_growth_timestep : α
  time : α
  deriving DecidableEq

/-- One pass of the body of the do-while loop.  `growth g dt` and `reduction g dt` are
the values of `grain_size_growth` and `grain_size_reduction` for the current grain
size `g` and sub-step `dt`.  The second component tells whether the pass ends in the
`break` of the branch `grain_size < 0`. -/
def DamageRheology.substep {α : Type} [LinearOrderedField α] (growth reduction : α → α → α)
    (timestep : α) (s : DamageRheology.Substep α) : DamageRheology.Substep α × Bool :=
  let grain_size := s.grain_size
  let time := s.time + s.grain_growth_timestep
  let grain_growth_timestep :=
    if timestep - time < 0 then timestep - (time - s.grain_growth_timestep)
    else s.grain_growth_timestep
  let time := if timestep - time < 0 then timestep else time
  let grain_size_growth := growth grain_size grain_growth_timestep
  let grain_size_reduction := reduction grain_size grain_growth_timestep
  let grain_size_change := grain_size_growth - grain_size_reduction
  let next : DamageRheology.Substep α :=
    if (grain_size_change / grain_size < 1 / 1000 ∧ grain_size_growth / grain_size < 1 / 10
          ∧ grain_size_reduction / grain_size < 1 / 10) ∨ grain_size = 0 then
      { grain_size := grain_size + grain_size_change
        grain_growth_timestep := grain_growth_timestep * 2
        time := time }
    else if grain_size_change / grain_size > 1 / 10 ∨ grain_size_growth / grain_size > 1 / 2
          ∨ grain_size_reduction / grain_size > 1 / 2 then
      { grain_size := grain_size + 0
        grain_growth_timestep := grain_growth_timestep / 2
        time := time - grain_growth_timestep }
    else
      { grain_size := grain_size + grain_size_change
        grain_growth_timestep := grain_growth_timestep
        time := time }
  (next, decide (next.grain_size < 0))

/-- The sub-step `grain_growth_timestep` that a pass of the loop uses: the current one, or
the rest of the time step when the current one would pass the end of the time step. -/
def DamageRheology.substep_timestep {α : Type} [LinearOrderedField α] (timestep : α)
    (s : DamageRheology.Substep α) : α :=
  if timestep - (s.time + s.grain_growth_timestep) < 0 then
    timestep - (s.time + s.grain_growth_timestep - s.grain_growth_timestep)
  else s.grain_growth_timestep

/-- Whether a pass of the loop takes the branch that rejects the sub-step
(`grain_size_change = 0`, `time -= grain_growth_timestep`, `grain_growth_timestep /= 2`):
the first condition of the source fails and the second one holds. -/
def DamageRheology.substep_rejected {α : Type} [LinearOrderedField α]
    (growth reduction : α → α → α) (timestep : α) (s : DamageRheology.Substep α) : Prop :=
  let grain_size := s.grain_size
  let grain_growth_timestep := DamageRheology.substep_timestep timestep s
  let grain_size_growth := growth grain_size grain_growth_timestep
  let grain_size_reduction := reduction grain_size grain_growth_timestep
  let grain_size_change := grain_size_growth - grain_size_reduction
  ¬ ((grain_size_change / grain_size < 1 / 1000 ∧ grain_size_growth / grain_size < 1 / 10
        ∧ grain_size_reduction / grain_size < 1 / 10) ∨ grain_size = 0) ∧
  (grain_size_change / grain_size > 1 / 10 ∨ grain_size_growth / grain_size > 1 / 2
    ∨ grain_size_reduction / grain_size > 1 / 2)

/-- The do-while loop, with a bound `fuel` on the number of passes (`none` when the
loop has not finished after `fuel` passes).  The second component of the result
tells whether the loop was left through `break`. -/
def DamageRheology.substep_loop {α : Type} [LinearOrderedField α]
    (growth reduction : α → α → α) (timestep : α) :
    Nat → DamageRheology.Substep α → Option (DamageRheology.Substep α × Bool)
  | 0, _ => none
  | fuel + 1, s =>
    let r := DamageRheology.substep growth reduction timestep s
    if r.2 = true then some r
    else if r.1.time < timestep then DamageRheology.substep_loop growth reduction timestep fuel r.1
    else some r

/-- The function `DamageRheology::grain_size_growth_rate`.  `original_grain_size` is
`compositional_fields[field_index]`, `olivine` tells whether the field is
`olivine_grain_size`, `crossed_transition` is `-1` or the index of a transition.
The test `original_grain_size != original_grain_size` for a NaN is always false here.
The smallest positive normal `double` is `2^(-1022)`; 500 years are 15778800000 s. -/
def DamageRheology.grain_size_growth_rate {α : Type} [LinearOrderedField α]
    (growth reduction : α → α → α) (fuel : Nat) (original_grain_size timestep : α)
    (olivine : Bool) (timestep_number : Nat) (crossed_transition : Int)
    (recrystallized_grain_size : List α) : Option α :=
  if timestep = 0 ∨ original_grain_size < 1 / 2 ^ 1022 then some 0
  else
    (DamageRheology.substep_loop growth reduction timestep fuel
      { grain_size := original_grain_size, grain_growth_timestep := 15778800000, time := 0 }).bind
    fun r =>
      let grain_size := r.1.grain_size
      let phase_grain_size_reduction : Option α :=
        if olivine = true ∧ timestep_number > 0 then
          if crossed_transition ≠ -1 then
            if crossed_transition < 0 then none
            else (recrystallized_grain_size.get? crossed_transition.toNat).map fun d =>
              if d > 0 then grain_size - d else 0
          else some 0
        else some 0
      let grain_size := if grain_size < 5 / 1000000 then 5 / 1000000 else grain_size
      phase_grain_size_reduction.map fun reduction_at_transition =>
        grain_size - original_grain_size - reduction_at_transition

/-- Parameters of grain growth and grain size reduction in the phase `ol_index`, and
the quantities of one call of `grain_size_growth_rate` that do not change in the
loop: temperature, pressure, `second_strain_rate_invariant`, the value of
`dislocation_viscosity(...)`, and `viscosity(...)` as a function of the grain size
stored in `current_composition`. -/
structure DamageRheology.GrainSizeTerms where
  temperature : ℝ
  pressure : ℝ
  gas_constant : ℝ
  grain_growth_exponent : ℝ
  grain_growth_rate_constant : ℝ
  grain_growth_activation_energy : ℝ
  grain_growth_activation_volume : ℝ
  second_strain_rate_invariant : ℝ
  viscosity : ℝ → ℝ
  dislocation_viscosity : ℝ
  use_paleowattmeter : Bool
  boundary_area_change_work_fraction : ℝ
  geometric_constant : ℝ
  grain_boundary_energy : ℝ
  reciprocal_required_strain : ℝ

/-- The value `grain_size_growth` (Ostwald ripening) of one pass. -/
noncomputable def DamageRheology.grain_size_growth (E : DamageRheology.GrainSizeTerms)
    (grain_size grain_growth_timestep : ℝ) : ℝ :=
  let m := E.grain_growth_exponent
  E.grain_growth_rate_constant / (m * grain_size ^ (m - 1))
    * Real.exp (-(E.grain_growth_activation_energy + E.pressure * E.grain_growth_activation_volume)
        / (E.gas_constant * E.temperature))
    * grain_growth_timestep

/-- The value `grain_size_reduction` (paleowattmeter or paleopiezometer) of one pass. -/
noncomputable def DamageRheology.grain_size_reduction (E : DamageRheology.GrainSizeTerms)
    (grain_size grain_growth_timestep : ℝ) : ℝ :=
  let dislocation_strain_rate := E.second_strain_rate_invariant * E.viscosity grain_size
    / E.dislocation_viscosity
  if E.use_paleowattmeter = true then
    let stress := 2 * E.second_strain_rate_invariant * E.viscosity grain_size
    stress * E.boundary_area_change_work_fraction * dislocation_strain_rate * grain_size ^ 2
      / (E.geometric_constant * E.grain_boundary_energy)
      * grain_growth_timestep
  else
    E.reciprocal_required_strain * dislocation_strain_rate * grain_size * grain_growth_timestep

/-- Example of a point at rest: zero `Grain growth rate constant`, zero strain rate,
the other parameters at their default values (paleowattmeter). -/
noncomputable def DamageRheology.restingTerms : DamageRheology.GrainSizeTerms :=
  { temperature := 1600
    pressure := 1e9
    gas_constant := 8.3144621
    grain_growth_exponent := 3
    grain_growth_rate_constant := 0
    grain_growth_activation_energy := 3.5e5
    grain_growth_activation_volume := 8e-6
    second_strain_rate_invariant := 0
    viscosity := fun _ => 1e21
    dislocation_viscosity := 1e21
    use_paleowattmeter := true
    boundary_area_change_work_fraction := 0.1
    geometric_constant := 3
    grain_boundary_energy := 1
    reciprocal_required_strain := 10 }

/-! ## `MeltGlobal`: the documented melting law, units of the melt fraction file -/

/-- The melting law as the description of the model states it (text of
`ASPECT_REGISTER_MATERIAL_MODEL(MeltGlobal, ...)` and of the parameter
`Depletion solidus change`, "scaling with depletion is linear"): the fraction
`(T - T_sol) / (T_liq - T_sol)` limited to `[0, 1]`, with
`T_sol = T_sol,0 + ΔT_p p + ΔT_c C` and `T_liq = T_sol + 500`. -/
def MeltGlobal.documented_melt_fraction (M : MeltGlobal)
    (temperature pressure depletion : ℚ) : ℚ :=
  let T_sol := M.surface_solidus + M.pressure_solidus_change * pressure
    + M.depletion_solidus_change * depletion
  let T_liq := T_sol + 500
  max 0 (min 1 ((temperature - T_sol) / (T_liq - T_sol)))

/-- Unit selection in the constructor of `MeltFractionLookup`: the pair
(`pressure_scaling_factor`, `temperature_offset`), or `none` when one of the two
`AssertThrow (false, ...)` is reached. -/
def MeltFractionLookup.units (p_unit T_unit : String) : Option (ℚ × ℚ) :=
  (if p_unit = "GPa" then some (1000000000 : ℚ)
   else if p_unit = "Pa" then some 1
   else if p_unit = "bar" then some 100000
   else if p_unit = "kbar" then some 100000000
   else none).bind fun pressure_scaling_factor =>
  (if T_unit = "Kelvin" then some (0 : ℚ)
   else if p_unit = "Celsius" then some (-27315 / 100)
   else none).bind fun temperature_offset =>
  some (pressure_scaling_factor, temperature_offset)

/-- Scalar data members of `MeltFractionLookup` after the header part of the constructor. -/
structure MeltFractionLookup where
  delta_press : ℚ
  min_press : ℚ
  max_press : ℚ
  delta_temp : ℚ
  min_temp : ℚ
  max_temp : ℚ
  numtemp : Nat
  numpress : Nat
  interpolation : Bool

/-- Header part of the constructor of `MeltFractionLookup`: unit selection, conversion of
the header numbers, the header assertions and the upper axis bounds. -/
def MeltFractionLookup.header (hdr : PerplexHeader) (interpol : Bool)
    (p_unit T_unit : String) : Option MeltFractionLookup :=
  (MeltFractionLookup.units p_unit T_unit).bind fun u =>
  let pressure_scaling_factor := u.1
  let temperature_offset := u.2
  let min_temp := hdr.min_temp + temperature_offset
  let delta_temp := hdr.delta_temp
  let numtemp := hdr.numtemp
  let min_press := hdr.min_press * pressure_scaling_factor
  let delta_press := hdr.delta_press * pressure_scaling_factor
  let numpress := hdr.numpress
  if ¬ (min_temp ≥ 0) then none
  else if ¬ (delta_temp > 0) then none
  else if ¬ (numtemp > 0) then none
  else if ¬ (min_press ≥ 0) then none
  else if ¬ (delta_press > 0) then none
  else if ¬ (numpress > 0) then none
  else
    some
      { delta_press := delta_press
        min_press := min_press
        max_press := min_press + ((numpress - 1 : Nat) : ℚ) * delta_press
        delta_temp := delta_temp
        min_temp := min_temp
        max_temp := min_temp + ((numtemp - 1 : Nat) : ℚ) * delta_temp
        numtemp := numtemp
        numpress := numpress
        interpolation := interpol }

/-! ## `Viscoelastic::compute_volume_fractions` -/

/-- The loop `for (i < n) x_comp[i] = 0.0`: the first `n` entries are set to zero;
`none` when the vector has fewer than `n` entries. -/
def Viscoelastic.zero_first : Nat → List ℚ → Option (List ℚ)
  | 0, xs => some xs
  | _ + 1, [] => none
  | n + 1, _ :: xs => (Viscoelastic.zero_first n xs).map fun ys => 0 :: ys

/-- The function `Viscoelastic::compute_volume_fractions` in dimension `dim`
(`SymmetricTensor<2,dim>::n_independent_components` is `dim*(dim+1)/2`), with every
arithmetic result rounded by `fl`; the sum is accumulated from left to right. -/
def Viscoelastic.compute_volume_fractions (fl : ℚ → ℚ) (dim : Nat)
    (compositional_fields : List ℚ) : Option (List ℚ) :=
  let x_comp := compositional_fields.map fun x => min (max x 0) 1
  (Viscoelastic.zero_first (dim * (dim + 1) / 2) x_comp).map fun x_comp =>
    let sum_composition := x_comp.foldl (fun sum_composition x => fl (sum_composition + x)) 0
    if sum_composition ≥ 1 then 0 :: x_comp.map fun x => fl (x / sum_composition)
    else fl (1 - sum_composition) :: x_comp

/-! ## `MeltPeridotiteEclogite::evaluate`, the reaction terms -/

/-- Quotient of two `double`s, rounded by `fl`; `none` when the divisor is zero (the
result is then an infinity or not a number). -/
def quotient {α : Type} [Field α] [DecidableEq α] (fl : α → α) (a b : α) : Option α :=
  if b = 0 then none else some (fl (a / b))

/-- The entry `out.reaction_terms[i][c]` of `MeltPeridotiteEclogite::evaluate` for the
final value of the local `melting`, the entry `maximum_melt_fractions[i]`, the density
`out.densities[i]` and the time step size, with every arithmetic result rounded by `fl`;
`has_strain_rate` is `in.strain_rate.size()` being non-zero. -/
def MeltPeridotiteEclogite.reaction_term {α : Type} [Field α] [DecidableEq α]
    (fl : α → α) (peridotite_idx porosity_idx : Nat) (timestep_number : Nat)
    (has_strain_rate : Bool) (melting maximum_melt_fraction density timestep : α)
    (c : Nat) : Option α :=
  if c = peridotite_idx ∧ timestep_number > 0 ∧ has_strain_rate = true then
    quotient fl (fl (melting * fl (1 - maximum_melt_fraction)))
      (fl (1 - maximum_melt_fraction))
  else if c = porosity_idx ∧ timestep_number > 0 ∧ has_strain_rate = true then
    quotient fl (fl (melting * density)) timestep
  else some 0

/-! ## `DamageRheology`: phase transitions -/

/-- Data members of `DamageRheology` read by the phase functions, with the parts of the
simulator they consult: whether the adiabatic conditions are initialized, the adiabatic
pressure at the representative point of a depth, and the reference density. -/
structure DamageRheology.Transitions (α : Type) where
  transition_depths : List α
  transition_temperatures : List α
  transition_slopes : List α
  grain_growth_activation_energy : List α
  reference_rho : α
  adiabatic_initialized : Bool
  adiabatic_pressure : α → α

/-- The local `pressure_deviation` of `phase_function` and `thermodynamic_phase` for the
transition `phase`; `none` when a list has no entry `phase`. -/
def DamageRheology.pressure_deviation {α : Type} [LinearOrderedField α]
    (P : DamageRheology.Transitions α) (temperature pressure : α) (phase : Nat) : Option α :=
  (P.transition_depths.get? phase).bind fun transition_depth =>
  (P.transition_slopes.get? phase).bind fun transition_slope =>
  (P.transition_temperatures.get? phase).bind fun transition_temperature =>
  let transition_pressure := P.adiabatic_pressure transition_depth
  some (pressure - transition_pressure
    - transition_slope * (temperature - transition_temperature))

/-- The local `depth_deviation` of `phase_function`, for a position of the given depth and
norm of the gravity vector. -/
def DamageRheology.depth_deviation {α : Type} [LinearOrderedField α]
    (P : DamageRheology.Transitions α) (depth gravity_norm temperature pressure : α)
    (phase : Nat) : Option α :=
  (P.transition_depths.get? phase).bind fun transition_depth =>
  (P.transition_slopes.get? phase).bind fun transition_slope =>
  (P.transition_temperatures.get? phase).bind fun transition_temperature =>
  some (if pressure > 0 then
      depth - transition_depth
        - transition_slope * (depth / pressure) * (temperature - transition_temperature)
    else
      depth - transition_depth
        - transition_slope / (gravity_norm * P.reference_rho)
          * (temperature - transition_temperature))

/-- The function `DamageRheology::phase_function`; `none` when the `Assert` on the phase
index fails. -/
def DamageRheology.phase_function {α : Type} [LinearOrderedField α]
    (P : DamageRheology.Transitions α) (depth gravity_norm temperature pressure : α)
    (phase : Nat) : Option α :=
  if ¬ (phase < P.transition_depths.length) then none
  else if P.adiabatic_initialized = true then
    (DamageRheology.pressure_deviation P temperature pressure phase).map
      fun pressure_deviation => if pressure_deviation > 0 then 1 else 0
  else
    (DamageRheology.depth_deviation P depth gravity_norm temperature pressure phase).map
      fun depth_deviation => if depth_deviation > 0 then 1 else 0

/-- One pass of the loop of `thermodynamic_phase`. -/
def DamageRheology.thermodynamic_phase_step {α : Type} [LinearOrderedField α]
    (P : DamageRheology.Transitions α) (temperature pressure : α)
    (acc : Option Nat) (phase : Nat) : Option Nat :=
  acc.bind fun phase_index =>
  (DamageRheology.pressure_deviation P temperature pressure phase).map
    fun pressure_deviation => if pressure_deviation > 0 then phase + 1 else phase_index

/-- The function `DamageRheology::thermodynamic_phase`. -/
def DamageRheology.thermodynamic_phase {α : Type} [LinearOrderedField α]
    (P : DamageRheology.Transitions α) (temperature pressure : α) : Option Nat :=
  (List.range P.transition_depths.length).foldl
    (DamageRheology.thermodynamic_phase_step P temperature pressure) (some 0)

/-- One pass of the loop over `j` of `get_phase_index`. -/
def DamageRheology.get_phase_index_step {α : Type} [LinearOrderedField α]
    (P : DamageRheology.Transitions α) (depth gravity_norm temperature pressure : α)
    (acc : Option Nat) (j : Nat) : Option Nat :=
  acc.bind fun phase_index =>
  (DamageRheology.phase_function P depth gravity_norm temperature pressure j).bind fun fj =>
  (DamageRheology.phase_function P depth gravity_norm temperature pressure (j - 1)).map
    fun fj1 => if fj ≠ fj1 then j else phase_index

/-- The function `DamageRheology::get_phase_index`; `none` when an `Assert` fails. -/
def DamageRheology.get_phase_index {α : Type} [LinearOrderedField α]
    (P : DamageRheology.Transitions α) (depth gravity_norm temperature pressure : α) :
    Option Nat :=
  if ¬ (P.grain_growth_activation_energy.length > 0) then none
  else
    (if P.transition_depths.length > 0 then
      (DamageRheology.phase_function P depth gravity_norm temperature pressure
        (P.transition_depths.length - 1)).map
        fun f => if f = 1 then P.transition_depths.length else 0
    else some 0).bind fun phase_index =>
    (List.range' 1 (P.transition_depths.length - 1)).foldl
      (DamageRheology.get_phase_index_step P depth gravity_norm temperature pressure)
      (some phase_index)

/-- An example with the transitions at 410 km and 660 km depth. -/
def DamageRheology.exampleTransitions : DamageRheology.Transitions ℚ where
  transition_depths := [410000, 660000]
  transition_temperatures := [1600, 1600]
  transition_slopes := [0, 0]
  grain_growth_activation_energy := [350000, 350000, 350000]
  reference_rho := 3400
  adiabatic_initialized := true
  adiabatic_pressure := fun depth => 30000 * depth

/-! ## `DamageRheology::parse_parameters` -/

/-- Value of `n-1` for a `std::size_t n` (wraps around at `n = 0`). -/
def size_sub1 (n : Nat) : Nat := (n + 18446744073709551615) % 18446744073709551616

/-- The list-valued parameters that `DamageRheology::parse_parameters` reads, with the
two parameters that enter the checks and the scaling of the last entries. -/
structure DamageRheology.ParameterLists (α : Type) where
  transition_depths : List α
  transition_temperatures : List α
  transition_slopes : List α
  transition_phases : List String
  recrystallized_grain_size : List α
  transition_widths : List α
  grain_growth_activation_energy : List α
  grain_growth_activation_volume : List α
  grain_growth_rate_constant : List α
  grain_growth_exponent : List α
  reciprocal_required_strain : List α
  use_paleowattmeter : Bool
  grain_boundary_energy : List α
  boundary_area_change_work_fraction : List α
  geometric_constant : List α
  dislocation_creep_exponent : List α
  dislocation_activation_energy : List α
  dislocation_activation_volume : List α
  dislocation_creep_prefactor : List α
  diffusion_creep_exponent : List α
  diffusion_activation_energy : List α
  diffusion_activation_volume : List α
  diffusion_creep_prefactor : List α
  diffusion_creep_grain_size_exponent : List α
  pv_grain_size_scaling : α

/-- Outcome of `parse_parameters`: the stored lists, the fatal error of an `AssertThrow`,
or an access past the end of a vector. -/
inductive DamageRheology.Parsed (α : Type) where
  | accepted (c : DamageRheology.ParameterLists α)
  | fatal_error
  | out_of_range

/-- The list checks and the scaling of `DamageRheology::parse_parameters`, in the order of
the source; `pow` is `std::pow`. -/
def DamageRheology.parse_parameters {α : Type} [Field α] (pow : α → α → α)
    (c : DamageRheology.ParameterLists α) : DamageRheology.Parsed α :=
  if c.transition_temperatures.length ≠ c.transition_depths.length ∨
      c.transition_slopes.length ≠ c.transition_depths.length ∨
      c.transition_phases.length ≠ c.transition_depths.length ∨
      c.transition_widths.length ≠ c.transition_depths.length ∨
      c.recrystallized_grain_size.length ≠ c.transition_depths.length then
    DamageRheology.Parsed.fatal_error
  else
    match c.grain_growth_exponent.get? (size_sub1 c.grain_growth_exponent.length),
      c.diffusion_creep_prefactor.get? (size_sub1 c.diffusion_creep_prefactor.length),
      c.grain_growth_rate_constant.get? (size_sub1 c.grain_growth_rate_constant.length) with
    | some exponent, some prefactor, some rate_constant =>
      let diffusion_creep_prefactor := c.diffusion_creep_prefactor.set
        (size_sub1 c.diffusion_creep_prefactor.length)
        (prefactor * pow c.pv_grain_size_scaling exponent)
      let grain_growth_rate_constant := c.grain_growth_rate_constant.set
        (size_sub1 c.grain_growth_rate_constant.length)
        (rate_constant / pow c.pv_grain_size_scaling (exponent - 1))
      if c.grain_growth_activation_energy.length ≠ c.grain_growth_activation_volume.length ∨
          c.grain_growth_activation_energy.length ≠ grain_growth_rate_constant.length ∨
          c.grain_growth_activation_energy.length ≠ c.grain_growth_exponent.length ∨
          c.grain_growth_activation_energy.length ≠ c.dislocation_creep_exponent.length ∨
          c.grain_growth_activation_energy.length ≠ c.dislocation_activation_energy.length ∨
          c.grain_growth_activation_energy.length ≠ c.dislocation_activation_volume.length ∨
          c.grain_growth_activation_energy.length ≠ c.dislocation_creep_prefactor.length ∨
          c.grain_growth_activation_energy.length ≠ c.diffusion_creep_exponent.length ∨
          c.grain_growth_activation_energy.length ≠ c.diffusion_activation_energy.length ∨
          c.grain_growth_activation_energy.length ≠ c.diffusion_activation_volume.length ∨
          c.grain_growth_activation_energy.length ≠ diffusion_creep_prefactor.length ∨
          c.grain_growth_activation_energy.length
            ≠ c.diffusion_creep_grain_size_exponent.length then
        DamageRheology.Parsed.fatal_error
      else if c.use_paleowattmeter = true ∧
          (c.grain_growth_activation_energy.length ≠ c.grain_boundary_energy.length ∨
           c.grain_growth_activation_energy.length
             ≠ c.boundary_area_change_work_fraction.length ∨
           c.grain_growth_activation_energy.length ≠ c.geometric_constant.length) then
        DamageRheology.Parsed.fatal_error
      else if c.use_paleowattmeter = false ∧
          ¬ (c.grain_growth_activation_energy.length
            = c.reciprocal_required_strain.length) then
        DamageRheology.Parsed.fatal_error
      else if ¬ (c.grain_growth_activation_energy.length
          = c.transition_depths.length + 1) then
        DamageRheology.Parsed.fatal_error
      else
        DamageRheology.Parsed.accepted
          { c with
            diffusion_creep_prefactor := diffusion_creep_prefactor
            grain_growth_rate_constant := grain_growth_rate_constant }
    | _, _, _ => DamageRheology.Parsed.out_of_range

/-- A parameter file with `n` copies of each per-transition entry and `m` copies of the
default value of each per-phase entry; the entries of 'Phase transition depths' are given. -/
def DamageRheology.exampleLists (transition_depths : List ℚ) (n m : Nat) :
    DamageRheology.ParameterLists ℚ where
  transition_depths := transition_depths
  transition_temperatures := List.replicate n 1600
  transition_slopes := List.replicate n 0
  transition_phases := List.replicate n "olivine"
  recrystallized_grain_size := List.replicate n (1 / 100000)
  transition_widths := List.replicate n 50000
  grain_growth_activation_energy := List.replicate m 350000
  grain_growth_activation_volume := List.replicate m (8 / 1000000)
  grain_growth_rate_constant := List.replicate m (15 / 1000000)
  grain_growth_exponent := List.replicate m 3
  reciprocal_required_strain := List.replicate m 10
  use_paleowattmeter := true
  grain_boundary_energy := List.replicate m 1
  boundary_area_change_work_fraction := List.replicate m (1 / 10)
  geometric_constant := List.replicate m 3
  dislocation_creep_exponent := List.replicate m (35 / 10)
  dislocation_activation_energy := List.replicate m 480000
  dislocation_activation_volume := List.replicate m (11 / 1000000)
  dislocation_creep_prefactor := List.replicate m (457 / 100000000000000000000)
  diffusion_creep_exponent := List.replicate m 1
  diffusion_activation_energy := List.replicate m 335000
  diffusion_activation_volume := List.replicate m (4 / 1000000)
  diffusion_creep_prefactor := List.replicate m (74 / 10000000000000000)
  diffusion_creep_grain_size_exponent := List.replicate m 3
  pv_grain_size_scaling := 1

/-! ## `AnalyticSolutions::interpolate` of the solitary wave benchmark -/

/-- Outcome of a run of `interpolate`: the returned value, an access past the end of a
table, or a search loop that has not finished after the given number of passes. -/
inductive AnalyticSolutions.Outcome where
  | value (v : ℚ)
  | out_of_range
  | unfinished
  deriving DecidableEq

/-- Outcome of the search loop of `interpolate`: the index `j` at which it stops. -/
inductive AnalyticSolutions.Search where
  | found (j : Nat)
  | out_of_range
  | unfinished
  deriving DecidableEq

/-- The `while` loop of `interpolate` with the `unsigned int` variables `j` and `i`, run
for at most `fuel` passes. -/
def AnalyticSolutions.search (coordinate : List ℚ) (x : ℚ) :
    Nat → Nat → Nat → AnalyticSolutions.Search
  | 0, _, _ => AnalyticSolutions.Search.unfinished
  | fuel + 1, j, i =>
    match coordinate.get? j with
    | none => AnalyticSolutions.Search.out_of_range
    | some cj =>
      if x < cj then
        match coordinate.get? ((j + 1) % 4294967296) with
        | none => AnalyticSolutions.Search.out_of_range
        | some cj1 =>
          if x ≥ cj1 then AnalyticSolutions.Search.found j
          else
            AnalyticSolutions.search coordinate x fuel ((j + i) % 4294967296)
              (if i > 1 then i / 2 else i)
      else
        AnalyticSolutions.search coordinate x fuel ((j + 4294967296 - i) % 4294967296)
          (if i > 1 then i / 2 else i)

/-- The function `AnalyticSolutions::interpolate` on the tables `coordinate` and
`porosity`, with at most `fuel` passes of the search loop. -/
def AnalyticSolutions.interpolate (coordinate porosity : List ℚ) (fuel : Nat)
    (position offset : ℚ) : AnalyticSolutions.Outcome :=
  let x := if position > offset then position - offset else offset - position
  match coordinate.get? 0 with
  | none => AnalyticSolutions.Outcome.out_of_range
  | some c0 =>
    if x > c0 then
      match porosity.get? 0 with
      | none => AnalyticSolutions.Outcome.out_of_range
      | some p0 => AnalyticSolutions.Outcome.value p0
    else
      let j := (coordinate.length + 18446744073709551614) % 18446744073709551616
        % 4294967296
      let i := j / 2
      match AnalyticSolutions.search coordinate x fuel j i with
      | AnalyticSolutions.Search.unfinished => AnalyticSolutions.Outcome.unfinished
      | AnalyticSolutions.Search.out_of_range => AnalyticSolutions.Outcome.out_of_range
      | AnalyticSolutions.Search.found j =>
        match coordinate.get? j, coordinate.get? ((j + 1) % 4294967296),
          porosity.get? j, porosity.get? ((j + 1) % 4294967296) with
        | some cj, some cj1, some pj, some pj1 =>
          let distance := (x - cj1) / (cj - cj1)
          AnalyticSolutions.Outcome.value (pj1 + distance * (pj - pj1))
        | _, _, _, _ => AnalyticSolutions.Outcome.out_of_range

/-! ## Lemmas on the table lookup and the readers -/

theorem toUnsigned_natCast (k : Nat) (hk : k < 4294967296) : toUnsigned (k : ℚ) = some k := by
  unfold toUnsigned
  have h1 : (-1 : ℚ) < (k : ℚ) := by
    have : (0 : ℚ) ≤ (k : ℚ) := Nat.cast_nonneg k
    linarith
  have h2 : (k : ℚ) < 4294967296 := by exact_mod_cast hk
  rw [if_pos ⟨h1, h2⟩]
  simp

theorem Table.get_of_lt (t : Table) (i j : Nat) (hi : i < t.n_rows) (hj : j < t.n_cols) :
    t.get i j = some (t.data i j) := by
  unfold Table.get
  rw [if_pos ⟨hi, hj⟩]

/-- Evaluation of `value` with interpolation from the two fractional indices. -/
theorem MaterialLookup.value_interpolated (L : MaterialLookup) (T P : ℚ) (values : Table)
    (nT np : ℚ) (inT inp : Nat)
    (h1 : L.get_nT T = some nT) (h2 : toUnsigned nT = some inT)
    (h3 : L.get_np P = some np) (h4 : toUnsigned np = some inp)
    (hr : inT + 1 < values.n_rows) (hc : inp + 1 < values.n_cols)
    (hxi : 0 ≤ nT - inT ∧ nT - inT ≤ 1) (heta : 0 ≤ np - inp ∧ np - inp ≤ 1) :
    L.value T P values true
      = some ((1 - (nT - inT)) * (1 - (np - inp)) * values.data inT inp
              + (nT - inT) * (1 - (np - inp)) * values.data (inT + 1) inp
              + (1 - (nT - inT)) * (np - inp) * values.data inT (inp + 1)
              + (nT - inT) * (np - inp) * values.data (inT + 1) (inp + 1)) := by
  have hr0 : inT < values.n_rows := by omega
  have hc0 : inp < values.n_cols := by omega
  unfold MaterialLookup.value
  rw [h1, Option.some_bind, h2, Option.some_bind, h3, Option.some_bind, h4, Option.some_bind]
  simp only [not_not, hr0, hc0, not_true_eq_false, if_false, Bool.not_true, Bool.false_eq_true]
  rw [if_neg (by simpa using hxi), if_neg (by simpa using heta)]
  rw [Table.get_of_lt _ _ _ hr0 hc0, Table.get_of_lt _ _ _ hr hc0,
    Table.get_of_lt _ _ _ hr0 hc, Table.get_of_lt _ _ _ hr hc]
  rfl

theorem Table.set_dims (t t1 : Table) (i j : Nat) (v : ℚ) (h : t.set i j v = some t1) :
    (t1.n_rows, t1.n_cols) = (t.n_rows, t.n_cols) := by
  unfold Table.set at h
  split_ifs at h
  cases h
  rfl

theorem PerplexReader.row_shape (s s1 : MaterialLookup × Nat) (r : PerplexRow)
    (h : PerplexReader.row s r = some s1) : s1.1.shape = s.1.shape := by
  unfold PerplexReader.row at h
  simp only [Option.bind_eq_some] at h
  obtain ⟨_, _, _, _, _, _, _, _, _, _, _, _, t1, h1, t2, h2, t3, h3, t4, h4, t5, h5, t6, h6, hs⟩ := h
  cases hs
  have e1 := Table.set_dims _ _ _ _ _ h1
  have e2 := Table.set_dims _ _ _ _ _ h2
  have e3 := Table.set_dims _ _ _ _ _ h3
  have e4 := Table.set_dims _ _ _ _ _ h4
  have e5 := Table.set_dims _ _ _ _ _ h5
  have e6 := Table.set_dims _ _ _ _ _ h6
  simp only [MaterialLookup.shape, MaterialLookup.tables, List.map, e1, e2, e3, e4, e5, e6]

theorem PerplexReader.loop_shape (rows : List PerplexRow) :
    ∀ s s1 : MaterialLookup × Nat, PerplexReader.loop s rows = some s1 → s1.1.shape = s.1.shape := by
  induction rows with
  | nil =>
    intro s s1 h
    simp only [PerplexReader.loop, Option.some.injEq] at h
    rw [h]
  | cons r rs ih =>
    intro s s1 h
    simp only [PerplexReader.loop, Option.bind_eq_some] at h
    obtain ⟨s2, h2, h3⟩ := h
    rw [ih s2 s1 h3, PerplexReader.row_shape s s2 r h2]

theorem PerplexReader.header_shape (hdr : PerplexHeader) (interpol : Bool) (L : MaterialLookup)
    (h : PerplexReader.header hdr interpol = some L) :
    L.shape = ((hdr.delta_press * 100000, hdr.min_press * 100000,
                hdr.min_press * 100000 + ((hdr.numtemp - 1 : Nat) : ℚ) * (hdr.delta_press * 100000),
                hdr.delta_temp, hdr.min_temp,
                hdr.min_temp + ((hdr.numtemp - 1 : Nat) : ℚ) * hdr.delta_temp),
               (hdr.numtemp, hdr.numpress, interpol),
               List.replicate 6 (hdr.numtemp, hdr.numpress)) := by
  unfold PerplexReader.header at h
  simp only at h
  split_ifs at h
  cases h
  rfl

theorem PerplexReader.shape_eq (hdr : PerplexHeader) (rows : List PerplexRow) (interpol : Bool)
    (L : MaterialLookup) (h : PerplexReader hdr rows interpol = some L) :
    L.shape = ((hdr.delta_press * 100000, hdr.min_press * 100000,
                hdr.min_press * 100000 + ((hdr.numtemp - 1 : Nat) : ℚ) * (hdr.delta_press * 100000),
                hdr.delta_temp, hdr.min_temp,
                hdr.min_temp + ((hdr.numtemp - 1 : Nat) : ℚ) * hdr.delta_temp),
               (hdr.numtemp, hdr.numpress, interpol),
               List.replicate 6 (hdr.numtemp, hdr.numpress)) := by
  unfold PerplexReader at h
  simp only [Option.bind_eq_some] at h
  obtain ⟨L0, h0, s, hs, hL⟩ := h
  split_ifs at hL
  cases hL
  rw [PerplexReader.loop_shape rows _ _ hs]
  exact PerplexReader.header_shape hdr interpol L0 h0

theorem PerplexReader.table_dims (hdr : PerplexHeader) (rows : List PerplexRow) (interpol : Bool)
    (L : MaterialLookup) (h : PerplexReader hdr rows interpol = some L)
    (t : Table) (ht : t ∈ L.tables) : t.n_rows = hdr.numtemp ∧ t.n_cols = hdr.numpress := by
  have hs := PerplexReader.shape_eq hdr rows interpol L h
  have hl : (L.tables.map fun t => (t.n_rows, t.n_cols))
      = List.replicate 6 (hdr.numtemp, hdr.numpress) := by
    have := congrArg (fun x => x.2.2) hs
    exact this
  have hm : (t.n_rows, t.n_cols) ∈ L.tables.map fun t => (t.n_rows, t.n_cols) :=
    List.mem_map_of_mem _ ht
  rw [hl] at hm
  have := List.eq_of_mem_replicate hm
  exact ⟨congrArg Prod.fst this, congrArg Prod.snd this⟩

theorem PerplexReader.scalars (hdr : PerplexHeader) (rows : List PerplexRow) (interpol : Bool)
    (L : MaterialLookup) (h : PerplexReader hdr rows interpol = some L) :
    L.delta_press = hdr.delta_press * 100000 ∧ L.min_press = hdr.min_press * 100000 ∧
    L.max_press = hdr.min_press * 100000
        + ((hdr.numtemp - 1 : Nat) : ℚ) * (hdr.delta_press * 100000) ∧
    L.delta_temp = hdr.delta_temp ∧ L.min_temp = hdr.min_temp ∧
    L.max_temp = hdr.min_temp + ((hdr.numtemp - 1 : Nat) : ℚ) * hdr.delta_temp ∧
    L.numtemp = hdr.numtemp ∧ L.numpress = hdr.numpress := by
  have hs := PerplexReader.shape_eq hdr rows interpol L h
  have h1 := congrArg (fun x => x.1) hs
  have h2 := congrArg (fun x => x.2.1) hs
  simp only [MaterialLookup.shape, Prod.mk.injEq] at h1 h2
  obtain ⟨a, b, c, d, e, f⟩ := h1
  obtain ⟨g, k, -⟩ := h2
  exact ⟨a, b, c, d, e, f, g, k⟩

theorem usub1_of_pos (i : Nat) (h1 : 1 ≤ i) (h2 : i < 4294967296) : usub1 i = i - 1 := by
  unfold usub1
  omega

/-- In `PerplexReader` the fallback of row `i` reads the cell row `i-1` was written to. -/
theorem PerplexReader.fallback_cell_eq (numtemp i : Nat) (h1 : 1 ≤ i) (h2 : i < 4294967296) :
    PerplexReader.fallback_cell numtemp i = PerplexReader.write_cell numtemp (i - 1) := by
  unfold PerplexReader.fallback_cell PerplexReader.write_cell
  rw [usub1_of_pos i h1 h2]

/-- Fractional index of the `get_nT`/`get_np` clamping at a grid-aligned coordinate. -/
theorem grid_index_clamped (mn dl : ℚ) (n i : Nat) (hd : 0 < dl) (hn : 2 ≤ n) :
    let x := min (max mn (mn + (i : ℚ) * dl)) (mn + ((n : ℚ) - 1) * dl - dl)
    x ≥ mn ∧ x ≤ mn + ((n : ℚ) - 1) * dl ∧ (x - mn) / dl = ((min i (n - 2) : Nat) : ℚ) := by
  intro x
  have hi0 : (0 : ℚ) ≤ (i : ℚ) := Nat.cast_nonneg i
  have hmax : max mn (mn + (i : ℚ) * dl) = mn + (i : ℚ) * dl := by
    apply max_eq_right
    nlinarith
  have hn2 : ((n - 2 : Nat) : ℚ) = (n : ℚ) - 2 := by
    rw [Nat.cast_sub hn]; norm_num
  have hx : x = mn + ((min i (n - 2) : Nat) : ℚ) * dl := by
    show min (max mn (mn + (i : ℚ) * dl)) (mn + ((n : ℚ) - 1) * dl - dl) = _
    rw [hmax]
    rcases le_total i (n - 2) with h | h
    · have hq : (i : ℚ) ≤ (n : ℚ) - 2 := by rw [← hn2]; exact_mod_cast h
      rw [Nat.min_eq_left h, min_eq_left]
      nlinarith
    · have hq : (n : ℚ) - 2 ≤ (i : ℚ) := by rw [← hn2]; exact_mod_cast h
      rw [Nat.min_eq_right h, min_eq_right, hn2]
      · ring
      · nlinarith
  have hk0 : (0 : ℚ) ≤ ((min i (n - 2) : Nat) : ℚ) := Nat.cast_nonneg _
  have hk1 : ((min i (n - 2) : Nat) : ℚ) ≤ (n : ℚ) - 2 := by
    rw [← hn2]; exact_mod_cast Nat.min_le_right i (n - 2)
  refine ⟨?_, ?_, ?_⟩
  · rw [hx]; nlinarith
  · rw [hx]; nlinarith
  · rw [hx]; field_simp

theorem MaterialLookup.get_nT_grid (L : MaterialLookup) (i : Nat)
    (hd : 0 < L.delta_temp) (hn : 2 ≤ L.numtemp)
    (hmax : L.max_temp = L.min_temp + ((L.numtemp : ℚ) - 1) * L.delta_temp) :
    L.get_nT (L.min_temp + (i : ℚ) * L.delta_temp) = some ((min i (L.numtemp - 2) : Nat) : ℚ) := by
  obtain ⟨h1, h2, h3⟩ := grid_index_clamped L.min_temp L.delta_temp L.numtemp i hd hn
  unfold MaterialLookup.get_nT
  rw [hmax]
  simp only [h1, h2, h3, not_true_eq_false, if_false]

theorem MaterialLookup.get_np_grid (L : MaterialLookup) (j : Nat)
    (hd : 0 < L.delta_press) (hn : 2 ≤ L.numpress)
    (hmax : L.max_press = L.min_press + ((L.numpress : ℚ) - 1) * L.delta_press) :
    L.get_np (L.min_press + (j : ℚ) * L.delta_press) = some ((min j (L.numpress - 2) : Nat) : ℚ) := by
  obtain ⟨h1, h2, h3⟩ := grid_index_clamped L.min_press L.delta_press L.numpress j hd hn
  unfold MaterialLookup.get_np
  rw [hmax]
  simp only [h1, h2, h3, not_true_eq_false, if_false]

/-! ## Lemmas on the melting law -/

theorem defaultKatz_solidus_lt_lherz (P : ℝ) :
    defaultKatz.T_solidus P < defaultKatz.T_lherz_liquidus P := by
  simp only [KatzParameters.T_solidus, KatzParameters.T_lherz_liquidus, defaultKatz]
  norm_num
  nlinarith [sq_nonneg (38 * P - 529000000000)]

theorem defaultKatz_lherz_lt_liquidus (P : ℝ) :
    defaultKatz.T_lherz_liquidus P < defaultKatz.T_liquidus P := by
  simp only [KatzParameters.T_liquidus, KatzParameters.T_lherz_liquidus, defaultKatz]
  norm_num
  nlinarith [sq_nonneg (24 * P - 350000000000)]

theorem defaultKatz_F_max_pos (P : ℝ) : 0 < defaultKatz.F_max P := by
  have h : (0 : ℝ) ≤ max 0 P := le_max_left 0 P
  simp only [KatzParameters.F_max, defaultKatz]
  apply div_pos
  · norm_num
  · norm_num
    nlinarith

theorem defaultKatz_F_max_lt_one (P : ℝ) : defaultKatz.F_max P < 1 := by
  have h : (0 : ℝ) ≤ max 0 P := le_max_left 0 P
  simp only [KatzParameters.F_max, defaultKatz]
  rw [div_lt_one]
  · norm_num
    nlinarith
  · norm_num
    nlinarith

theorem defaultKatz_regular (P : ℝ) : defaultKatz.Regular P :=
  ⟨by simp only [defaultKatz]; norm_num, defaultKatz_solidus_lt_lherz P,
   defaultKatz_lherz_lt_liquidus P, defaultKatz_F_max_pos P, defaultKatz_F_max_lt_one P⟩

theorem KatzParameters.T_max_gt_solidus (k : KatzParameters) (P : ℝ) (h : k.Regular P) :
    k.T_solidus P < k.T_max P := by
  obtain ⟨hb, h1, h2, hF0, hF1⟩ := h
  have hpos : 0 < k.F_max P ^ (1 / k.beta) := Real.rpow_pos_of_pos hF0 _
  unfold KatzParameters.T_max
  nlinarith

theorem KatzParameters.T_max_lt_lherz (k : KatzParameters) (P : ℝ) (h : k.Regular P) :
    k.T_max P < k.T_lherz_liquidus P := by
  obtain ⟨hb, h1, h2, hF0, hF1⟩ := h
  have hlt : k.F_max P ^ (1 / k.beta) < 1 :=
    Real.rpow_lt_one hF0.le hF1 (by positivity)
  unfold KatzParameters.T_max
  nlinarith

theorem KatzParameters.rpow_inv_rpow (k : KatzParameters) (P : ℝ) (h : k.Regular P) :
    (k.F_max P ^ (1 / k.beta)) ^ k.beta = k.F_max P := by
  obtain ⟨hb, h1, h2, hF0, hF1⟩ := h
  rw [← Real.rpow_mul hF0.le, one_div, inv_mul_cancel₀ hb.ne', Real.rpow_one]

theorem MeltPeridotiteEclogite.melt_fraction_eq (k : KatzParameters) (T P : ℝ) :
    MeltPeridotiteEclogite.melt_fraction k T P
      = if MeltPeridotiteEclogite.first_stage k T P > k.F_max P ∧ T < k.T_liquidus P then
          k.F_max P + (1 - k.F_max P)
            * ((T - k.T_max P) / (k.T_liquidus P - k.T_max P)) ^ k.beta
        else MeltPeridotiteEclogite.first_stage k T P := rfl

/-- Above the cutoff pressure the melt fraction is zero. -/
theorem MeltPeridotiteEclogite.melt_fraction_cutoff (k : KatzParameters) (T P : ℝ)
    (h : k.Regular P) (hP : P > 1.3e10) : MeltPeridotiteEclogite.melt_fraction k T P = 0 := by
  obtain ⟨hb, h1, h2, hF0, hF1⟩ := h
  have hf : MeltPeridotiteEclogite.first_stage k T P = 0 := by
    unfold MeltPeridotiteEclogite.first_stage
    rw [if_pos (Or.inr hP)]
  rw [MeltPeridotiteEclogite.melt_fraction_eq, hf, if_neg]
  intro hc
  linarith [hc.1]

theorem MeltPeridotiteEclogite.melt_fraction_below (k : KatzParameters) (T P : ℝ)
    (h : k.Regular P) (hT : T < k.T_solidus P) :
    MeltPeridotiteEclogite.melt_fraction k T P = 0 := by
  obtain ⟨hb, h1, h2, hF0, hF1⟩ := h
  have hf : MeltPeridotiteEclogite.first_stage k T P = 0 := by
    unfold MeltPeridotiteEclogite.first_stage
    rw [if_pos (Or.inl hT)]
  rw [MeltPeridotiteEclogite.melt_fraction_eq, hf, if_neg]
  intro hc
  linarith [hc.1]

theorem MeltPeridotiteEclogite.melt_fraction_low (k : KatzParameters) (T P : ℝ)
    (h : k.Regular P) (hP : P ≤ 1.3e10) (hT1 : k.T_solidus P ≤ T) (hT2 : T ≤ k.T_max P) :
    MeltPeridotiteEclogite.melt_fraction k T P
      = ((T - k.T_solidus P) / (k.T_lherz_liquidus P - k.T_solidus P)) ^ k.beta ∧
    ((T - k.T_solidus P) / (k.T_lherz_liquidus P - k.T_solidus P)) ^ k.beta ≤ k.F_max P := by
  have hmax := k.T_max_lt_lherz P h
  have hinv := k.rpow_inv_rpow P h
  obtain ⟨hb, h1, h2, hF0, hF1⟩ := h
  have hd : 0 < k.T_lherz_liquidus P - k.T_solidus P := by linarith
  have hf : MeltPeridotiteEclogite.first_stage k T P
      = ((T - k.T_solidus P) / (k.T_lherz_liquidus P - k.T_solidus P)) ^ k.beta := by
    unfold MeltPeridotiteEclogite.first_stage
    rw [if_neg (by rintro (hc | hc) <;> linarith), if_neg (by linarith)]
  have hx0 : 0 ≤ (T - k.T_solidus P) / (k.T_lherz_liquidus P - k.T_solidus P) :=
    div_nonneg (by linarith) hd.le
  have hx1 : (T - k.T_solidus P) / (k.T_lherz_liquidus P - k.T_solidus P)
      ≤ k.F_max P ^ (1 / k.beta) := by
    rw [div_le_iff₀ hd]
    unfold KatzParameters.T_max at hT2
    linarith
  have hle : ((T - k.T_solidus P) / (k.T_lherz_liquidus P - k.T_solidus P)) ^ k.beta
      ≤ k.F_max P := by
    calc ((T - k.T_solidus P) / (k.T_lherz_liquidus P - k.T_solidus P)) ^ k.beta
        ≤ (k.F_max P ^ (1 / k.beta)) ^ k.beta := Real.rpow_le_rpow hx0 hx1 hb.le
      _ = k.F_max P := hinv
  refine ⟨?_, hle⟩
  rw [MeltPeridotiteEclogite.melt_fraction_eq, hf, if_neg]
  intro hc
  linarith [hc.1]

theorem MeltPeridotiteEclogite.melt_fraction_high (k : KatzParameters) (T P : ℝ)
    (h : k.Regular P) (hP : P ≤ 1.3e10) (hT1 : k.T_max P < T) (hT2 : T < k.T_liquidus P) :
    MeltPeridotiteEclogite.melt_fraction k T P
      = k.F_max P + (1 - k.F_max P)
          * ((T - k.T_max P) / (k.T_liquidus P - k.T_max P)) ^ k.beta := by
  have hmax := k.T_max_lt_lherz P h
  have hmin := k.T_max_gt_solidus P h
  have hinv := k.rpow_inv_rpow P h
  obtain ⟨hb, h1, h2, hF0, hF1⟩ := h
  have hd : 0 < k.T_lherz_liquidus P - k.T_solidus P := by linarith
  have hf : MeltPeridotiteEclogite.first_stage k T P > k.F_max P := by
    unfold MeltPeridotiteEclogite.first_stage
    rw [if_neg (by rintro (hc | hc) <;> linarith)]
    split_ifs with hl
    · exact hF1
    · have hx1 : k.F_max P ^ (1 / k.beta)
          < (T - k.T_solidus P) / (k.T_lherz_liquidus P - k.T_solidus P) := by
        rw [lt_div_iff₀ hd]
        unfold KatzParameters.T_max at hT1
        linarith
      have hp0 : 0 ≤ k.F_max P ^ (1 / k.beta) := Real.rpow_nonneg hF0.le _
      calc k.F_max P = (k.F_max P ^ (1 / k.beta)) ^ k.beta := hinv.symm
        _ < ((T - k.T_solidus P) / (k.T_lherz_liquidus P - k.T_solidus P)) ^ k.beta :=
          Real.rpow_lt_rpow hp0 hx1 hb
  rw [MeltPeridotiteEclogite.melt_fraction_eq, if_pos ⟨hf, hT2⟩]

theorem MeltPeridotiteEclogite.melt_fraction_above (k : KatzParameters) (T P : ℝ)
    (h : k.Regular P) (hP : P ≤ 1.3e10) (hT : k.T_liquidus P ≤ T) :
    MeltPeridotiteEclogite.melt_fraction k T P = 1 := by
  obtain ⟨hb, h1, h2, hF0, hF1⟩ := h
  have hf : MeltPeridotiteEclogite.first_stage k T P = 1 := by
    unfold MeltPeridotiteEclogite.first_stage
    rw [if_neg (by rintro (hc | hc) <;> linarith), if_pos (by linarith)]
  rw [MeltPeridotiteEclogite.melt_fraction_eq, hf, if_neg]
  intro hc
  linarith [hc.2]

theorem MeltPeridotiteEclogite.melt_fraction_bounds (k : KatzParameters) (T P : ℝ)
    (h : k.Regular P) :
    0 ≤ MeltPeridotiteEclogite.melt_fraction k T P ∧
    MeltPeridotiteEclogite.melt_fraction k T P ≤ 1 := by
  have hmax := k.T_max_lt_lherz P h
  have hmin := k.T_max_gt_solidus P h
  have hreg := h
  obtain ⟨hb, h1, h2, hF0, hF1⟩ := h
  rcases lt_or_le (1.3e10 : ℝ) P with hP | hP
  · rw [MeltPeridotiteEclogite.melt_fraction_cutoff k T P hreg hP]; norm_num
  rcases lt_or_le T (k.T_solidus P) with hT | hT
  · rw [MeltPeridotiteEclogite.melt_fraction_below k T P hreg hT]; norm_num
  rcases le_or_lt T (k.T_max P) with hT2 | hT2
  · obtain ⟨e, hle⟩ := MeltPeridotiteEclogite.melt_fraction_low k T P hreg hP hT hT2
    rw [e]
    refine ⟨Real.rpow_nonneg (div_nonneg (by linarith) (by linarith)) _, by linarith⟩
  rcases lt_or_le T (k.T_liquidus P) with hT3 | hT3
  · rw [MeltPeridotiteEclogite.melt_fraction_high k T P hreg hP hT2 hT3]
    have hd : 0 < k.T_liquidus P - k.T_max P := by linarith
    have hy0 : 0 ≤ (T - k.T_max P) / (k.T_liquidus P - k.T_max P) :=
      div_nonneg (by linarith) hd.le
    have hy1 : (T - k.T_max P) / (k.T_liquidus P - k.T_max P) ≤ 1 := by
      rw [div_le_one hd]; linarith
    have hp0 : 0 ≤ ((T - k.T_max P) / (k.T_liquidus P - k.T_max P)) ^ k.beta :=
      Real.rpow_nonneg hy0 _
    have hp1 : ((T - k.T_max P) / (k.T_liquidus P - k.T_max P)) ^ k.beta ≤ 1 :=
      Real.rpow_le_one hy0 hy1 hb.le
    constructor
    · nlinarith
    · nlinarith
  · rw [MeltPeridotiteEclogite.melt_fraction_above k T P hreg hP hT3]; norm_num

theorem MeltPeridotiteEclogite.melt_fraction_strict (k : KatzParameters) (T P : ℝ)
    (h : k.Regular P) (hP : P ≤ 1.3e10)
    (hT1 : k.T_solidus P < T) (hT2 : T < k.T_liquidus P) :
    0 < MeltPeridotiteEclogite.melt_fraction k T P ∧
    MeltPeridotiteEclogite.melt_fraction k T P < 1 := by
  have hmax := k.T_max_lt_lherz P h
  have hmin := k.T_max_gt_solidus P h
  have hreg := h
  obtain ⟨hb, h1, h2, hF0, hF1⟩ := h
  rcases le_or_lt T (k.T_max P) with hT3 | hT3
  · obtain ⟨e, hle⟩ := MeltPeridotiteEclogite.melt_fraction_low k T P hreg hP hT1.le hT3
    rw [e]
    refine ⟨Real.rpow_pos_of_pos (div_pos (by linarith) (by linarith)) _, by linarith⟩
  · rw [MeltPeridotiteEclogite.melt_fraction_high k T P hreg hP hT3 hT2]
    have hd : 0 < k.T_liquidus P - k.T_max P := by linarith
    have hy0 : 0 < (T - k.T_max P) / (k.T_liquidus P - k.T_max P) :=
      div_pos (by linarith) hd
    have hy1 : (T - k.T_max P) / (k.T_liquidus P - k.T_max P) < 1 := by
      rw [div_lt_one hd]; linarith
    have hp0 : 0 < ((T - k.T_max P) / (k.T_liquidus P - k.T_max P)) ^ k.beta :=
      Real.rpow_pos_of_pos hy0 _
    have hp1 : ((T - k.T_max P) / (k.T_liquidus P - k.T_max P)) ^ k.beta < 1 :=
      Real.rpow_lt_one hy0.le hy1 hb
    constructor
    · nlinarith
    · nlinarith

theorem MeltPeridotiteEclogite.melt_fraction_mono (k : KatzParameters) (T1 T2 P : ℝ)
    (h : k.Regular P) (hT : T1 ≤ T2) :
    MeltPeridotiteEclogite.melt_fraction k T1 P ≤ MeltPeridotiteEclogite.melt_fraction k T2 P := by
  have hmax := k.T_max_lt_lherz P h
  have hmin := k.T_max_gt_solidus P h
  have hreg := h
  have hb1 := MeltPeridotiteEclogite.melt_fraction_bounds k T1 P h
  have hb2 := MeltPeridotiteEclogite.melt_fraction_bounds k T2 P h
  obtain ⟨hb, h1, h2, hF0, hF1⟩ := h
  rcases lt_or_le (1.3e10 : ℝ) P with hP | hP
  · rw [MeltPeridotiteEclogite.melt_fraction_cutoff k T1 P hreg hP,
      MeltPeridotiteEclogite.melt_fraction_cutoff k T2 P hreg hP]
  rcases lt_or_le T1 (k.T_solidus P) with hA | hA
  · rw [MeltPeridotiteEclogite.melt_fraction_below k T1 P hreg hA]; exact hb2.1
  rcases le_or_lt (k.T_liquidus P) T2 with hB | hB
  · rw [MeltPeridotiteEclogite.melt_fraction_above k T2 P hreg hP hB]; exact hb1.2
  have hd : 0 < k.T_lherz_liquidus P - k.T_solidus P := by linarith
  have hd2 : 0 < k.T_liquidus P - k.T_max P := by linarith
  rcases le_or_lt T2 (k.T_max P) with hC | hC
  · -- both on the first power law
    obtain ⟨e1, -⟩ := MeltPeridotiteEclogite.melt_fraction_low k T1 P hreg hP hA (by linarith)
    obtain ⟨e2, -⟩ := MeltPeridotiteEclogite.melt_fraction_low k T2 P hreg hP (by linarith) hC
    rw [e1, e2]
    apply Real.rpow_le_rpow (div_nonneg (by linarith) hd.le) _ hb.le
    exact div_le_div_of_nonneg_right (by linarith) hd.le
  rcases le_or_lt T1 (k.T_max P) with hD | hD
  · -- across the kink
    obtain ⟨e1, hle⟩ := MeltPeridotiteEclogite.melt_fraction_low k T1 P hreg hP hA hD
    rw [e1, MeltPeridotiteEclogite.melt_fraction_high k T2 P hreg hP hC hB]
    have hp0 : 0 ≤ ((T2 - k.T_max P) / (k.T_liquidus P - k.T_max P)) ^ k.beta :=
      Real.rpow_nonneg (div_nonneg (by linarith) hd2.le) _
    nlinarith
  · -- both on the second power law
    rw [MeltPeridotiteEclogite.melt_fraction_high k T1 P hreg hP hD (by linarith),
      MeltPeridotiteEclogite.melt_fraction_high k T2 P hreg hP hC hB]
    have hpow : ((T1 - k.T_max P) / (k.T_liquidus P - k.T_max P)) ^ k.beta
        ≤ ((T2 - k.T_max P) / (k.T_liquidus P - k.T_max P)) ^ k.beta := by
      apply Real.rpow_le_rpow (div_nonneg (by linarith) hd2.le) _ hb.le
      exact div_le_div_of_nonneg_right (by linarith) hd2.le
    nlinarith

theorem MeltPeridotiteEclogite.melt_fraction_gt_F_max (k : KatzParameters) (T P : ℝ)
    (h : k.Regular P) (hT1 : k.T_solidus P < T) (hF : MeltPeridotiteEclogite.melt_fraction k T P > k.F_max P) :
    k.T_max P < T := by
  by_contra hc
  push_neg at hc
  rcases lt_or_le (1.3e10 : ℝ) P with hP | hP
  · rw [MeltPeridotiteEclogite.melt_fraction_cutoff k T P h hP] at hF
    linarith [h.2.2.2.1]
  · obtain ⟨e, hle⟩ := MeltPeridotiteEclogite.melt_fraction_low k T P h hP hT1.le hc
    rw [e] at hF
    linarith

/-- Value of `entropy_change` with respect to temperature inside the melting interval. -/
theorem MeltPeridotiteEclogite.entropy_change_temperature_eq (k : KatzParameters)
    (T P m : ℝ) (hc : T > k.T_solidus P ∧ T < k.T_liquidus P ∧ P < 1.3e10) :
    MeltPeridotiteEclogite.entropy_change k T P m Dependence.temperature
      = some (if MeltPeridotiteEclogite.melt_fraction k T P > k.F_max P then
                (1 - k.F_max P) * k.beta
                  * ((T - k.T_max P) / (k.T_liquidus P - k.T_max P)) ^ (k.beta - 1)
                  / (k.T_liquidus P - k.T_max P)
              else
                k.beta * ((T - k.T_solidus P) / (k.T_lherz_liquidus P - k.T_solidus P))
                  ^ (k.beta - 1) / (k.T_lherz_liquidus P - k.T_solidus P)) := by
  unfold MeltPeridotiteEclogite.entropy_change
  dsimp only
  rw [if_pos hc, if_pos rfl]
  congr 1
  unfold KatzParameters.T_max KatzParameters.F_max
  split_ifs <;> rfl

theorem MeltPeridotiteEclogite.entropy_change_temperature_pos (k : KatzParameters)
    (T P m : ℝ) (h : k.Regular P) (hP : P < 1.3e10)
    (hT1 : k.T_solidus P < T) (hT2 : T < k.T_liquidus P) :
    ∃ d : ℝ, MeltPeridotiteEclogite.entropy_change k T P m Dependence.temperature = some d
      ∧ 0 < d := by
  have hmax := k.T_max_lt_lherz P h
  have hreg := h
  obtain ⟨hb, h1, h2, hF0, hF1⟩ := h
  have hd : 0 < k.T_lherz_liquidus P - k.T_solidus P := by linarith
  have hd2 : 0 < k.T_liquidus P - k.T_max P := by linarith
  refine ⟨_, MeltPeridotiteEclogite.entropy_change_temperature_eq k T P m ⟨hT1, hT2, hP⟩, ?_⟩
  split_ifs with hbr
  · have hgt := MeltPeridotiteEclogite.melt_fraction_gt_F_max k T P hreg hT1 hbr
    have hy : 0 < (T - k.T_max P) / (k.T_liquidus P - k.T_max P) := div_pos (by linarith) hd2
    have hp : 0 < ((T - k.T_max P) / (k.T_liquidus P - k.T_max P)) ^ (k.beta - 1) :=
      Real.rpow_pos_of_pos hy _
    have h1F : 0 < 1 - k.F_max P := by linarith
    exact div_pos (mul_pos (mul_pos h1F hb) hp) hd2
  · have hx : 0 < (T - k.T_solidus P) / (k.T_lherz_liquidus P - k.T_solidus P) :=
      div_pos (by linarith) hd
    have hp : 0 < ((T - k.T_solidus P) / (k.T_lherz_liquidus P - k.T_solidus P)) ^ (k.beta - 1) :=
      Real.rpow_pos_of_pos hx _
    exact div_pos (mul_pos hb hp) hd

theorem MeltPeridotiteEclogite.entropy_change_outside (k : KatzParameters)
    (T P m : ℝ) (d : Dependence)
    (hc : ¬ (T > k.T_solidus P ∧ T < k.T_liquidus P ∧ P < 1.3e10)) :
    MeltPeridotiteEclogite.entropy_change k T P m d = some 0 := by
  unfold MeltPeridotiteEclogite.entropy_change
  dsimp only
  rw [if_neg hc]

/-- Away from the cutoff pressure the temperature derivative is non-zero exactly
where the melt fraction is strictly between 0 and 1. -/
theorem MeltPeridotiteEclogite.entropy_change_ne_zero_iff (k : KatzParameters)
    (T P m : ℝ) (h : k.Regular P) (hP : P ≠ 1.3e10) :
    MeltPeridotiteEclogite.entropy_change k T P m Dependence.temperature ≠ some 0
      ↔ (0 < MeltPeridotiteEclogite.melt_fraction k T P ∧
         MeltPeridotiteEclogite.melt_fraction k T P < 1) := by
  have hreg := h
  obtain ⟨hb, h1, h2, hF0, hF1⟩ := h
  rcases lt_or_gt_of_ne hP with hlt | hgt
  · by_cases hc : k.T_solidus P < T ∧ T < k.T_liquidus P
    · obtain ⟨d, hd, hd0⟩ :=
        MeltPeridotiteEclogite.entropy_change_temperature_pos k T P m hreg hlt hc.1 hc.2
      have hs := MeltPeridotiteEclogite.melt_fraction_strict k T P hreg hlt.le hc.1 hc.2
      constructor
      · intro _; exact hs
      · intro _
        rw [hd]
        intro he
        have := Option.some.inj he
        linarith
    · have hz := MeltPeridotiteEclogite.entropy_change_outside k T P m Dependence.temperature
        (fun hx => hc ⟨hx.1, hx.2.1⟩)
      constructor
      · intro hne; exact absurd hz hne
      · intro hs
        exfalso
        rcases le_or_lt T (k.T_solidus P) with hA | hA
        · rcases lt_or_eq_of_le hA with hA1 | hA1
          · rw [MeltPeridotiteEclogite.melt_fraction_below k T P hreg hA1] at hs
            linarith [hs.1]
          · have hmin := k.T_max_gt_solidus P hreg
            obtain ⟨e, -⟩ := MeltPeridotiteEclogite.melt_fraction_low k T P hreg hlt.le
              hA1.ge (by linarith)
            rw [e, hA1, sub_self, zero_div, Real.zero_rpow hb.ne'] at hs
            linarith [hs.1]
        · have hB : k.T_liquidus P ≤ T := by
            by_contra hcc
            exact hc ⟨hA, lt_of_not_le hcc⟩
          rw [MeltPeridotiteEclogite.melt_fraction_above k T P hreg hlt.le hB] at hs
          linarith [hs.2]
  · have hz := MeltPeridotiteEclogite.entropy_change_outside k T P m Dependence.temperature
      (fun hx => by linarith [hx.2.2])
    rw [MeltPeridotiteEclogite.melt_fraction_cutoff k T P hreg hgt]
    constructor
    · intro hne; exact absurd hz hne
    · intro hs; linarith [hs.1]

/-! ## Temperature derivative of the melt fraction -/

theorem MeltPeridotiteEclogite.hasDerivAt_low (k : KatzParameters) (T P : ℝ)
    (h : k.Regular P) (hP : P ≤ 1.3e10) (hT1 : k.T_solidus P < T) (hT2 : T < k.T_max P) :
    HasDerivAt (fun t => MeltPeridotiteEclogite.melt_fraction k t P)
      (k.beta * ((T - k.T_solidus P) / (k.T_lherz_liquidus P - k.T_solidus P)) ^ (k.beta - 1)
        / (k.T_lherz_liquidus P - k.T_solidus P)) T := by
  have hd : 0 < k.T_lherz_liquidus P - k.T_solidus P := by linarith [h.2.1]
  have hx : 0 < (T - k.T_solidus P) / (k.T_lherz_liquidus P - k.T_solidus P) :=
    div_pos (by linarith) hd
  have hinner : HasDerivAt
      (fun t : ℝ => (t - k.T_solidus P) / (k.T_lherz_liquidus P - k.T_solidus P))
      (1 / (k.T_lherz_liquidus P - k.T_solidus P)) T :=
    ((hasDerivAt_id T).sub_const (k.T_solidus P)).div_const _
  have hpow := hinner.rpow_const (p := k.beta) (Or.inl hx.ne')
  have heq : (fun t => MeltPeridotiteEclogite.melt_fraction k t P) =ᶠ[nhds T]
      fun t => ((t - k.T_solidus P) / (k.T_lherz_liquidus P - k.T_solidus P)) ^ k.beta :=
    Filter.eventually_of_mem (Ioo_mem_nhds hT1 hT2) fun t ht =>
      (MeltPeridotiteEclogite.melt_fraction_low k t P h hP ht.1.le ht.2.le).1
  have hfin := hpow.congr_of_eventuallyEq heq
  convert hfin using 1
  field_simp

theorem MeltPeridotiteEclogite.hasDerivAt_high (k : KatzParameters) (T P : ℝ)
    (h : k.Regular P) (hP : P ≤ 1.3e10) (hT1 : k.T_max P < T) (hT2 : T < k.T_liquidus P) :
    HasDerivAt (fun t => MeltPeridotiteEclogite.melt_fraction k t P)
      ((1 - k.F_max P) * k.beta
        * ((T - k.T_max P) / (k.T_liquidus P - k.T_max P)) ^ (k.beta - 1)
        / (k.T_liquidus P - k.T_max P)) T := by
  have hmax := k.T_max_lt_lherz P h
  have hd : 0 < k.T_liquidus P - k.T_max P := by linarith [h.2.2.1]
  have hy : 0 < (T - k.T_max P) / (k.T_liquidus P - k.T_max P) := div_pos (by linarith) hd
  have hinner : HasDerivAt
      (fun t : ℝ => (t - k.T_max P) / (k.T_liquidus P - k.T_max P))
      (1 / (k.T_liquidus P - k.T_max P)) T :=
    ((hasDerivAt_id T).sub_const (k.T_max P)).div_const _
  have hpow := ((hinner.rpow_const (p := k.beta) (Or.inl hy.ne')).const_mul
    (1 - k.F_max P)).const_add (k.F_max P)
  have heq : (fun t => MeltPeridotiteEclogite.melt_fraction k t P) =ᶠ[nhds T]
      fun t => k.F_max P + (1 - k.F_max P)
        * ((t - k.T_max P) / (k.T_liquidus P - k.T_max P)) ^ k.beta :=
    Filter.eventually_of_mem (Ioo_mem_nhds hT1 hT2) fun t ht =>
      MeltPeridotiteEclogite.melt_fraction_high k t P h hP ht.1 ht.2
  have hfin := hpow.congr_of_eventuallyEq heq
  convert hfin using 1
  field_simp
  ring

/-! ## Lemmas on `MeltGlobal` -/

theorem MeltGlobal.limit_melting_rate_bounds (old r : ℚ) :
    0 ≤ old + MeltGlobal.limit_melting_rate old r ∧
    old + MeltGlobal.limit_melting_rate old r ≤ 1 := by
  unfold MeltGlobal.limit_melting_rate
  dsimp only
  split_ifs <;> constructor <;> linarith

theorem MeltGlobal.limit_melting_rate_id (old r : ℚ) (h0 : 0 ≤ old + r) (h1 : old + r ≤ 1) :
    MeltGlobal.limit_melting_rate old r = r := by
  unfold MeltGlobal.limit_melting_rate
  dsimp only
  split_ifs <;> linarith

/-- With operator splitting and from the second time step on, the reaction terms
are zero and porosity and peridotite get the same rate (zero trace of the strain rate). -/
theorem MeltGlobal.reaction_operator_splitting (M : MeltGlobal) (C : MeltGlobal.Context)
    (p : MeltGlobal.Point) (hmt : C.include_melt_transport = true)
    (hmf : M.include_melting_and_freezing = true) (hos : C.use_operator_splitting = true)
    (hout : C.reaction_rate_out = true) (hsr : p.has_strain_rate = true)
    (htr : p.trace_strain_rate = 0) (hidx : C.porosity_idx ≠ C.peridotite_idx)
    (hcr : C.porosity_idx ≠ M.crystallization_idx C)
    (htn : C.timestep_number > 1) :
    (∀ c, (M.reaction C p c).1 = 0) ∧
    M.reaction C p C.porosity_idx = (0, some (M.melting_rate C p / C.timestep)) ∧
    M.reaction C p C.peridotite_idx = (0, some (M.melting_rate C p / C.timestep)) := by
  have htn0 : C.timestep_number > 0 := by omega
  refine ⟨?_, ?_, ?_⟩
  · intro c
    unfold MeltGlobal.reaction
    dsimp only
    rw [if_pos ⟨hmt, hmf⟩, if_pos hos, if_pos hout]
    split_ifs <;> rfl
  · unfold MeltGlobal.reaction
    dsimp only
    rw [if_pos ⟨hmt, hmf⟩, if_pos hos, if_pos hout, if_neg, if_pos ⟨rfl, htn0⟩]
    rintro ⟨h | h, -⟩
    · exact hidx h
    · exact hcr h
  · unfold MeltGlobal.reaction
    dsimp only
    rw [if_pos ⟨hmt, hmf⟩, if_pos hos, if_pos hout, if_pos ⟨Or.inl rfl, htn0⟩]
    unfold MeltGlobal.reaction_term
    dsimp only
    rw [if_pos ⟨rfl, htn, hsr⟩, htr]
    simp

/-! ## Lemmas on the melting rate of `MeltPeridotiteEclogite` -/

theorem MeltPeridotiteEclogite.melting_lower (M : MeltPeridotiteEclogite.Parameters)
    (tn : Nat) (dt yr : ℝ) (p : MeltPeridotiteEclogite.Point) :
    0 ≤ p.old_porosity + MeltPeridotiteEclogite.melting M tn dt yr p := by
  unfold MeltPeridotiteEclogite.melting
  dsimp only
  split_ifs <;> linarith

/-! ## Lemmas on `DamageRheology` -/

theorem DamageRheology.substep_time_le {α : Type} [LinearOrderedField α]
    (growth reduction : α → α → α) (timestep : α) (s : DamageRheology.Substep α)
    (h : s.time ≤ timestep) :
    (DamageRheology.substep growth reduction timestep s).1.time ≤ timestep := by
  unfold DamageRheology.substep
  dsimp only
  split_ifs <;> dsimp only <;> linarith

theorem DamageRheology.substep_time_cases {α : Type} [LinearOrderedField α]
    (growth reduction : α → α → α) (timestep : α) (s : DamageRheology.Substep α) :
    (DamageRheology.substep growth reduction timestep s).1.time = s.time ∨
    (DamageRheology.substep growth reduction timestep s).1.time
      = min (s.time + s.grain_growth_timestep) timestep := by
  unfold DamageRheology.substep
  dsimp only
  split_ifs with h1 h2 h3 h4 h5
  · right; rw [min_eq_right]; linarith
  · left; ring
  · right; rw [min_eq_right]; linarith
  · right; rw [min_eq_left]; linarith
  · left; ring
  · right; rw [min_eq_left]; linarith

theorem DamageRheology.substep_loop_time {α : Type} [LinearOrderedField α]
    (growth reduction : α → α → α) (timestep : α) (fuel : Nat) :
    ∀ (s r : DamageRheology.Substep α) (b : Bool), s.time ≤ timestep →
      DamageRheology.substep_loop growth reduction timestep fuel s = some (r, b) →
      r.time ≤ timestep ∧ (b = false → r.time = timestep) := by
  induction fuel with
  | zero =>
    intro s r b _ h
    simp [DamageRheology.substep_loop] at h
  | succ n ih =>
    intro s r b hs h
    have hstep := DamageRheology.substep_time_le growth reduction timestep s hs
    unfold DamageRheology.substep_loop at h
    dsimp only at h
    split_ifs at h with hbrk hlt
    · have h1 := Option.some.inj h
      have hr : (DamageRheology.substep growth reduction timestep s).1 = r := by rw [h1]
      have hb : (DamageRheology.substep growth reduction timestep s).2 = b := by rw [h1]
      rw [← hr]
      refine ⟨hstep, ?_⟩
      intro hf
      rw [← hb, hbrk] at hf
      exact absurd hf (by decide)
    · exact ih _ r b hstep h
    · have h1 := Option.some.inj h
      have hr : (DamageRheology.substep growth reduction timestep s).1 = r := by rw [h1]
      rw [← hr]
      exact ⟨hstep, fun _ => le_antisymm hstep (not_lt.mp hlt)⟩

theorem DamageRheology.grain_size_growth_resting (g dt : ℝ) :
    DamageRheology.grain_size_growth DamageRheology.restingTerms g dt = 0 := by
  simp [DamageRheology.grain_size_growth, DamageRheology.restingTerms]

theorem DamageRheology.grain_size_reduction_resting (g dt : ℝ) :
    DamageRheology.grain_size_reduction DamageRheology.restingTerms g dt = 0 := by
  simp [DamageRheology.grain_size_reduction, DamageRheology.restingTerms]

/-- Without a crossed transition the returned change leaves a grain size of at least
the hard-coded floor `5e-6`. -/
theorem DamageRheology.grain_size_floor {α : Type} [LinearOrderedField α]
    (growth reduction : α → α → α) (fuel : Nat) (original timestep : α) (olivine : Bool)
    (tn : Nat) (recr : List α) (d : α) (h0 : timestep ≠ 0) (h1 : ¬ original < 1 / 2 ^ 1022)
    (h : DamageRheology.grain_size_growth_rate growth reduction fuel original timestep olivine
          tn (-1) recr = some d) :
    5 / 1000000 ≤ original + d := by
  unfold DamageRheology.grain_size_growth_rate at h
  rw [if_neg (by rintro (hc | hc); exact h0 hc; exact h1 hc)] at h
  simp only [Option.bind_eq_some] at h
  obtain ⟨r, -, hr⟩ := h
  simp only [ne_eq, not_true_eq_false, if_false, ite_self, Option.map_some',
    Option.some.injEq] at hr
  rw [← hr]
  split_ifs <;> linarith

/-! ## Lemmas on the documented melting law and on the volume fractions -/

/-- Where the solidus shift is not limited, `MeltGlobal::melt_fraction` is the
documented law. -/
theorem MeltGlobal.melt_fraction_eq_documented (M : MeltGlobal) (T p C : ℚ)
    (h : -200 ≤ M.depletion_solidus_change * C) :
    M.melt_fraction T p C = M.documented_melt_fraction T p C := by
  unfold MeltGlobal.melt_fraction MeltGlobal.documented_melt_fraction
  dsimp only
  rw [max_eq_left h]
  generalize M.surface_solidus + M.pressure_solidus_change * p
    + M.depletion_solidus_change * C = Ts
  have h500 : Ts + 500 - Ts = 500 := by ring
  rw [h500]
  split_ifs with h1 h2
  · rw [max_eq_left]
    apply le_trans (min_le_right _ _)
    apply div_nonpos_of_nonpos_of_nonneg <;> linarith
  · rw [min_eq_left, max_eq_right] <;> norm_num
    rw [le_div_iff₀ (by norm_num)]
    linarith
  · have hx0 : 0 ≤ (T - Ts) / 500 := div_nonneg (by linarith) (by norm_num)
    have hx1 : (T - Ts) / 500 ≤ 1 := by
      rw [div_le_iff₀ (by norm_num)]
      linarith
    rw [min_eq_right hx1, max_eq_right hx0]

/-- The unit selection of `MeltFractionLookup` succeeds only for the temperature unit
`Kelvin`, and the temperature offset is then zero. -/
theorem MeltFractionLookup.units_kelvin_only (p_unit T_unit : String) (u : ℚ × ℚ)
    (h : MeltFractionLookup.units p_unit T_unit = some u) : T_unit = "Kelvin" ∧ u.2 = 0 := by
  unfold MeltFractionLookup.units at h
  obtain ⟨f, hf, h⟩ := Option.bind_eq_some.mp h
  obtain ⟨o, ho, h⟩ := Option.bind_eq_some.mp h
  simp only [Option.some.injEq] at h
  subst h
  by_cases hK : T_unit = "Kelvin"
  · rw [if_pos hK] at ho
    simp only [Option.some.injEq] at ho
    exact ⟨hK, ho.symm⟩
  · rw [if_neg hK] at ho
    by_cases hC : p_unit = "Celsius"
    · subst hC
      rw [if_neg (by decide), if_neg (by decide), if_neg (by decide),
        if_neg (by decide)] at hf
      cases hf
    · rw [if_neg hC] at ho
      cases ho

theorem Viscoelastic.zero_first_spec (n : Nat) :
    ∀ xs ys : List ℚ, (∀ x ∈ xs, 0 ≤ x ∧ x ≤ 1) → Viscoelastic.zero_first n xs = some ys →
      ys.length = xs.length ∧ (∀ y ∈ ys, 0 ≤ y ∧ y ≤ 1) ∧
      ∀ i, i < n → ys.get? i = some 0 := by
  induction n with
  | zero =>
    intro xs ys hxs h
    simp only [Viscoelastic.zero_first, Option.some.injEq] at h
    subst h
    exact ⟨rfl, hxs, fun i hi => absurd hi (Nat.not_lt_zero i)⟩
  | succ n ih =>
    intro xs ys hxs h
    cases xs with
    | nil => simp [Viscoelastic.zero_first] at h
    | cons x xs =>
      simp only [Viscoelastic.zero_first, Option.map_eq_some'] at h
      obtain ⟨zs, hzs, rfl⟩ := h
      obtain ⟨hl, hb, hz⟩ := ih xs zs (fun y hy => hxs y (List.mem_cons_of_mem _ hy)) hzs
      refine ⟨by simp [hl], ?_, ?_⟩
      · intro y hy
        rcases List.mem_cons.mp hy with rfl | hy
        · norm_num
        · exact hb y hy
      · intro i hi
        cases i with
        | zero => rfl
        | succ i => exact hz i (by omega)

theorem Viscoelastic.zero_first_isSome (n : Nat) :
    ∀ xs : List ℚ, n ≤ xs.length → (Viscoelastic.zero_first n xs).isSome = true := by
  induction n with
  | zero => intro xs _; rfl
  | succ n ih =>
    intro xs h
    cases xs with
    | nil => simp at h
    | cons x xs =>
      have := ih xs (by simpa using h)
      simp only [Viscoelastic.zero_first, Option.isSome_map']
      exact this

theorem Viscoelastic.zero_first_mem (n : Nat) :
    ∀ xs ys : List ℚ, Viscoelastic.zero_first n xs = some ys → ∀ y ∈ ys, y = 0 ∨ y ∈ xs := by
  induction n with
  | zero =>
    intro xs ys h y hy
    simp only [Viscoelastic.zero_first, Option.some.injEq] at h
    subst h
    exact Or.inr hy
  | succ n ih =>
    intro xs ys h y hy
    cases xs with
    | nil => simp [Viscoelastic.zero_first] at h
    | cons x xs =>
      simp only [Viscoelastic.zero_first, Option.map_eq_some'] at h
      obtain ⟨zs, hzs, rfl⟩ := h
      rcases List.mem_cons.mp hy with rfl | hy
      · exact Or.inl rfl
      · rcases ih xs zs hzs y hy with h0 | hmem
        · exact Or.inl h0
        · exact Or.inr (List.mem_cons_of_mem _ hmem)

/-- The rounded sum of non-negative `double`s is at least the start value and at least
every term, for a monotone rounding that leaves its own results unchanged. -/
theorem Viscoelastic.rounded_sum_bounds (fl : ℚ → ℚ) (hmono : Monotone fl)
    (hidem : ∀ x, fl (fl x) = fl x) :
    ∀ (ys : List ℚ) (acc : ℚ), 0 ≤ acc → fl acc = acc → (∀ y ∈ ys, 0 ≤ y ∧ fl y = y) →
      acc ≤ ys.foldl (fun s x => fl (s + x)) acc ∧
      ∀ y ∈ ys, y ≤ ys.foldl (fun s x => fl (s + x)) acc := by
  intro ys
  induction ys with
  | nil =>
    intro acc _ _ _
    exact ⟨le_refl _, fun y hy => absurd hy (List.not_mem_nil y)⟩
  | cons a as ih =>
    intro acc hacc hfix hys
    obtain ⟨ha0, hafix⟩ := hys a (List.mem_cons_self _ _)
    have h1 : acc ≤ fl (acc + a) := by
      have := hmono (show acc ≤ acc + a by linarith)
      rwa [hfix] at this
    have h2 : a ≤ fl (acc + a) := by
      have := hmono (show a ≤ acc + a by linarith)
      rwa [hafix] at this
    obtain ⟨h3, h4⟩ := ih (fl (acc + a)) (hacc.trans h1) (hidem _)
      fun y hy => hys y (List.mem_cons_of_mem _ hy)
    rw [List.foldl_cons]
    refine ⟨h1.trans h3, ?_⟩
    intro y hy
    rcases List.mem_cons.mp hy with rfl | hy
    · exact h2.trans h3
    · exact h4 y hy

theorem Viscoelastic.exact_sum (ys : List ℚ) :
    ∀ acc : ℚ, ys.foldl (fun s x => s + x) acc = acc + ys.sum := by
  induction ys with
  | nil => intro acc; simp
  | cons a as ih =>
    intro acc
    rw [List.foldl_cons, ih, List.sum_cons]
    ring

theorem Viscoelastic.sum_map_div (ys : List ℚ) (s : ℚ) :
    (ys.map fun x => x / s).sum = ys.sum / s := by
  induction ys with
  | nil => simp
  | cons a as ih => simp only [List.map_cons, List.sum_cons, ih]; ring

/-! ## Lemmas on the phase functions -/

theorem DamageRheology.phase_function_of_deviation {α : Type} [LinearOrderedField α]
    (P : DamageRheology.Transitions α) (depth gravity_norm temperature pressure : α)
    (k j : Nat) (d : α) (hinit : P.adiabatic_initialized = true)
    (hj : j < P.transition_depths.length)
    (hd : DamageRheology.pressure_deviation P temperature pressure j = some d)
    (hk : 0 < d ↔ j < k) :
    DamageRheology.phase_function P depth gravity_norm temperature pressure j
      = some (if j < k then 1 else 0) := by
  unfold DamageRheology.phase_function
  rw [if_neg (not_not.mpr hj), if_pos hinit, hd]
  simp only [Option.map_some', gt_iff_lt, hk]

theorem DamageRheology.thermodynamic_phase_loop {α : Type} [LinearOrderedField α]
    (P : DamageRheology.Transitions α) (temperature pressure : α) (k : Nat)
    (hdev : ∀ j, j < P.transition_depths.length →
      ∃ d, DamageRheology.pressure_deviation P temperature pressure j = some d ∧
        (0 < d ↔ j < k)) :
    ∀ m, m ≤ P.transition_depths.length →
      (List.range m).foldl (DamageRheology.thermodynamic_phase_step P temperature pressure)
        (some 0) = some (min m k) := by
  intro m
  induction m with
  | zero => intro _; simp
  | succ m ih =>
    intro hm
    obtain ⟨d, hd, hk⟩ := hdev m (by omega)
    rw [List.range_succ, List.foldl_append, ih (by omega)]
    simp only [List.foldl_cons, List.foldl_nil, DamageRheology.thermodynamic_phase_step,
      Option.some_bind, hd, Option.map_some', gt_iff_lt, hk]
    congr 1
    split_ifs with h
    · omega
    · omega

theorem DamageRheology.get_phase_index_loop {α : Type} [LinearOrderedField α]
    (P : DamageRheology.Transitions α) (depth gravity_norm temperature pressure : α)
    (k : Nat) (phase_index : Nat) (hinit : P.adiabatic_initialized = true)
    (hdev : ∀ j, j < P.transition_depths.length →
      ∃ d, DamageRheology.pressure_deviation P temperature pressure j = some d ∧
        (0 < d ↔ j < k)) :
    ∀ m, m + 1 ≤ P.transition_depths.length →
      (List.range' 1 m).foldl
        (DamageRheology.get_phase_index_step P depth gravity_norm temperature pressure)
        (some phase_index) = some (if 1 ≤ k ∧ k ≤ m then k else phase_index) := by
  intro m
  induction m with
  | zero =>
    intro _
    have : ¬ (1 ≤ k ∧ k ≤ 0) := by omega
    simp only [List.range'_zero, List.foldl_nil]
    rw [if_neg this]
  | succ m ih =>
    intro hm
    obtain ⟨d, hd, hk⟩ := hdev (m + 1) (by omega)
    obtain ⟨d1, hd1, hk1⟩ := hdev m (by omega)
    have h1 := DamageRheology.phase_function_of_deviation P depth gravity_norm temperature
      pressure k (m + 1) d hinit (by omega) hd hk
    have h2 := DamageRheology.phase_function_of_deviation P depth gravity_norm temperature
      pressure k m d1 hinit (by omega) hd1 hk1
    rw [List.range'_1_concat, List.foldl_append, ih (by omega)]
    simp only [List.foldl_cons, List.foldl_nil, DamageRheology.get_phase_index_step,
      Option.some_bind, Nat.add_comm 1 m, h1, Nat.add_sub_cancel, h2, Option.map_some']
    congr 1
    by_cases ha : m + 1 < k
    · have hb : m < k := by omega
      have hc : ¬ (1 ≤ k ∧ k ≤ m) := by omega
      have hd : ¬ (1 ≤ k ∧ k ≤ m + 1) := by omega
      simp [ha, hb, hc, hd]
    · by_cases hb : m < k
      · have hc : ¬ (1 ≤ k ∧ k ≤ m) := by omega
        have hd : 1 ≤ k ∧ k ≤ m + 1 := by omega
        have he : k = m + 1 := by omega
        simp [ha, hb, hc, hd, he]
      · by_cases hc : 1 ≤ k ∧ k ≤ m
        · have hd : 1 ≤ k ∧ k ≤ m + 1 := by omega
          simp [ha, hb, hc, hd]
        · have hd : ¬ (1 ≤ k ∧ k ≤ m + 1) := by omega
          simp [ha, hb, hc, hd]

/-- Every index returned by the loop of `get_phase_index` is at most the bound on the
index it started with and on the loop counter. -/
theorem DamageRheology.get_phase_index_loop_le {α : Type} [LinearOrderedField α]
    (P : DamageRheology.Transitions α) (depth gravity_norm temperature pressure : α)
    (n : Nat) :
    ∀ (m : Nat) (phase_index r : Nat), phase_index ≤ n → m ≤ n →
      (List.range' 1 m).foldl
        (DamageRheology.get_phase_index_step P depth gravity_norm temperature pressure)
        (some phase_index) = some r → r ≤ n := by
  intro m
  induction m with
  | zero =>
    intro phase_index r h0 _ h
    simp only [List.range'_zero, List.foldl_nil, Option.some.injEq] at h
    omega
  | succ m ih =>
    intro phase_index r h0 hm h
    rw [List.range'_1_concat, List.foldl_append] at h
    simp only [List.foldl_cons, List.foldl_nil] at h
    unfold DamageRheology.get_phase_index_step at h
    obtain ⟨q, hq, h⟩ := Option.bind_eq_some.mp h
    obtain ⟨fj, _, h⟩ := Option.bind_eq_some.mp h
    obtain ⟨fj1, _, h⟩ := Option.map_eq_some'.mp h
    have hq := ih phase_index q h0 (by omega) hq
    split_ifs at h <;> omega

/-- Every index returned by `get_phase_index` is at most the number of transitions. -/
theorem DamageRheology.get_phase_index_le {α : Type} [LinearOrderedField α]
    (P : DamageRheology.Transitions α) (depth gravity_norm temperature pressure : α)
    (r : Nat)
    (h : DamageRheology.get_phase_index P depth gravity_norm temperature pressure = some r) :
    r ≤ P.transition_depths.length := by
  unfold DamageRheology.get_phase_index at h
  by_cases hg : P.grain_growth_activation_energy.length > 0
  · rw [if_neg (not_not.mpr hg)] at h
    obtain ⟨q, hq, h⟩ := Option.bind_eq_some.mp h
    refine DamageRheology.get_phase_index_loop_le P depth gravity_norm temperature pressure
      P.transition_depths.length (P.transition_depths.length - 1) q r ?_ (by omega) h
    by_cases hn : P.transition_depths.length > 0
    · rw [if_pos hn] at hq
      obtain ⟨f, _, hq⟩ := Option.map_eq_some'.mp hq
      split_ifs at hq <;> omega
    · rw [if_neg hn] at hq
      simp only [Option.some.injEq] at hq
      omega
  · rw [if_pos hg] at h
    exact absurd h (by simp)

/-! ## Lemmas on `parse_parameters` and on the search of `interpolate` -/

/-- Every configuration that `parse_parameters` accepts has per-phase lists with one entry
more than there are transition depths, and per-transition lists with as many entries as
there are transition depths. -/
theorem DamageRheology.parse_parameters_accepted_lengths {α : Type} [Field α]
    (pow : α → α → α) (c r : DamageRheology.ParameterLists α)
    (h : DamageRheology.parse_parameters pow c = DamageRheology.Parsed.accepted r) :
    r.transition_depths = c.transition_depths ∧
    (r.transition_temperatures.length = r.transition_depths.length ∧
     r.transition_slopes.length = r.transition_depths.length ∧
     r.transition_phases.length = r.transition_depths.length ∧
     r.transition_widths.length = r.transition_depths.length ∧
     r.recrystallized_grain_size.length = r.transition_depths.length) ∧
    (r.grain_growth_activation_energy.length = r.transition_depths.length + 1 ∧
     r.grain_growth_activation_volume.length = r.transition_depths.length + 1 ∧
     r.grain_growth_rate_constant.length = r.transition_depths.length + 1 ∧
     r.grain_growth_exponent.length = r.transition_depths.length + 1 ∧
     r.dislocation_creep_exponent.length = r.transition_depths.length + 1 ∧
     r.dislocation_activation_energy.length = r.transition_depths.length + 1 ∧
     r.dislocation_activation_volume.length = r.transition_depths.length + 1 ∧
     r.dislocation_creep_prefactor.length = r.transition_depths.length + 1 ∧
     r.diffusion_creep_exponent.length = r.transition_depths.length + 1 ∧
     r.diffusion_activation_energy.length = r.transition_depths.length + 1 ∧
     r.diffusion_activation_volume.length = r.transition_depths.length + 1 ∧
     r.diffusion_creep_prefactor.length = r.transition_depths.length + 1 ∧
     r.diffusion_creep_grain_size_exponent.length = r.transition_depths.length + 1) ∧
    (r.use_paleowattmeter = true →
      r.grain_boundary_energy.length = r.transition_depths.length + 1 ∧
      r.boundary_area_change_work_fraction.length = r.transition_depths.length + 1 ∧
      r.geometric_constant.length = r.transition_depths.length + 1) ∧
    (r.use_paleowattmeter = false →
      r.reciprocal_required_strain.length = r.transition_depths.length + 1) := by
  unfold DamageRheology.parse_parameters at h
  split at h
  · cases h
  · rename_i h1
    split at h
    · dsimp only at h
      split at h
      · cases h
      · rename_i h2
        split at h
        · cases h
        · rename_i h3
          split at h
          · cases h
          · rename_i h4
            split at h
            · cases h
            · rename_i h5
              simp only [DamageRheology.Parsed.accepted.injEq] at h
              subst h
              dsimp only
              refine ⟨rfl, ?_⟩
              simp only [List.length_set] at h2 ⊢
              simp only [not_and, not_or, not_not, ne_eq] at h1 h2 h3 h4 h5
              obtain ⟨a1, a2, a3, a4, a5, a6, a7, a8, a9, a10, a11, a12⟩ := h2
              refine ⟨h1, ?_, ?_, ?_⟩
              · exact ⟨h5, a1.symm.trans h5, a2.symm.trans h5, a3.symm.trans h5,
                  a4.symm.trans h5, a5.symm.trans h5, a6.symm.trans h5, a7.symm.trans h5,
                  a8.symm.trans h5, a9.symm.trans h5, a10.symm.trans h5, a11.symm.trans h5,
                  a12.symm.trans h5⟩
              · intro hp
                obtain ⟨b1, b2, b3⟩ := h3 hp
                exact ⟨b1.symm.trans h5, b2.symm.trans h5, b3.symm.trans h5⟩
              · intro hp
                exact (h4 hp).symm.trans h5
    · cases h

/-- When the search stops at an index, the position lies in the interval of that index. -/
theorem AnalyticSolutions.search_found (coordinate : List ℚ) (x : ℚ) :
    ∀ (fuel j i r : Nat),
      AnalyticSolutions.search coordinate x fuel j i = AnalyticSolutions.Search.found r →
      ∃ cr cr1, coordinate.get? r = some cr ∧
        coordinate.get? ((r + 1) % 4294967296) = some cr1 ∧ cr1 ≤ x ∧ x < cr := by
  intro fuel
  induction fuel with
  | zero =>
    intro j i r h
    simp [AnalyticSolutions.search] at h
  | succ fuel ih =>
    intro j i r h
    unfold AnalyticSolutions.search at h
    split at h
    · cases h
    · rename_i cj hcj
      by_cases hx : x < cj
      · rw [if_pos hx] at h
        split at h
        · cases h
        · rename_i cj1 hcj1
          by_cases hx1 : x ≥ cj1
          · rw [if_pos hx1] at h
            simp only [AnalyticSolutions.Search.found.injEq] at h
            subst h
            exact ⟨cj, cj1, hcj, hcj1, hx1, hx⟩
          · rw [if_neg hx1] at h
            exact ih _ _ _ h
      · rw [if_neg hx] at h
        exact ih _ _ _ h

/-- On the table `[3, 2, 1]` the search for `x = 5/2` stays at `j = 1` with step `i = 0`. -/
theorem AnalyticSolutions.search_three_entries (fuel : Nat) :
    AnalyticSolutions.search [3, 2, 1] (5 / 2) fuel 1 0
      = AnalyticSolutions.Search.unfinished := by
  induction fuel with
  | zero => rfl
  | succ fuel ih =>
    unfold AnalyticSolutions.search
    have h1 : ¬ ((5 / 2 : ℚ) < 2) := by norm_num
    have h2 : (1 + 4294967296 - 0) % 4294967296 = 1 := by norm_num
    have h3 : ¬ (0 > 1) := by decide
    simp only [List.get?, h1, if_false, h2, h3]
    exact ih

/-! ## Lemmas on the sub-stepping of the grain size -/

theorem DamageRheology.grain_size_update_bounds {α : Type} [LinearOrderedField α]
    (d G R : α) (hd : 0 < d) (hG : 0 ≤ G) :
    d / 2 ≤ (if ((G - R) / d < 1 / 1000 ∧ G / d < 1 / 10 ∧ R / d < 1 / 10) ∨ d = 0 then
        d + (G - R)
      else if (G - R) / d > 1 / 10 ∨ G / d > 1 / 2 ∨ R / d > 1 / 2 then d + 0
      else d + (G - R)) ∧
    (if ((G - R) / d < 1 / 1000 ∧ G / d < 1 / 10 ∧ R / d < 1 / 10) ∨ d = 0 then
        d + (G - R)
      else if (G - R) / d > 1 / 10 ∨ G / d > 1 / 2 ∨ R / d > 1 / 2 then d + 0
      else d + (G - R)) ≤ 11 / 10 * d := by
  split_ifs with h1 h2
  · rcases h1 with ⟨ha, -, hc⟩ | h0
    · rw [div_lt_iff₀ hd] at ha hc
      constructor <;> linarith
    · exact absurd h0 hd.ne'
  · constructor <;> linarith
  · push_neg at h2
    obtain ⟨ha, -, hc⟩ := h2
    rw [div_le_iff₀ hd] at ha hc
    constructor <;> linarith

theorem DamageRheology.substep_grain_size_eq {α : Type} [LinearOrderedField α]
    (growth reduction : α → α → α) (timestep : α) (s : DamageRheology.Substep α) (dt : α)
    (hdt : dt = if timestep - (s.time + s.grain_growth_timestep) < 0 then
        timestep - (s.time + s.grain_growth_timestep - s.grain_growth_timestep)
      else s.grain_growth_timestep) :
    (DamageRheology.substep growth reduction timestep s).1.grain_size
      = (if ((growth s.grain_size dt - reduction s.grain_size dt) / s.grain_size < 1 / 1000
              ∧ growth s.grain_size dt / s.grain_size < 1 / 10
              ∧ reduction s.grain_size dt / s.grain_size < 1 / 10) ∨ s.grain_size = 0 then
          s.grain_size + (growth s.grain_size dt - reduction s.grain_size dt)
        else if (growth s.grain_size dt - reduction s.grain_size dt) / s.grain_size > 1 / 10
              ∨ growth s.grain_size dt / s.grain_size > 1 / 2
              ∨ reduction s.grain_size dt / s.grain_size > 1 / 2 then s.grain_size + 0
        else s.grain_size + (growth s.grain_size dt - reduction s.grain_size dt)) ∧
    ((DamageRheology.substep growth reduction timestep s).1.grain_growth_timestep = dt * 2 ∨
     (DamageRheology.substep growth reduction timestep s).1.grain_growth_timestep = dt / 2 ∨
     (DamageRheology.substep growth reduction timestep s).1.grain_growth_timestep = dt) := by
  subst hdt
  unfold DamageRheology.substep
  dsimp only
  split_ifs <;> simp

theorem DamageRheology.substep_positive {α : Type} [LinearOrderedField α]
    (growth reduction : α → α → α) (timestep : α) (s : DamageRheology.Substep α)
    (hd : 0 < s.grain_size)
    (hg : 0 ≤ growth s.grain_size
      (if timestep - (s.time + s.grain_growth_timestep) < 0 then
        timestep - (s.time + s.grain_growth_timestep - s.grain_growth_timestep)
      else s.grain_growth_timestep)) :
    s.grain_size / 2 ≤ (DamageRheology.substep growth reduction timestep s).1.grain_size ∧
    (DamageRheology.substep growth reduction timestep s).1.grain_size
      ≤ 11 / 10 * s.grain_size ∧
    (DamageRheology.substep growth reduction timestep s).2 = false := by
  have hbounds : s.grain_size / 2
        ≤ (DamageRheology.substep growth reduction timestep s).1.grain_size ∧
      (DamageRheology.substep growth reduction timestep s).1.grain_size
        ≤ 11 / 10 * s.grain_size := by
    rw [(DamageRheology.substep_grain_size_eq growth reduction timestep s _ rfl).1]
    exact DamageRheology.grain_size_update_bounds _ _ _ hd hg
  refine ⟨hbounds.1, hbounds.2, ?_⟩
  have hdef : (DamageRheology.substep growth reduction timestep s).2
      = decide ((DamageRheology.substep growth reduction timestep s).1.grain_size < 0) := rfl
  rw [hdef, decide_eq_false_iff_not]
  have : 0 < s.grain_size / 2 := by positivity
  linarith [hbounds.1]

theorem DamageRheology.substep_loop_positive {α : Type} [LinearOrderedField α]
    (growth reduction : α → α → α) (timestep : α)
    (hg : ∀ g dt, 0 < g → 0 < dt → 0 ≤ growth g dt) (fuel : Nat) :
    ∀ (s r : DamageRheology.Substep α) (b : Bool), 0 < s.grain_size →
      0 < s.grain_growth_timestep → s.time < timestep →
      DamageRheology.substep_loop growth reduction timestep fuel s = some (r, b) →
      0 < r.grain_size ∧ b = false := by
  induction fuel with
  | zero =>
    intro s r b _ _ _ h
    simp [DamageRheology.substep_loop] at h
  | succ n ih =>
    intro s r b hs hdt ht h
    have hdt1 : 0 < (if timestep - (s.time + s.grain_growth_timestep) < 0 then
        timestep - (s.time + s.grain_growth_timestep - s.grain_growth_timestep)
      else s.grain_growth_timestep) := by
      split_ifs
      · linarith
      · exact hdt
    have hstep := DamageRheology.substep_positive growth reduction timestep s hs
      (hg _ _ hs hdt1)
    have hpos : 0 < (DamageRheology.substep growth reduction timestep s).1.grain_size := by
      have : 0 < s.grain_size / 2 := by positivity
      linarith [hstep.1]
    have hdt2 : 0 < (DamageRheology.substep growth reduction timestep s).1.grain_growth_timestep := by
      rcases (DamageRheology.substep_grain_size_eq growth reduction timestep s _ rfl).2
        with h1 | h1 | h1 <;> rw [h1] <;> positivity
    unfold DamageRheology.substep_loop at h
    dsimp only at h
    rw [if_neg (by rw [hstep.2.2]; decide)] at h
    split_ifs at h with hlt
    · exact ih _ r b hpos hdt2 hlt h
    · have h1 := Option.some.inj h
      have hr1 : (DamageRheology.substep growth reduction timestep s).1 = r := by rw [h1]
      have hb1 : (DamageRheology.substep growth reduction timestep s).2 = b := by rw [h1]
      rw [← hr1, ← hb1]
      exact ⟨hpos, hstep.2.2⟩

/-! ## Lemmas on the rounding to `double` -/

theorem pow2_eq (e : ℤ) : pow2 e = (2 : ℚ) ^ e := by
  unfold pow2
  split_ifs with h
  · obtain ⟨n, rfl⟩ := Int.eq_ofNat_of_zero_le h
    simp
  · push_neg at h
    obtain ⟨n, hn⟩ := Int.eq_ofNat_of_zero_le (show 0 ≤ -e by omega)
    have he : e = -(n : ℤ) := by omega
    subst he
    simp

theorem pow2_pos (e : ℤ) : 0 < pow2 e := by
  rw [pow2_eq]
  positivity

theorem round_half_even_intCast (n : ℤ) : round_half_even (n : ℚ) = n := by
  unfold round_half_even
  simp

theorem round_half_even_ge_floor (x : ℚ) : ⌊x⌋ ≤ round_half_even x := by
  unfold round_half_even
  split_ifs <;> omega

theorem round_half_even_le_floor_succ (x : ℚ) : round_half_even x ≤ ⌊x⌋ + 1 := by
  unfold round_half_even
  split_ifs <;> omega

theorem round_half_even_mono {x y : ℚ} (h : x ≤ y) : round_half_even x ≤ round_half_even y := by
  have hf : ⌊x⌋ ≤ ⌊y⌋ := Int.floor_mono h
  rcases lt_or_eq_of_le hf with hlt | heq
  · calc round_half_even x ≤ ⌊x⌋ + 1 := round_half_even_le_floor_succ x
      _ ≤ ⌊y⌋ := hlt
      _ ≤ round_half_even y := round_half_even_ge_floor y
  · unfold round_half_even
    rw [heq]
    have hxy : x - (⌊y⌋ : ℚ) ≤ y - (⌊y⌋ : ℚ) := by linarith
    split_ifs <;> first | omega | (exfalso; linarith)

theorem log2_halving_spec : ∀ (fuel n : Nat), 0 < n → n ≤ fuel →
    2 ^ log2_halving fuel n ≤ n ∧ n < 2 ^ (log2_halving fuel n + 1) := by
  intro fuel
  induction fuel with
  | zero => intro n h0 h1; omega
  | succ fuel ih =>
    intro n h0 h1
    unfold log2_halving
    split_ifs with h2
    · constructor <;> simp <;> omega
    · have h3 : 0 < n / 2 := Nat.div_pos (by omega) (by norm_num)
      have h4 : n / 2 ≤ fuel := by omega
      obtain ⟨h5, h6⟩ := ih (n / 2) h3 h4
      constructor
      · rw [pow_succ]
        omega
      · rw [pow_succ]
        omega
theorem ilog2_spec (a : ℚ) (ha : 0 < a) :
    (2 : ℚ) ^ ilog2 a ≤ a ∧ a < (2 : ℚ) ^ (ilog2 a + 1) := by
  have hnum : 0 < a.num := Rat.num_pos.mpr ha
  have hp0 : 0 < a.num.natAbs := Int.natAbs_pos.mpr hnum.ne'
  have hq0 : 0 < a.den := a.den_pos
  obtain ⟨hp1, hp2⟩ := log2_halving_spec a.num.natAbs a.num.natAbs hp0 le_rfl
  obtain ⟨hq1, hq2⟩ := log2_halving_spec a.den a.den hq0 le_rfl
  obtain ⟨lp, hlp⟩ : ∃ lp, log2_halving a.num.natAbs a.num.natAbs = lp := ⟨_, rfl⟩
  obtain ⟨lq, hlq⟩ : ∃ lq, log2_halving a.den a.den = lq := ⟨_, rfl⟩
  rw [hlp] at hp1 hp2
  rw [hlq] at hq1 hq2
  have hPeq : ((a.num.natAbs : ℕ) : ℚ) = (a.num : ℚ) := by
    have : ((a.num.natAbs : ℕ) : ℤ) = a.num := Int.natAbs_of_nonneg hnum.le
    rw [← Int.cast_natCast, this]
  have ha_eq : a = (a.num.natAbs : ℚ) / (a.den : ℚ) := by
    rw [hPeq]
    exact (Rat.num_div_den a).symm
  have hP1 : (2 : ℚ) ^ lp ≤ (a.num.natAbs : ℚ) := by exact_mod_cast hp1
  have hP2 : (a.num.natAbs : ℚ) < 2 * (2 : ℚ) ^ lp := by
    have : a.num.natAbs < 2 * 2 ^ lp := by rw [pow_succ] at hp2; omega
    exact_mod_cast this
  have hQ1 : (2 : ℚ) ^ lq ≤ (a.den : ℚ) := by exact_mod_cast hq1
  have hQ2 : (a.den : ℚ) < 2 * (2 : ℚ) ^ lq := by
    have : a.den < 2 * 2 ^ lq := by rw [pow_succ] at hq2; omega
    exact_mod_cast this
  have hA : (0 : ℚ) < (2 : ℚ) ^ lp := by positivity
  have hB : (0 : ℚ) < (2 : ℚ) ^ lq := by positivity
  have hQ0 : (0 : ℚ) < (a.den : ℚ) := by exact_mod_cast hq0
  have he0 : (2 : ℚ) ^ ((lp : ℤ) - (lq : ℤ)) = (2 : ℚ) ^ lp / (2 : ℚ) ^ lq := by
    rw [zpow_sub₀ (by norm_num), zpow_natCast, zpow_natCast]
  have hup : a < (2 : ℚ) ^ ((lp : ℤ) - (lq : ℤ) + 1) := by
    rw [zpow_add_one₀ (by norm_num), he0, ha_eq, div_mul_eq_mul_div, div_lt_div_iff₀ hQ0 hB]
    nlinarith
  have hlow : (2 : ℚ) ^ ((lp : ℤ) - (lq : ℤ) - 1) ≤ a := by
    rw [zpow_sub_one₀ (by norm_num), he0, ha_eq, div_mul_eq_mul_div, div_le_div_iff₀ hB hQ0]
    have h2 : ((2 : ℚ))⁻¹ * 2 = 1 := by norm_num
    nlinarith
  unfold ilog2
  dsimp only
  rw [pow2_eq, hlp, hlq]
  split_ifs with h
  · exact ⟨h, hup⟩
  · refine ⟨hlow, ?_⟩
    rw [sub_add_cancel]
    exact not_le.mp h

/-- The binade of a positive number is determined by the number. -/
theorem ilog2_mono {a b : ℚ} (ha : 0 < a) (hab : a ≤ b) : ilog2 a ≤ ilog2 b := by
  obtain ⟨h1, _⟩ := ilog2_spec a ha
  obtain ⟨_, h4⟩ := ilog2_spec b (ha.trans_le hab)
  have h5 : (2 : ℚ) ^ ilog2 a < (2 : ℚ) ^ (ilog2 b + 1) := (h1.trans hab).trans_lt h4
  have := (zpow_lt_zpow_iff_right₀ (show (1 : ℚ) < 2 by norm_num)).mp h5
  omega

theorem ilog2_eq {a : ℚ} {e : ℤ} (h1 : (2 : ℚ) ^ e ≤ a) (h2 : a < (2 : ℚ) ^ (e + 1)) :
    ilog2 a = e := by
  have ha : 0 < a := lt_of_lt_of_le (by positivity) h1
  obtain ⟨h3, h4⟩ := ilog2_spec a ha
  have h5 := (zpow_lt_zpow_iff_right₀ (show (1 : ℚ) < 2 by norm_num)).mp (h1.trans_lt h4)
  have h6 := (zpow_lt_zpow_iff_right₀ (show (1 : ℚ) < 2 by norm_num)).mp (h3.trans_lt h2)
  omega
theorem binary64_of_pos {x : ℚ} (hx : 0 < x) :
    binary64 x = (round_half_even (x / (2 : ℚ) ^ (max (ilog2 x) (-1022) - 52)) : ℚ)
      * (2 : ℚ) ^ (max (ilog2 x) (-1022) - 52) := by
  unfold binary64
  rw [if_neg hx.ne', abs_of_pos hx]
  dsimp only
  rw [if_pos hx, pow2_eq]

theorem binary64_neg (x : ℚ) : binary64 (-x) = -binary64 x := by
  unfold binary64
  rcases lt_trichotomy x 0 with h | h | h
  · have h1 : 0 < -x := by linarith
    have h2 : ¬ (0 < x) := by linarith
    rw [if_neg h1.ne', if_neg h.ne, abs_neg]
    dsimp only
    rw [if_pos h1, if_neg h2, neg_neg]
  · subst h
    simp
  · have h1 : ¬ (0 < -x) := by linarith
    have h2 : -x ≠ 0 := by linarith
    rw [if_neg h2, if_neg h.ne', abs_neg]
    dsimp only
    rw [if_neg h1, if_pos h, neg_neg]

theorem two_zpow_split (E : ℤ) (k : ℕ) :
    ((2 ^ k : ℤ) : ℚ) * (2 : ℚ) ^ (E - k) = (2 : ℚ) ^ E := by
  push_cast
  rw [← zpow_natCast, ← zpow_add₀ (by norm_num)]
  congr 1
  ring

theorem binary64_nonneg {x : ℚ} (hx : 0 < x) : 0 ≤ binary64 x := by
  rw [binary64_of_pos hx]
  apply mul_nonneg _ (by positivity)
  have h1 : (0 : ℚ) ≤ x / (2 : ℚ) ^ (max (ilog2 x) (-1022) - 52) := by positivity
  have h2 := round_half_even_mono h1
  rw [show (0 : ℚ) = ((0 : ℤ) : ℚ) by norm_num, round_half_even_intCast] at h2
  exact_mod_cast h2

theorem binary64_le_binade {x : ℚ} (hx : 0 < x) :
    binary64 x ≤ (2 : ℚ) ^ (max (ilog2 x) (-1022) + 1) := by
  rw [binary64_of_pos hx]
  obtain ⟨_, h2⟩ := ilog2_spec x hx
  have hu : (0 : ℚ) < (2 : ℚ) ^ (max (ilog2 x) (-1022) - 52) := by positivity
  have h3 : (2 : ℚ) ^ (ilog2 x + 1) ≤ (2 : ℚ) ^ (max (ilog2 x) (-1022) + 1) :=
    zpow_le_zpow_right₀ (by norm_num) (by have := le_max_left (ilog2 x) (-1022); omega)
  have h4 : x / (2 : ℚ) ^ (max (ilog2 x) (-1022) - 52) ≤ ((2 ^ 53 : ℤ) : ℚ) := by
    rw [div_le_iff₀ hu]
    have := two_zpow_split (max (ilog2 x) (-1022) + 1) 53
    have h5 : max (ilog2 x) (-1022) + 1 - ((53 : ℕ) : ℤ) = max (ilog2 x) (-1022) - 52 := by
      push_cast
      ring
    rw [h5] at this
    rw [this]
    linarith
  have h6 := round_half_even_mono h4
  rw [round_half_even_intCast] at h6
  have h7 : (round_half_even (x / (2 : ℚ) ^ (max (ilog2 x) (-1022) - 52)) : ℚ)
      ≤ ((2 ^ 53 : ℤ) : ℚ) := by exact_mod_cast h6
  calc _ ≤ ((2 ^ 53 : ℤ) : ℚ) * (2 : ℚ) ^ (max (ilog2 x) (-1022) - 52) :=
        mul_le_mul_of_nonneg_right h7 hu.le
    _ = (2 : ℚ) ^ (max (ilog2 x) (-1022) + 1) := by
        have := two_zpow_split (max (ilog2 x) (-1022) + 1) 53
        have h5 : max (ilog2 x) (-1022) + 1 - ((53 : ℕ) : ℤ)
            = max (ilog2 x) (-1022) - 52 := by
          push_cast
          ring
        rw [h5] at this
        exact this

theorem binade_le_binary64 {x : ℚ} (hx : 0 < x) (he : -1022 ≤ ilog2 x) :
    (2 : ℚ) ^ ilog2 x ≤ binary64 x := by
  rw [binary64_of_pos hx, max_eq_left he]
  obtain ⟨h1, _⟩ := ilog2_spec x hx
  have hu : (0 : ℚ) < (2 : ℚ) ^ (ilog2 x - 52) := by positivity
  have hsplit := two_zpow_split (ilog2 x) 52
  have h5 : ilog2 x - ((52 : ℕ) : ℤ) = ilog2 x - 52 := by push_cast; ring
  rw [h5] at hsplit
  have h4 : ((2 ^ 52 : ℤ) : ℚ) ≤ x / (2 : ℚ) ^ (ilog2 x - 52) := by
    rw [le_div_iff₀ hu, hsplit]
    exact h1
  have h6 := round_half_even_mono h4
  rw [round_half_even_intCast] at h6
  have h7 : ((2 ^ 52 : ℤ) : ℚ) ≤ (round_half_even (x / (2 : ℚ) ^ (ilog2 x - 52)) : ℚ) := by
    exact_mod_cast h6
  calc (2 : ℚ) ^ ilog2 x = ((2 ^ 52 : ℤ) : ℚ) * (2 : ℚ) ^ (ilog2 x - 52) := hsplit.symm
    _ ≤ _ := mul_le_mul_of_nonneg_right h7 hu.le

theorem binary64_mono_of_pos {x y : ℚ} (hx : 0 < x) (hxy : x ≤ y) :
    binary64 x ≤ binary64 y := by
  have hy : 0 < y := hx.trans_le hxy
  have he := ilog2_mono hx hxy
  rcases lt_or_eq_of_le (max_le_max he (le_refl (-1022 : ℤ))) with hlt | heq
  · have h1 := binary64_le_binade hx
    have hey : -1022 ≤ ilog2 y := by
      by_contra hcon
      push_neg at hcon
      rw [max_eq_right hcon.le] at hlt
      have := le_max_right (ilog2 x) (-1022)
      omega
    have h2 := binade_le_binary64 hy hey
    rw [max_eq_left hey] at hlt
    have h3 : (2 : ℚ) ^ (max (ilog2 x) (-1022) + 1) ≤ (2 : ℚ) ^ ilog2 y :=
      zpow_le_zpow_right₀ (by norm_num) (by omega)
    exact h1.trans (h3.trans h2)
  · rw [binary64_of_pos hx, binary64_of_pos hy, heq]
    have hu : (0 : ℚ) < (2 : ℚ) ^ (max (ilog2 y) (-1022) - 52) := by positivity
    apply mul_le_mul_of_nonneg_right _ hu.le
    have := round_half_even_mono (div_le_div_of_nonneg_right hxy hu.le)
    exact_mod_cast this

theorem binary64_zero : binary64 0 = 0 := by
  unfold binary64
  rw [if_pos rfl]

/-- Rounding to `double` is monotone. -/
theorem binary64_monotone : Monotone binary64 := by
  intro x y hxy
  rcases lt_trichotomy x 0 with hx | hx | hx
  · rcases lt_trichotomy y 0 with hy | hy | hy
    · have h := binary64_mono_of_pos (show 0 < -y by linarith) (show -y ≤ -x by linarith)
      rw [binary64_neg, binary64_neg] at h
      linarith
    · subst hy
      have h := binary64_nonneg (show 0 < -x by linarith)
      rw [binary64_neg] at h
      rw [binary64_zero]
      linarith
    · have h := binary64_nonneg (show 0 < -x by linarith)
      rw [binary64_neg] at h
      have h2 := binary64_nonneg hy
      linarith
  · subst hx
    rw [binary64_zero]
    rcases lt_or_eq_of_le hxy with hy | hy
    · exact binary64_nonneg hy
    · rw [← hy, binary64_zero]
  · exact binary64_mono_of_pos hx hxy
theorem binary64_significand {x : ℚ} (hx : 0 < x) :
    0 ≤ round_half_even (x / (2 : ℚ) ^ (max (ilog2 x) (-1022) - 52)) ∧
    round_half_even (x / (2 : ℚ) ^ (max (ilog2 x) (-1022) - 52)) ≤ 2 ^ 53 := by
  obtain ⟨_, h2⟩ := ilog2_spec x hx
  have hu : (0 : ℚ) < (2 : ℚ) ^ (max (ilog2 x) (-1022) - 52) := by positivity
  constructor
  · have h1 : (0 : ℚ) ≤ x / (2 : ℚ) ^ (max (ilog2 x) (-1022) - 52) := by positivity
    have h3 := round_half_even_mono h1
    rw [show (0 : ℚ) = ((0 : ℤ) : ℚ) by norm_num, round_half_even_intCast] at h3
    exact h3
  · have h3 : (2 : ℚ) ^ (ilog2 x + 1) ≤ (2 : ℚ) ^ (max (ilog2 x) (-1022) + 1) :=
      zpow_le_zpow_right₀ (by norm_num) (by have := le_max_left (ilog2 x) (-1022); omega)
    have h4 : x / (2 : ℚ) ^ (max (ilog2 x) (-1022) - 52) ≤ ((2 ^ 53 : ℤ) : ℚ) := by
      rw [div_le_iff₀ hu]
      have := two_zpow_split (max (ilog2 x) (-1022) + 1) 53
      have h5 : max (ilog2 x) (-1022) + 1 - ((53 : ℕ) : ℤ) = max (ilog2 x) (-1022) - 52 := by
        push_cast
        ring
      rw [h5] at this
      rw [this]
      linarith
    have h6 := round_half_even_mono h4
    rw [round_half_even_intCast] at h6
    exact h6

/-- A number `n * 2^(E-52)` with an integer `0 < n ≤ 2^53` and `E ≥ -1022` is a `double`:
rounding leaves it unchanged. -/
theorem binary64_of_representable (n E : ℤ) (hn0 : 0 < n) (hn : n ≤ 2 ^ 53)
    (hE : -1022 ≤ E) :
    binary64 ((n : ℚ) * (2 : ℚ) ^ (E - 52)) = (n : ℚ) * (2 : ℚ) ^ (E - 52) := by
  have hu : (0 : ℚ) < (2 : ℚ) ^ (E - 52) := by positivity
  have hnq : (0 : ℚ) < (n : ℚ) := by exact_mod_cast hn0
  have hr : 0 < (n : ℚ) * (2 : ℚ) ^ (E - 52) := mul_pos hnq hu
  have hsplit := two_zpow_split (E + 1) 53
  have h53 : E + 1 - ((53 : ℕ) : ℤ) = E - 52 := by push_cast; ring
  rw [h53] at hsplit
  have hrle : (n : ℚ) * (2 : ℚ) ^ (E - 52) ≤ (2 : ℚ) ^ (E + 1) := by
    rw [← hsplit]
    exact mul_le_mul_of_nonneg_right (by exact_mod_cast hn) hu.le
  obtain ⟨h1, h2⟩ := ilog2_spec _ hr
  have he' : ilog2 ((n : ℚ) * (2 : ℚ) ^ (E - 52)) ≤ E + 1 := by
    by_contra hcon
    push_neg at hcon
    have h3 : (2 : ℚ) ^ (E + 1) < (2 : ℚ) ^ ilog2 ((n : ℚ) * (2 : ℚ) ^ (E - 52)) :=
      zpow_lt_zpow_right₀ (by norm_num) hcon
    linarith
  rw [binary64_of_pos hr]
  rcases le_or_lt (max (ilog2 ((n : ℚ) * (2 : ℚ) ^ (E - 52))) (-1022)) E with hle | hgt
  · obtain ⟨k, hk⟩ := Int.eq_ofNat_of_zero_le (show 0 ≤ E
        - max (ilog2 ((n : ℚ) * (2 : ℚ) ^ (E - 52))) (-1022) by omega)
    have hE' : E - 52 = max (ilog2 ((n : ℚ) * (2 : ℚ) ^ (E - 52))) (-1022) - 52 + (k : ℤ) := by
      omega
    have hquot : (n : ℚ) * (2 : ℚ) ^ (E - 52)
        / (2 : ℚ) ^ (max (ilog2 ((n : ℚ) * (2 : ℚ) ^ (E - 52))) (-1022) - 52)
        = ((n * 2 ^ k : ℤ) : ℚ) := by
      rw [div_eq_iff (by positivity)]
      nth_rewrite 1 [hE']
      rw [zpow_add₀ (by norm_num), zpow_natCast]
      push_cast
      ring
    rw [hquot, round_half_even_intCast]
    nth_rewrite 2 [hE']
    rw [zpow_add₀ (by norm_num), zpow_natCast]
    push_cast
    ring
  · have hmax : max (ilog2 ((n : ℚ) * (2 : ℚ) ^ (E - 52))) (-1022) = E + 1 := by
      have h3 : max (ilog2 ((n : ℚ) * (2 : ℚ) ^ (E - 52))) (-1022) ≤ E + 1 :=
        max_le he' (by omega)
      omega
    have hil : ilog2 ((n : ℚ) * (2 : ℚ) ^ (E - 52)) = E + 1 := by
      rcases max_choice (ilog2 ((n : ℚ) * (2 : ℚ) ^ (E - 52))) (-1022) with h | h
      · rw [h] at hmax
        exact hmax
      · rw [h] at hmax
        omega
    rw [hil] at h1
    have hreq : (n : ℚ) * (2 : ℚ) ^ (E - 52) = (2 : ℚ) ^ (E + 1) := le_antisymm hrle h1
    rw [hmax, hreq]
    have hsplit2 := two_zpow_split (E + 1) 52
    have h52 : E + 1 - ((52 : ℕ) : ℤ) = E + 1 - 52 := by push_cast; ring
    rw [h52] at hsplit2
    have hquot : (2 : ℚ) ^ (E + 1) / (2 : ℚ) ^ (E + 1 - 52) = ((2 ^ 52 : ℤ) : ℚ) := by
      rw [div_eq_iff (by positivity)]
      exact hsplit2.symm
    rw [hquot, round_half_even_intCast]
    exact hsplit2

/-- Rounding to `double` leaves its own results unchanged. -/
theorem binary64_idempotent (x : ℚ) : binary64 (binary64 x) = binary64 x := by
  have hpos : ∀ y : ℚ, 0 < y → binary64 (binary64 y) = binary64 y := by
    intro y hy
    obtain ⟨h0, h53⟩ := binary64_significand hy
    rcases lt_or_eq_of_le h0 with hn | hn
    · rw [binary64_of_pos hy]
      exact binary64_of_representable _ _ hn h53 (le_max_right _ _)
    · have hz : binary64 y = 0 := by
        rw [binary64_of_pos hy, ← hn]
        simp
      rw [hz, binary64_zero]
  rcases lt_trichotomy x 0 with hx | hx | hx
  · have h := hpos (-x) (by linarith)
    rw [binary64_neg, binary64_neg] at h
    linarith
  · subst hx
    rw [binary64_zero, binary64_zero]
  · exact hpos x hx

theorem binary64_one : binary64 1 = 1 := by
  decide!

/-- In exact arithmetic: for every table with `numtemp ≥ 2`, `numpress ≥ 2`, positive
`delta_temp` and `delta_press` and axis bounds `max = min + (count-1)*delta`, and every
grid index pair `(i, j)` with `i < numtemp`, `j < numpress`, `value` with interpolation at
the grid-aligned point `(min_temp + i*delta_temp, min_press + j*delta_press)` returns the
entry `values[min(i, numtemp-2)][min(j, numpress-2)]`. -/
theorem MaterialLookup.value_at_grid_point_exact (L : MaterialLookup) (values : Table)
    (i j : Nat)
    (hdT : 0 < L.delta_temp) (hdP : 0 < L.delta_press)
    (hnT : 2 ≤ L.numtemp) (hnP : 2 ≤ L.numpress)
    (hT32 : L.numtemp < 4294967296) (hP32 : L.numpress < 4294967296)
    (hmaxT : L.max_temp = L.min_temp + ((L.numtemp : ℚ) - 1) * L.delta_temp)
    (hmaxP : L.max_press = L.min_press + ((L.numpress : ℚ) - 1) * L.delta_press)
    (hrows : values.n_rows = L.numtemp) (hcols : values.n_cols = L.numpress)
    (_hi : i < L.numtemp) (_hj : j < L.numpress) :
    L.value (L.min_temp + (i : ℚ) * L.delta_temp) (L.min_press + (j : ℚ) * L.delta_press)
        values true
      = some (values.data (min i (L.numtemp - 2)) (min j (L.numpress - 2))) := by
  have hi2 : min i (L.numtemp - 2) ≤ L.numtemp - 2 := Nat.min_le_right _ _
  have hj2 : min j (L.numpress - 2) ≤ L.numpress - 2 := Nat.min_le_right _ _
  rw [MaterialLookup.value_interpolated L _ _ values _ _ _ _
    (MaterialLookup.get_nT_grid L i hdT hnT hmaxT) (toUnsigned_natCast _ (by omega))
    (MaterialLookup.get_np_grid L j hdP hnP hmaxP) (toUnsigned_natCast _ (by omega))
    (by omega) (by omega) (by simp) (by simp)]
  congr 1
  simp

/-! ## Lemmas on the lookup in rounded arithmetic -/

/-- Without rounding, the rounded fractional temperature index is `get_nT`. -/
theorem MaterialLookup.get_nT_rounded_id (L : MaterialLookup) (temperature : ℚ) :
    L.get_nT_rounded id temperature = L.get_nT temperature := rfl

/-- Without rounding, the rounded fractional pressure index is `get_np`. -/
theorem MaterialLookup.get_np_rounded_id (L : MaterialLookup) (pressure : ℚ) :
    L.get_np_rounded id pressure = L.get_np pressure := rfl

/-- Without rounding, the rounded lookup is `value`. -/
theorem MaterialLookup.value_rounded_id (L : MaterialLookup) (temperature pressure : ℚ)
    (values : Table) (interpol : Bool) :
    L.value_rounded id temperature pressure values interpol
      = L.value temperature pressure values interpol := rfl

/-- In `double` arithmetic with `min_temp = 273.15` and `delta_temp = 14.3` the grid
temperature of row 3, `min_temp + 3*delta_temp`, has the fractional index
`2.9999999999999982`, below 3, and the lookup in the table `values[a][b] = a` returns
this blend of the rows 2 and 3 and not the entry 3 of row 3. -/
theorem MaterialLookup.value_rounded_below_grid_row :
    MaterialLookup.roundingExample.get_nT_rounded binary64
        (binary64 (binary64 (27315 / 100) + binary64 (3 * binary64 (143 / 10))))
      = some (1688849860263935 / 562949953421312) ∧
    MaterialLookup.roundingExample.value_rounded binary64
        (binary64 (binary64 (27315 / 100) + binary64 (3 * binary64 (143 / 10)))) 0
        ⟨5, 2, fun a _ => a⟩ true
      = some (1688849860263935 / 562949953421312) ∧
    (⟨5, 2, fun a _ => a⟩ : Table).data 3 0 = 3 ∧
    (1688849860263935 / 562949953421312 : ℚ) < 3 := by
  decide!

/-! ## Lemmas on the reaction term of `MeltPeridotiteEclogite` -/

/-- In exact arithmetic the peridotite reaction term is `melting` for every
`maximum_melt_fractions[i]` other than 1. -/
theorem MeltPeridotiteEclogite.reaction_term_exact {α : Type} [Field α] [DecidableEq α]
    (peridotite_idx porosity_idx timestep_number : Nat)
    (melting maximum_melt_fraction density timestep : α)
    (htn : timestep_number > 0) (hm : maximum_melt_fraction ≠ 1) :
    MeltPeridotiteEclogite.reaction_term id peridotite_idx porosity_idx timestep_number true
      melting maximum_melt_fraction density timestep peridotite_idx = some melting := by
  have h1 : (1 : α) - maximum_melt_fraction ≠ 0 := fun h => hm (sub_eq_zero.mp h).symm
  unfold MeltPeridotiteEclogite.reaction_term quotient
  rw [if_pos ⟨rfl, htn, rfl⟩]
  simp only [id_eq]
  rw [if_neg h1, mul_div_assoc, div_self h1, mul_one]

/-- For `maximum_melt_fractions[i] = 1` the peridotite reaction term divides by zero,
whatever the rounding and the value of `melting`. -/
theorem MeltPeridotiteEclogite.reaction_term_undefined {α : Type} [Field α] [DecidableEq α]
    (fl : α → α) (h0 : fl 0 = 0) (peridotite_idx porosity_idx timestep_number : Nat)
    (melting density timestep : α) (htn : timestep_number > 0) :
    MeltPeridotiteEclogite.reaction_term fl peridotite_idx porosity_idx timestep_number true
      melting 1 density timestep peridotite_idx = none := by
  unfold MeltPeridotiteEclogite.reaction_term quotient
  rw [if_pos ⟨rfl, htn, rfl⟩, sub_self, h0, if_pos rfl]

/-! ## Lemmas on the passes of the sub-stepping loop -/

/-- A pass that rejects the sub-step restores the time and the grain size. -/
theorem DamageRheology.substep_of_rejected {α : Type} [LinearOrderedField α]
    (growth reduction : α → α → α) (timestep : α) (s : DamageRheology.Substep α)
    (h : DamageRheology.substep_rejected growth reduction timestep s) :
    (DamageRheology.substep growth reduction timestep s).1.time = s.time ∧
    (DamageRheology.substep growth reduction timestep s).1.grain_size = s.grain_size ∧
    (DamageRheology.substep growth reduction timestep s).1.grain_growth_timestep
      = DamageRheology.substep_timestep timestep s / 2 := by
  unfold DamageRheology.substep_rejected DamageRheology.substep_timestep at h
  unfold DamageRheology.substep DamageRheology.substep_timestep
  dsimp only at h ⊢
  obtain ⟨hA, hB⟩ := h
  rw [if_neg hA, if_pos hB]
  dsimp only
  refine ⟨?_, by ring, rfl⟩
  split_ifs <;> ring

/-- A pass that does not reject the sub-step advances the time by the sub-step, truncated
to the end of the time step, and adds the change of the grain size. -/
theorem DamageRheology.substep_of_not_rejected {α : Type} [LinearOrderedField α]
    (growth reduction : α → α → α) (timestep : α) (s : DamageRheology.Substep α)
    (h : ¬ DamageRheology.substep_rejected growth reduction timestep s) :
    (DamageRheology.substep growth reduction timestep s).1.time
      = min (s.time + s.grain_growth_timestep) timestep ∧
    (DamageRheology.substep growth reduction timestep s).1.grain_size
      = s.grain_size
        + (growth s.grain_size (DamageRheology.substep_timestep timestep s)
          - reduction s.grain_size (DamageRheology.substep_timestep timestep s)) := by
  unfold DamageRheology.substep_rejected DamageRheology.substep_timestep at h
  unfold DamageRheology.substep DamageRheology.substep_timestep
  dsimp only at h ⊢
  have hmin : (if timestep - (s.time + s.grain_growth_timestep) < 0 then timestep
      else s.time + s.grain_growth_timestep)
      = min (s.time + s.grain_growth_timestep) timestep := by
    split_ifs with htr
    · rw [min_eq_right]; linarith
    · rw [min_eq_left]; linarith
  split_ifs at h ⊢ with htr hA hB hA hB <;>
    first
    | exact ⟨by first | (rw [min_eq_right]; linarith) | (rw [min_eq_left]; linarith), rfl⟩
    | exact absurd ⟨‹_›, ‹_›⟩ h

/-! ## The claims -/

/-- C1 (fails on the code): the PerpleX table with `numtemp = 3` and `numpress = 2`
passes the header checks and is filled by six rows, yet at the pressure 2e9 Pa
`get_np` returns the fractional index 1, so that `value` with interpolation reads
column `inp + 1 = 2` of a table with two columns and the lookup fails. -/
theorem perplex_value_not_in_range :
    ∃ L : MaterialLookup,
      PerplexReader ⟨0, 100, 3, 0, 10000, 2⟩
        [⟨some 1, some 1, some 1, some 1, some 1, some 1⟩,
         ⟨some 2, some 2, some 2, some 2, some 2, some 2⟩,
         ⟨some 3, some 3, some 3, some 3, some 3, some 3⟩,
         ⟨some 4, some 4, some 4, some 4, some 4, some 4⟩,
         ⟨some 5, some 5, some 5, some 5, some 5, some 5⟩,
         ⟨some 6, some 6, some 6, some 6, some 6, some 6⟩] true = some L ∧
      L.density_values.n_rows = 3 ∧ L.density_values.n_cols = 2 ∧
      L.get_np 2000000000 = some 1 ∧
      L.value 50 2000000000 L.density_values true = none := by
  have hsome : (PerplexReader ⟨0, 100, 3, 0, 10000, 2⟩
        [⟨some 1, some 1, some 1, some 1, some 1, some 1⟩,
         ⟨some 2, some 2, some 2, some 2, some 2, some 2⟩,
         ⟨some 3, some 3, some 3, some 3, some 3, some 3⟩,
         ⟨some 4, some 4, some 4, some 4, some 4, some 4⟩,
         ⟨some 5, some 5, some 5, some 5, some 5, some 5⟩,
         ⟨some 6, some 6, some 6, some 6, some 6, some 6⟩] true).isSome = true := by decide!
  have hval : ((PerplexReader ⟨0, 100, 3, 0, 10000, 2⟩
        [⟨some 1, some 1, some 1, some 1, some 1, some 1⟩,
         ⟨some 2, some 2, some 2, some 2, some 2, some 2⟩,
         ⟨some 3, some 3, some 3, some 3, some 3, some 3⟩,
         ⟨some 4, some 4, some 4, some 4, some 4, some 4⟩,
         ⟨some 5, some 5, some 5, some 5, some 5, some 5⟩,
         ⟨some 6, some 6, some 6, some 6, some 6, some 6⟩] true).bind fun L =>
        L.value 50 2000000000 L.density_values true) = none := by decide!
  have hnp : ((PerplexReader ⟨0, 100, 3, 0, 10000, 2⟩
        [⟨some 1, some 1, some 1, some 1, some 1, some 1⟩,
         ⟨some 2, some 2, some 2, some 2, some 2, some 2⟩,
         ⟨some 3, some 3, some 3, some 3, some 3, some 3⟩,
         ⟨some 4, some 4, some 4, some 4, some 4, some 4⟩,
         ⟨some 5, some 5, some 5, some 5, some 5, some 5⟩,
         ⟨some 6, some 6, some 6, some 6, some 6, some 6⟩] true).bind fun L =>
        L.get_np 2000000000) = some 1 := by decide!
  obtain ⟨L, hL⟩ := Option.isSome_iff_exists.mp hsome
  rw [hL, Option.some_bind] at hval hnp
  obtain ⟨hr, hc⟩ := PerplexReader.table_dims _ _ _ L hL L.density_values
    (by simp [MaterialLookup.tables])
  exact ⟨L, hL, hr, hc, hnp, hval⟩

/-- C2 (amended): for every rounding `fl` of the arithmetic results that leaves 0 and 1
unchanged (exact arithmetic, `double` arithmetic), at every point whose fractional indices
computed by `get_nT` and `get_np` are exactly the integers `i` and `j`, with the rows
`i`, `i+1` and the columns `j`, `j+1` inside the table, `value` with interpolation returns
exactly the stored entry `values[i][j]` (a `double`, so rounding leaves it unchanged). -/
theorem value_at_grid_point (fl : ℚ → ℚ) (L : MaterialLookup) (values : Table)
    (temperature pressure : ℚ) (i j : Nat)
    (h0 : fl 0 = 0) (h1 : fl 1 = 1) (hv : fl (values.data i j) = values.data i j)
    (hnT : L.get_nT_rounded fl temperature = some (i : ℚ))
    (hnp : L.get_np_rounded fl pressure = some (j : ℚ))
    (hi : i + 1 < values.n_rows) (hj : j + 1 < values.n_cols)
    (hi32 : i < 4294967296) (hj32 : j < 4294967296) :
    L.value_rounded fl temperature pressure values true = some (values.data i j) := by
  have hr0 : i < values.n_rows := by omega
  have hc0 : j < values.n_cols := by omega
  unfold MaterialLookup.value_rounded
  rw [hnT, Option.some_bind, toUnsigned_natCast i hi32, Option.some_bind, hnp,
    Option.some_bind, toUnsigned_natCast j hj32, Option.some_bind]
  simp only [not_not, hr0, hc0, not_true_eq_false, if_false, Bool.not_true,
    Bool.false_eq_true, sub_self, h0, sub_zero, h1, le_refl, zero_le_one, and_self,
    mul_one, zero_mul, mul_zero, add_zero]
  rw [Table.get_of_lt _ _ _ hr0 hc0, Table.get_of_lt _ _ _ hi hc0,
    Table.get_of_lt _ _ _ hr0 hj, Table.get_of_lt _ _ _ hi hj]
  simp only [Option.some_bind, one_mul, hv]

/-- C2 (counterexample): the claim as stated fails on the last grid row.  In the
2 x 2 table with `values[a][b] = a`, unit spacing and `max = min + (count-1)*delta`,
the lookup at the grid point `(i, j) = (1, 0)` does not return `values[1][0]`. -/
theorem value_at_last_grid_row_counterexample :
    ¬ ∀ (L : MaterialLookup) (values : Table) (i j : Nat),
      0 < L.delta_temp → 0 < L.delta_press → 2 ≤ L.numtemp → 2 ≤ L.numpress →
      L.numtemp < 4294967296 → L.numpress < 4294967296 →
      L.max_temp = L.min_temp + ((L.numtemp : ℚ) - 1) * L.delta_temp →
      L.max_press = L.min_press + ((L.numpress : ℚ) - 1) * L.delta_press →
      values.n_rows = L.numtemp → values.n_cols = L.numpress →
      i < L.numtemp → j < L.numpress →
      L.value (L.min_temp + (i : ℚ) * L.delta_temp) (L.min_press + (j : ℚ) * L.delta_press)
        values true = some (values.data i j) := by
  intro h
  have h1 := h
    { density_values := ⟨2, 2, fun a _ => a⟩
      thermal_expansivity_values := ⟨2, 2, fun a _ => a⟩
      specific_heat_values := ⟨2, 2, fun a _ => a⟩
      vp_values := ⟨2, 2, fun a _ => a⟩
      vs_values := ⟨2, 2, fun a _ => a⟩
      enthalpy_values := ⟨2, 2, fun a _ => a⟩
      delta_press := 1, min_press := 0, max_press := 1
      delta_temp := 1, min_temp := 0, max_temp := 1
      numtemp := 2, numpress := 2, interpolation := true }
    ⟨2, 2, fun a _ => a⟩ 1 0
    (by norm_num) (by norm_num) (by norm_num) (by norm_num) (by norm_num) (by norm_num)
    (by norm_num) (by norm_num) rfl rfl (by norm_num) (by norm_num)
  revert h1
  decide!

/-- C2 (witness): `double` arithmetic, a 3 x 3 table with `min_temp = 0`,
`delta_temp = 100`, `min_press = 0`, `delta_press = 1e9`, at the point `(100, 0)` with the
fractional indices 1 and 0. -/
theorem value_at_grid_point_witness :
    (⟨⟨3, 3, fun a b => 10 * a + b⟩, ⟨3, 3, fun a b => 10 * a + b⟩,
      ⟨3, 3, fun a b => 10 * a + b⟩, ⟨3, 3, fun a b => 10 * a + b⟩,
      ⟨3, 3, fun a b => 10 * a + b⟩, ⟨3, 3, fun a b => 10 * a + b⟩,
      1000000000, 0, 2000000000, 100, 0, 200, 3, 3, true⟩ : MaterialLookup).value_rounded
        binary64 100 0 ⟨3, 3, fun a b => 10 * a + b⟩ true
      = some ((⟨3, 3, fun a b => 10 * a + b⟩ : Table).data 1 0) :=
  value_at_grid_point binary64
    ⟨⟨3, 3, fun a b => 10 * a + b⟩, ⟨3, 3, fun a b => 10 * a + b⟩,
      ⟨3, 3, fun a b => 10 * a + b⟩, ⟨3, 3, fun a b => 10 * a + b⟩,
      ⟨3, 3, fun a b => 10 * a + b⟩, ⟨3, 3, fun a b => 10 * a + b⟩,
      1000000000, 0, 2000000000, 100, 0, 200, 3, 3, true⟩
    ⟨3, 3, fun a b => 10 * a + b⟩ 100 0 1 0
    (by decide!) (by decide!) (by decide!) (by decide!) (by decide!)
    (by decide) (by decide) (by decide) (by decide)

/-- C3 (fails on the code): for the PerpleX header with `numtemp = 2`, `numpress = 3`,
`min_press = 0` and `delta_press = 1e9` Pa the reader sets `max_press = 1e9`, which is
`min_press + (numtemp-1)*delta_press`, and not `min_press + (numpress-1)*delta_press = 2e9`;
every pressure is then clamped to the fractional index 0, so the table is truncated
in the pressure dimension. -/
theorem perplex_max_press_from_numtemp :
    ∃ L : MaterialLookup,
      PerplexReader ⟨0, 100, 2, 0, 10000, 3⟩
        [⟨some 1, some 1, some 1, some 1, some 1, some 1⟩,
         ⟨some 2, some 2, some 2, some 2, some 2, some 2⟩,
         ⟨some 3, some 3, some 3, some 3, some 3, some 3⟩,
         ⟨some 4, some 4, some 4, some 4, some 4, some 4⟩,
         ⟨some 5, some 5, some 5, some 5, some 5, some 5⟩,
         ⟨some 6, some 6, some 6, some 6, some 6, some 6⟩] true = some L ∧
      L.max_press = 1000000000 ∧
      L.min_press + ((L.numpress : ℚ) - 1) * L.delta_press = 2000000000 ∧
      ∀ P : ℚ, L.get_np P = some 0 := by
  have hsome : (PerplexReader ⟨0, 100, 2, 0, 10000, 3⟩
        [⟨some 1, some 1, some 1, some 1, some 1, some 1⟩,
         ⟨some 2, some 2, some 2, some 2, some 2, some 2⟩,
         ⟨some 3, some 3, some 3, some 3, some 3, some 3⟩,
         ⟨some 4, some 4, some 4, some 4, some 4, some 4⟩,
         ⟨some 5, some 5, some 5, some 5, some 5, some 5⟩,
         ⟨some 6, some 6, some 6, some 6, some 6, some 6⟩] true).isSome = true := by decide!
  obtain ⟨L, hL⟩ := Option.isSome_iff_exists.mp hsome
  obtain ⟨a, b, c, -, -, -, -, k⟩ := PerplexReader.scalars _ _ _ L hL
  simp only at a b c k
  norm_num at a b c
  refine ⟨L, hL, c, ?_, ?_⟩
  · rw [a, b, k]; norm_num
  · intro P
    unfold MaterialLookup.get_np
    rw [a, b, c]
    have h0 : min (max (0 : ℚ) P) (1000000000 - 1000000000) = 0 := by
      rw [sub_self]
      exact min_eq_right (le_max_left 0 P)
    simp only [h0]
    norm_num

/-- C4: for every PerpleX table read from the header `numtemp = 3`, `numpress = 2`,
`min_temp = 0`, `delta_temp = 100`, `min_press = 0`, `delta_press = 1e9` Pa (1e4 bar in
the file), whatever the data rows, and for each of its property tables,
`value(50, 5e8)` with interpolation is the average
`(values[0][0] + values[1][0] + values[0][1] + values[1][1]) / 4`. -/
theorem perplex_value_bilinear_average (rows : List PerplexRow) (interpol : Bool)
    (L : MaterialLookup)
    (h : PerplexReader ⟨0, 100, 3, 0, 10000, 2⟩ rows interpol = some L)
    (values : Table) (hv : values ∈ L.tables) :
    L.value 50 500000000 values true
      = some ((values.data 0 0 + values.data 1 0 + values.data 0 1 + values.data 1 1) / 4) := by
  obtain ⟨hr, hc⟩ := PerplexReader.table_dims _ rows interpol L h values hv
  obtain ⟨a, b, c, d, e, f, -, -⟩ := PerplexReader.scalars _ rows interpol L h
  simp only at hr hc a b c d e f
  have h1 : L.get_nT 50 = some (1/2) := by
    unfold MaterialLookup.get_nT
    rw [d, e, f]
    norm_num
  have h3 : L.get_np 500000000 = some (1/2) := by
    unfold MaterialLookup.get_np
    rw [a, b, c]
    norm_num
  have h2 : toUnsigned (1/2) = some 0 := by
    unfold toUnsigned
    norm_num
  rw [MaterialLookup.value_interpolated L 50 500000000 values (1/2) (1/2) 0 0 h1 h2 h3 h2
    (by omega) (by omega) (by norm_num) (by norm_num)]
  congr 1
  norm_num
  ring
/-- C4 (witness): a file of six rows, one of them with an unreadable field. -/
theorem perplex_value_bilinear_average_witness :
    ∃ L : MaterialLookup,
      PerplexReader ⟨0, 100, 3, 0, 10000, 2⟩
        [⟨some 1, some 1, some 1, some 1, some 1, some 1⟩,
         ⟨some 2, some 2, some 2, some 2, some 2, some 2⟩,
         ⟨some 3, none, some 3, some 3, some 3, some 3⟩,
         ⟨some 4, some 4, some 4, some 4, some 4, some 4⟩,
         ⟨some 5, some 5, some 5, some 5, some 5, some 5⟩,
         ⟨some 6, some 6, some 6, some 6, some 6, some 6⟩] true = some L ∧
      L.value 50 500000000 L.density_values true
        = some ((L.density_values.data 0 0 + L.density_values.data 1 0
                  + L.density_values.data 0 1 + L.density_values.data 1 1) / 4) := by
  have hsome : (PerplexReader ⟨0, 100, 3, 0, 10000, 2⟩
        [⟨some 1, some 1, some 1, some 1, some 1, some 1⟩,
         ⟨some 2, some 2, some 2, some 2, some 2, some 2⟩,
         ⟨some 3, none, some 3, some 3, some 3, some 3⟩,
         ⟨some 4, some 4, some 4, some 4, some 4, some 4⟩,
         ⟨some 5, some 5, some 5, some 5, some 5, some 5⟩,
         ⟨some 6, some 6, some 6, some 6, some 6, some 6⟩] true).isSome = true := by decide!
  obtain ⟨L, hL⟩ := Option.isSome_iff_exists.mp hsome
  exact ⟨L, hL, perplex_value_bilinear_average _ true L hL L.density_values
    (by simp [MaterialLookup.tables])⟩

/-- C5 (fails on the code): in `HeFESToReader` with `numtemp = numpress = 2` the
fallback of row 2 reads the cell `[1][0]`, while row 1 was written to the cell `[0][1]`.
For the rows with densities 1, 2, unreadable, 4 (g/cm^3) the table ends with
`density_values[1][0] = 0` (the value of the cell after `reinit`) instead of the value
2000 stored for row 1. -/
theorem hefesto_fallback_reads_other_cell :
    HeFESToReader.fallback_cell 2 2 = (1, 0) ∧
    HeFESToReader.write_cell 2 1 = (0, 1) ∧
    (HeFESToReader.loop (HeFESToReader.start 2 2 true, 0)
        [⟨0, 0, some 1, some 1, some 1, some 1⟩,
         ⟨0, 0, some 2, some 2, some 2, some 2⟩,
         ⟨0, 0, none, some 3, some 3, some 3⟩,
         ⟨0, 0, some 4, some 4, some 4, some 4⟩]).map
      (fun s => (s.1.density_values.data 0 0, s.1.density_values.data 0 1,
                 s.1.density_values.data 1 0, s.1.density_values.data 1 1))
      = some (1000, 2000, 0, 4000) := by
  refine ⟨by decide, by decide, by decide!⟩
/-- C6: with the default Katz coefficients, for every temperature `T` and every
pressure `P > 1.3e10` Pa, `MeltPeridotiteEclogite::melt_fraction(T, P)` and
`LatentHeatMelt::peridotite_melt_fraction(T, P)` are exactly 0. -/
theorem melt_fraction_zero_above_cutoff (T P : ℝ) (hP : P > 1.3e10) :
    MeltPeridotiteEclogite.melt_fraction defaultKatz T P = 0 ∧
    LatentHeatMelt.peridotite_melt_fraction defaultKatz T P = 0 := by
  refine ⟨MeltPeridotiteEclogite.melt_fraction_cutoff defaultKatz T P (defaultKatz_regular P) hP, ?_⟩
  unfold LatentHeatMelt.peridotite_melt_fraction
  simp only [gt_iff_lt]
  rw [if_pos (Or.inr hP), if_neg]
  intro hc
  have hpos : (0 : ℝ) < defaultKatz.M_cpx / (defaultKatz.r1 + defaultKatz.r2 * P) := by
    simp only [defaultKatz]
    apply div_pos
    · norm_num
    · norm_num at hP ⊢
      nlinarith
  linarith [hc.1]

/-- C6 (witness): `T = 3000` K, `P = 2e10` Pa. -/
theorem melt_fraction_zero_above_cutoff_witness :
    ((2e10 : ℝ) > 1.3e10) ∧
    MeltPeridotiteEclogite.melt_fraction defaultKatz 3000 2e10 = 0 ∧
    LatentHeatMelt.peridotite_melt_fraction defaultKatz 3000 2e10 = 0 :=
  ⟨by norm_num, melt_fraction_zero_above_cutoff 3000 2e10 (by norm_num)⟩

/-- C7: with the default Katz coefficients, for every temperature `T` and every
pressure `P ≥ 0`, `MeltPeridotiteEclogite::melt_fraction(T, P)` lies in `[0, 1]`
(over the reals). -/
theorem melt_fraction_mem_unit_interval (T P : ℝ) (_hP : 0 ≤ P) :
    0 ≤ MeltPeridotiteEclogite.melt_fraction defaultKatz T P ∧
    MeltPeridotiteEclogite.melt_fraction defaultKatz T P ≤ 1 :=
  MeltPeridotiteEclogite.melt_fraction_bounds defaultKatz T P (defaultKatz_regular P)

/-- C7 (witness): `T = 1500` K, `P = 1e9` Pa. -/
theorem melt_fraction_mem_unit_interval_witness :
    0 ≤ MeltPeridotiteEclogite.melt_fraction defaultKatz 1500 1e9 ∧
    MeltPeridotiteEclogite.melt_fraction defaultKatz 1500 1e9 ≤ 1 :=
  melt_fraction_mem_unit_interval 1500 1e9 (by norm_num)

/-- C8: with the default Katz coefficients, for every pressure `P ≥ 0` and all
temperatures `T1 ≤ T2`, `melt_fraction(T1, P) ≤ melt_fraction(T2, P)`. -/
theorem melt_fraction_monotone_in_temperature (T1 T2 P : ℝ) (_hP : 0 ≤ P) (hT : T1 ≤ T2) :
    MeltPeridotiteEclogite.melt_fraction defaultKatz T1 P
      ≤ MeltPeridotiteEclogite.melt_fraction defaultKatz T2 P :=
  MeltPeridotiteEclogite.melt_fraction_mono defaultKatz T1 T2 P (defaultKatz_regular P) hT

/-- C8 (witness): `T1 = 1500` K, `T2 = 1600` K, `P = 1e9` Pa. -/
theorem melt_fraction_monotone_in_temperature_witness :
    MeltPeridotiteEclogite.melt_fraction defaultKatz 1500 1e9
      ≤ MeltPeridotiteEclogite.melt_fraction defaultKatz 1600 1e9 :=
  melt_fraction_monotone_in_temperature 1500 1600 1e9 (by norm_num) (by norm_num)

/-- C9 (amended): with the default Katz coefficients, for every pressure
`P ≤ 1.3e10` Pa, `melt_fraction` at the liquidus temperature
`T_liquidus(P) = C1 + 273.15 + C2*P + C3*P^2` is exactly 1. -/
theorem melt_fraction_at_liquidus (P : ℝ) (hP : P ≤ 1.3e10) :
    MeltPeridotiteEclogite.melt_fraction defaultKatz (defaultKatz.T_liquidus P) P = 1 :=
  MeltPeridotiteEclogite.melt_fraction_above defaultKatz _ P (defaultKatz_regular P) hP le_rfl

/-- C9 (witness): `P = 1e9` Pa. -/
theorem melt_fraction_at_liquidus_witness :
    MeltPeridotiteEclogite.melt_fraction defaultKatz (defaultKatz.T_liquidus 1e9) 1e9 = 1 :=
  melt_fraction_at_liquidus 1e9 (by norm_num)

/-- C9 (counterexample): at `P = 2e10` Pa, above the cutoff pressure, the melt
fraction at the liquidus temperature is not 1. -/
theorem liquidus_above_cutoff_counterexample :
    MeltPeridotiteEclogite.melt_fraction defaultKatz (defaultKatz.T_liquidus 2e10) 2e10 ≠ 1 := by
  rw [MeltPeridotiteEclogite.melt_fraction_cutoff defaultKatz _ 2e10 (defaultKatz_regular _)
    (by norm_num)]
  norm_num

/-- C10 (fails on the code): at the cutoff pressure `P = 1.3e10` Pa and `T = 2225` K,
between solidus and liquidus, `entropy_change` with respect to temperature is 0
although `0 < melt_fraction(T, P) < 1`: `melt_fraction` cuts off at `pressure > 1.3e10`,
`entropy_change` at `pressure ≥ 1.3e10`. -/
theorem entropy_change_zero_at_cutoff_pressure :
    MeltPeridotiteEclogite.entropy_change defaultKatz 2225 1.3e10 0 Dependence.temperature
      = some 0 ∧
    0 < MeltPeridotiteEclogite.melt_fraction defaultKatz 2225 1.3e10 ∧
    MeltPeridotiteEclogite.melt_fraction defaultKatz 2225 1.3e10 < 1 := by
  refine ⟨MeltPeridotiteEclogite.entropy_change_outside _ _ _ _ _ (fun hx => by linarith [hx.2.2]),
    MeltPeridotiteEclogite.melt_fraction_strict defaultKatz 2225 1.3e10 (defaultKatz_regular _)
      le_rfl ?_ ?_⟩
  · simp only [KatzParameters.T_solidus, defaultKatz]; norm_num
  · simp only [KatzParameters.T_liquidus, defaultKatz]; norm_num

/-- C11: with the default Katz coefficients, for every pressure `0 ≤ P < 1.3e10` and
every temperature `T` with `T_solidus(P) < T < T_liquidus(P)` and `T ≠ T_max(P)`, the
map `T ↦ melt_fraction(T, P)` is differentiable at `T` and its derivative is the value
returned by `entropy_change(T, P, ., NonlinearDependence::temperature)`, before and
after the clinopyroxene-exhaustion kink. -/
theorem entropy_change_is_temperature_derivative (T P m : ℝ) (_hP0 : 0 ≤ P) (hP : P < 1.3e10)
    (hT1 : defaultKatz.T_solidus P < T) (hT2 : T < defaultKatz.T_liquidus P)
    (hT3 : T ≠ defaultKatz.T_max P) :
    ∃ d : ℝ,
      MeltPeridotiteEclogite.entropy_change defaultKatz T P m Dependence.temperature = some d ∧
      HasDerivAt (fun t => MeltPeridotiteEclogite.melt_fraction defaultKatz t P) d T := by
  have hreg := defaultKatz_regular P
  refine ⟨_, MeltPeridotiteEclogite.entropy_change_temperature_eq defaultKatz T P m
    ⟨hT1, hT2, hP⟩, ?_⟩
  rcases lt_or_gt_of_ne hT3 with hlt | hgt
  · obtain ⟨-, hle⟩ :=
      MeltPeridotiteEclogite.melt_fraction_low defaultKatz T P hreg hP.le hT1.le hlt.le
    rw [(MeltPeridotiteEclogite.melt_fraction_low defaultKatz T P hreg hP.le hT1.le hlt.le).1,
      if_neg (by linarith)]
    exact MeltPeridotiteEclogite.hasDerivAt_low defaultKatz T P hreg hP.le hT1 hlt
  · have hhigh := MeltPeridotiteEclogite.melt_fraction_high defaultKatz T P hreg hP.le hgt hT2
    have hd : 0 < defaultKatz.T_liquidus P - defaultKatz.T_max P := by linarith
    have hy : 0 < (T - defaultKatz.T_max P) / (defaultKatz.T_liquidus P - defaultKatz.T_max P) :=
      div_pos (by linarith) hd
    have hp := Real.rpow_pos_of_pos hy defaultKatz.beta
    have hF1 := hreg.2.2.2.2
    have hgtF : MeltPeridotiteEclogite.melt_fraction defaultKatz T P > defaultKatz.F_max P := by
      rw [hhigh]
      nlinarith
    rw [if_pos hgtF]
    exact MeltPeridotiteEclogite.hasDerivAt_high defaultKatz T P hreg hP.le hgt hT2

/-- C11 (witness): `T = 2000` K, `P = 1e9` Pa, on the branch after the kink. -/
theorem entropy_change_is_temperature_derivative_witness :
    ∃ d : ℝ,
      MeltPeridotiteEclogite.entropy_change defaultKatz 2000 1e9 0 Dependence.temperature
        = some d ∧
      HasDerivAt (fun t => MeltPeridotiteEclogite.melt_fraction defaultKatz t 1e9) d 2000 :=
  entropy_change_is_temperature_derivative 2000 1e9 0 (by norm_num) (by norm_num)
    (by simp only [KatzParameters.T_solidus, defaultKatz]; norm_num)
    (by simp only [KatzParameters.T_liquidus, defaultKatz]; norm_num)
    (by
      have h1 := defaultKatz.T_max_lt_lherz 1e9 (defaultKatz_regular _)
      have h2 : defaultKatz.T_lherz_liquidus 1e9 < 2000 := by
        simp only [KatzParameters.T_lherz_liquidus, defaultKatz]; norm_num
      exact ne_of_gt (lt_trans h1 h2))

/-- C12: in `MeltGlobal::evaluate`, for every `old_porosity` in `[0, 1]` and every
unclamped melting rate (from the file or from the linear law), the melting rate
after the two clamping steps satisfies `0 ≤ old_porosity + melting_rate ≤ 1`, and it
is the unclamped rate whenever `old_porosity +` unclamped rate lies in `[0, 1]`. -/
theorem melt_global_melting_rate_clamped (M : MeltGlobal) (C : MeltGlobal.Context)
    (p : MeltGlobal.Point)
    (_h0 : 0 ≤ (M.old_values C p).1) (_h1 : (M.old_values C p).1 ≤ 1) :
    0 ≤ (M.old_values C p).1 + M.melting_rate C p ∧
    (M.old_values C p).1 + M.melting_rate C p ≤ 1 ∧
    (0 ≤ (M.old_values C p).1 + M.unclamped_melting_rate C p ∧
      (M.old_values C p).1 + M.unclamped_melting_rate C p ≤ 1 →
      M.melting_rate C p = M.unclamped_melting_rate C p) :=
  ⟨(MeltGlobal.limit_melting_rate_bounds _ _).1,
   (MeltGlobal.limit_melting_rate_bounds _ _).2,
   fun h => MeltGlobal.limit_melting_rate_id _ _ h.1 h.2⟩

/-- C12 (witness): the default model at 2000 K, above the liquidus, with porosity 1/2
in the old solution: the unclamped rate 1/2 is kept. -/
theorem melt_global_melting_rate_clamped_witness :
    0 ≤ (MeltGlobal.defaults.old_values (MeltGlobal.exampleContext false 2)
          { MeltGlobal.examplePoint 0 with temperature := 2000, old_solution_porosity := 1/2 }).1
        + MeltGlobal.defaults.melting_rate (MeltGlobal.exampleContext false 2)
          { MeltGlobal.examplePoint 0 with temperature := 2000, old_solution_porosity := 1/2 } ∧
    (MeltGlobal.defaults.old_values (MeltGlobal.exampleContext false 2)
          { MeltGlobal.examplePoint 0 with temperature := 2000, old_solution_porosity := 1/2 }).1
        + MeltGlobal.defaults.melting_rate (MeltGlobal.exampleContext false 2)
          { MeltGlobal.examplePoint 0 with temperature := 2000, old_solution_porosity := 1/2 }
      ≤ 1 ∧
    (0 ≤ (MeltGlobal.defaults.old_values (MeltGlobal.exampleContext false 2)
          { MeltGlobal.examplePoint 0 with temperature := 2000, old_solution_porosity := 1/2 }).1
        + MeltGlobal.defaults.unclamped_melting_rate (MeltGlobal.exampleContext false 2)
          { MeltGlobal.examplePoint 0 with temperature := 2000, old_solution_porosity := 1/2 } ∧
      (MeltGlobal.defaults.old_values (MeltGlobal.exampleContext false 2)
          { MeltGlobal.examplePoint 0 with temperature := 2000, old_solution_porosity := 1/2 }).1
        + MeltGlobal.defaults.unclamped_melting_rate (MeltGlobal.exampleContext false 2)
          { MeltGlobal.examplePoint 0 with temperature := 2000, old_solution_porosity := 1/2 }
        ≤ 1 →
      MeltGlobal.defaults.melting_rate (MeltGlobal.exampleContext false 2)
          { MeltGlobal.examplePoint 0 with temperature := 2000, old_solution_porosity := 1/2 }
        = MeltGlobal.defaults.unclamped_melting_rate (MeltGlobal.exampleContext false 2)
          { MeltGlobal.examplePoint 0 with temperature := 2000, old_solution_porosity := 1/2 }) :=
  melt_global_melting_rate_clamped MeltGlobal.defaults (MeltGlobal.exampleContext false 2)
    { MeltGlobal.examplePoint 0 with temperature := 2000, old_solution_porosity := 1/2 }
    (by decide!) (by decide!)

/-- C13 (amended): in `MeltPeridotiteEclogite::evaluate` with melt transport enabled the
final `melting` satisfies `0 ≤ old_porosity + melting` in both melting modes.  With
the default Katz coefficients, a freezing rate `≥ 0`, a time step `≥ 0` and
`old_porosity` in `[0, 1]`, it also satisfies `old_porosity + melting ≤ 1` in the
fractional mode, and in the batch mode at time step number 0 or when
`old_porosity ≤ max(maximum_melt_fractions[i], 0)`. -/
theorem melt_peridotite_eclogite_melting_bounds (M : MeltPeridotiteEclogite.Parameters)
    (tn : Nat) (dt yr : ℝ) (p : MeltPeridotiteEclogite.Point)
    (hk : M.katz = defaultKatz) (hfr : 0 ≤ M.freezing_rate) (hdt : 0 ≤ dt) (hyr : 0 < yr)
    (_h0 : 0 ≤ p.old_porosity) (h1 : p.old_porosity ≤ 1) :
    0 ≤ p.old_porosity + MeltPeridotiteEclogite.melting M tn dt yr p ∧
    (M.fractional_melting = true ∨ tn = 0 ∨ p.old_porosity ≤ max p.maximum_melt_fraction 0 →
      p.old_porosity + MeltPeridotiteEclogite.melting M tn dt yr p ≤ 1) := by
  refine ⟨MeltPeridotiteEclogite.melting_lower M tn dt yr p, ?_⟩
  intro hmode
  have hF := MeltPeridotiteEclogite.melt_fraction_bounds defaultKatz p.temperature
    p.adiabatic_pressure (defaultKatz_regular _)
  have hFs := MeltPeridotiteEclogite.melt_fraction_bounds defaultKatz
    (p.temperature - (p.peridotite - p.porosity) * M.depletion_solidus_change)
    p.adiabatic_pressure (defaultKatz_regular _)
  have hcoef : 0 ≤ M.freezing_rate * dt / yr * 0.5 := by positivity
  have hfz : M.freezing_rate * dt / yr * 0.5
      * ((MeltPeridotiteEclogite.melt_fraction defaultKatz p.temperature p.adiabatic_pressure
            - p.old_porosity)
          - |MeltPeridotiteEclogite.melt_fraction defaultKatz p.temperature p.adiabatic_pressure
            - p.old_porosity|) ≤ 0 :=
    mul_nonpos_of_nonneg_of_nonpos hcoef (sub_nonpos.mpr (le_abs_self _))
  unfold MeltPeridotiteEclogite.melting
  rw [hk]
  dsimp only
  split_ifs with hfm _ _ htn
  · linarith
  · linarith
  · linarith
  · rcases hmode with h | h | h
    · exact absurd h hfm
    · omega
    · linarith
  · linarith
  · linarith

/-- C13 (witness): fractional melting at 1500 K and 1e9 Pa with porosity 0.1 in the old
solution. -/
theorem melt_peridotite_eclogite_melting_bounds_witness :
    0 ≤ (0.1 : ℝ) + MeltPeridotiteEclogite.melting ⟨defaultKatz, true, 0, 200⟩ 1 1 31557600
          ⟨1500, 1e9, 0, 0, 0.1, 0⟩ ∧
    ((true = true ∨ 1 = 0 ∨ (0.1 : ℝ) ≤ max 0 0) →
      (0.1 : ℝ) + MeltPeridotiteEclogite.melting ⟨defaultKatz, true, 0, 200⟩ 1 1 31557600
          ⟨1500, 1e9, 0, 0, 0.1, 0⟩ ≤ 1) :=
  melt_peridotite_eclogite_melting_bounds ⟨defaultKatz, true, 0, 200⟩ 1 1 31557600
    ⟨1500, 1e9, 0, 0, 0.1, 0⟩ rfl (by norm_num) (by norm_num) (by norm_num)
    (by norm_num) (by norm_num)

/-- C13 (counterexample): batch melting at time step number 1, default Katz
coefficients, freezing rate 0, at 3000 K and zero pressure (above the liquidus) with
`old_porosity = 1` and `maximum_melt_fractions[i] = 0`: the final `melting` is 1 and
`old_porosity + melting = 2`. -/
theorem melt_peridotite_eclogite_batch_counterexample :
    (1 : ℝ) + MeltPeridotiteEclogite.melting ⟨defaultKatz, false, 0, 200⟩ 1 1 31557600
        ⟨3000, 0, 0, 0, 1, 0⟩ = 2 := by
  have hF : MeltPeridotiteEclogite.melt_fraction defaultKatz 3000 0 = 1 :=
    MeltPeridotiteEclogite.melt_fraction_above defaultKatz 3000 0 (defaultKatz_regular 0)
      (by norm_num) (by simp only [KatzParameters.T_liquidus, defaultKatz]; norm_num)
  unfold MeltPeridotiteEclogite.melting
  simp only [hF]
  norm_num

/-- C14 (amended): in `MeltGlobal::evaluate` without operator splitting and with the
linear melting law, two inputs that agree on temperature, position (adiabatic
pressure, cell), old porosity and the peridotite field and differ in the current
porosity give the same melting rate whenever the solidus shift
`max(depletion_solidus_change * (peridotite - porosity), -200)` is the same for both;
the current porosity enters only through this shift. -/
theorem melt_global_melting_rate_current_porosity (M : MeltGlobal) (C : MeltGlobal.Context)
    (p q : MeltGlobal.Point) (hfile : M.read_melt_from_file = false)
    (hos : C.use_operator_splitting = false)
    (hT : p.temperature = q.temperature) (hP : p.adiabatic_pressure = q.adiabatic_pressure)
    (hcell : p.cell_valid = q.cell_valid)
    (hold : p.old_solution_porosity = q.old_solution_porosity)
    (_hper : p.composition C.peridotite_idx = q.composition C.peridotite_idx)
    (hshift : max (M.depletion_solidus_change
                    * (p.composition C.peridotite_idx - p.composition C.porosity_idx)) (-200)
            = max (M.depletion_solidus_change
                    * (q.composition C.peridotite_idx - q.composition C.porosity_idx)) (-200)) :
    M.melting_rate C p = M.melting_rate C q := by
  have hov : (M.old_values C p).1 = (M.old_values C q).1 := by
    unfold MeltGlobal.old_values
    simp only [hfile, hos, hcell, hold]
    split_ifs <;> first | rfl | contradiction
  have hmf : M.melt_fraction p.temperature p.adiabatic_pressure
        (p.composition C.peridotite_idx - p.composition C.porosity_idx)
      = M.melt_fraction q.temperature q.adiabatic_pressure
        (q.composition C.peridotite_idx - q.composition C.porosity_idx) := by
    unfold MeltGlobal.melt_fraction
    rw [hT, hP, hshift]
  unfold MeltGlobal.melting_rate MeltGlobal.unclamped_melting_rate
  simp only [hfile, hov, hmf]
  rfl

/-- C14 (witness): with `Depletion solidus change = 0` the current porosities 0 and
1/2 give the same melting rate. -/
theorem melt_global_melting_rate_current_porosity_witness :
    MeltGlobal.melting_rate { MeltGlobal.defaults with depletion_solidus_change := 0 }
        (MeltGlobal.exampleContext false 1) (MeltGlobal.examplePoint 0)
      = MeltGlobal.melting_rate { MeltGlobal.defaults with depletion_solidus_change := 0 }
        (MeltGlobal.exampleContext false 1) (MeltGlobal.examplePoint (1/2)) :=
  melt_global_melting_rate_current_porosity
    { MeltGlobal.defaults with depletion_solidus_change := 0 }
    (MeltGlobal.exampleContext false 1) (MeltGlobal.examplePoint 0) (MeltGlobal.examplePoint (1/2))
    rfl rfl rfl rfl rfl rfl rfl (by decide!)

/-- C14 (counterexample): default parameters, no operator splitting, linear law, time
step 1.  Two points that agree on temperature, position, old porosity (0) and the
peridotite field (0) and differ only in the current porosity (0 and 1/2) get the
melting rates 1/5 and 2/5. -/
theorem melt_global_current_porosity_counterexample :
    MeltGlobal.defaults.melting_rate (MeltGlobal.exampleContext false 1)
        (MeltGlobal.examplePoint 0) = 1/5 ∧
    MeltGlobal.defaults.melting_rate (MeltGlobal.exampleContext false 1)
        (MeltGlobal.examplePoint (1/2)) = 2/5 := by
  decide!

/-- C15 (fails on the code): default parameters, operator splitting, reaction-rate
output present, strain rate with zero trace, time step number 1 and time step size 1.
The melting rate is 1/5; the reaction terms of both fields are 0 and the porosity
field gets the rate 1/5, but the peridotite field gets the rate 0, because its rate
is taken from the reaction term, which is only set for time step numbers above 1. -/
theorem melt_global_first_step_rates :
    MeltGlobal.defaults.melting_rate (MeltGlobal.exampleContext true 1)
        (MeltGlobal.examplePoint 0) = 1/5 ∧
    MeltGlobal.defaults.reaction (MeltGlobal.exampleContext true 1)
        (MeltGlobal.examplePoint 0) 0 = (0, some (1/5)) ∧
    MeltGlobal.defaults.reaction (MeltGlobal.exampleContext true 1)
        (MeltGlobal.examplePoint 0) 1 = (0, some 0) := by
  decide!

/-- C16 (fails on the code): a point at rest (zero growth rate constant, zero strain
rate) with original grain size `6e-6`, a time step of 100 years, no crossed
transition.  The loop finishes after one pass, the returned change is 0, and the
resulting grain size `6e-6` is below the default `Minimum grain size` `1e-5`: the
function clamps to the constant `5e-6`, not to the parameter. -/
theorem grain_size_below_configured_minimum :
    DamageRheology.grain_size_growth_rate
        (DamageRheology.grain_size_growth DamageRheology.restingTerms)
        (DamageRheology.grain_size_reduction DamageRheology.restingTerms)
        1 (6 / 1000000) 3155760000 true 1 (-1) [] = some 0 ∧
    (6 / 1000000 : ℝ) + 0 < ((DamageRheology.default_min_grain_size : ℚ) : ℝ) := by
  constructor
  · have hg : DamageRheology.grain_size_growth DamageRheology.restingTerms = fun _ _ => 0 := by
      funext g dt; exact DamageRheology.grain_size_growth_resting g dt
    have hr : DamageRheology.grain_size_reduction DamageRheology.restingTerms = fun _ _ => 0 := by
      funext g dt; exact DamageRheology.grain_size_reduction_resting g dt
    rw [hg, hr]
    unfold DamageRheology.grain_size_growth_rate
    rw [if_neg (by norm_num)]
    simp only [DamageRheology.substep_loop, DamageRheology.substep]
    norm_num
  · unfold DamageRheology.default_min_grain_size
    norm_num

/-- C17: for every growth and reduction term (that is, for every temperature,
pressure, composition, strain rate and position), every original grain size, field
and crossed-transition flag, `grain_size_growth_rate` returns exactly 0 when the time
step is 0, whatever the bound on the number of passes. -/
theorem grain_size_growth_rate_zero_timestep {α : Type} [LinearOrderedField α]
    (growth reduction : α → α → α) (fuel : Nat) (original_grain_size : α) (olivine : Bool)
    (timestep_number : Nat) (crossed_transition : Int) (recrystallized_grain_size : List α) :
    DamageRheology.grain_size_growth_rate growth reduction fuel original_grain_size 0 olivine
      timestep_number crossed_transition recrystallized_grain_size = some 0 := by
  unfold DamageRheology.grain_size_growth_rate
  rw [if_pos (Or.inl rfl)]

/-- C18: in the sub-stepping loop, for every positive time step, a pass started with
`time ≤ timestep` ends with `time ≤ timestep`; a pass that rejects the sub-step restores
the previous time and grain size, and every other pass advances the time to
`min(time + grain_growth_timestep, timestep)` (the sub-step is truncated to fit); and
whenever the loop, started at `time = 0` with the sub-step of 500 years, finishes after
some number of passes, the accumulated time is at most the time step, and it equals the
time step exactly when the loop was left through its condition and not through `break`. -/
theorem substep_time_accounting {α : Type} [LinearOrderedField α]
    (growth reduction : α → α → α) (timestep : α) (ht : 0 < timestep) :
    (∀ s : DamageRheology.Substep α, s.time ≤ timestep →
      (DamageRheology.substep growth reduction timestep s).1.time ≤ timestep) ∧
    (∀ s : DamageRheology.Substep α,
      (DamageRheology.substep_rejected growth reduction timestep s →
        (DamageRheology.substep growth reduction timestep s).1.time = s.time ∧
        (DamageRheology.substep growth reduction timestep s).1.grain_size = s.grain_size) ∧
      (¬ DamageRheology.substep_rejected growth reduction timestep s →
        (DamageRheology.substep growth reduction timestep s).1.time
          = min (s.time + s.grain_growth_timestep) timestep)) ∧
    (∀ (fuel : Nat) (original_grain_size : α) (r : DamageRheology.Substep α) (b : Bool),
      DamageRheology.substep_loop growth reduction timestep fuel
        { grain_size := original_grain_size, grain_growth_timestep := 15778800000, time := 0 }
        = some (r, b) →
      r.time ≤ timestep ∧ (b = false → r.time = timestep)) :=
  ⟨fun s hs => DamageRheology.substep_time_le growth reduction timestep s hs,
   fun s =>
    ⟨fun h =>
      ⟨(DamageRheology.substep_of_rejected growth reduction timestep s h).1,
       (DamageRheology.substep_of_rejected growth reduction timestep s h).2.1⟩,
     fun h => (DamageRheology.substep_of_not_rejected growth reduction timestep s h).1⟩,
   fun fuel _ r b h =>
    DamageRheology.substep_loop_time growth reduction timestep fuel _ r b ht.le h⟩

/-- C18 (witness): 750 years with the growth term `g * dt / 1e11` and no reduction.
The first pass, with the sub-step of 500 years, is rejected and restores `time = 0`; three
passes of 250 years follow and the loop is left through its condition with
`time = timestep`. -/
theorem substep_time_accounting_witness :
    ((DamageRheology.substep (fun g dt : ℚ => g * dt / 100000000000) (fun _ _ => 0)
        23668200000 ⟨1 / 1000, 15778800000, 0⟩).1.time = 0 ∧
      (DamageRheology.substep (fun g dt : ℚ => g * dt / 100000000000) (fun _ _ => 0)
        23668200000 ⟨1 / 1000, 15778800000, 0⟩).1.grain_size = 1 / 1000) ∧
    ((⟨156980730841467623 / 125000000000000000000, 7889400000, 23668200000⟩ :
        DamageRheology.Substep ℚ).time ≤ 23668200000 ∧
    (false = false →
      (⟨156980730841467623 / 125000000000000000000, 7889400000, 23668200000⟩ :
        DamageRheology.Substep ℚ).time = 23668200000)) :=
  ⟨((substep_time_accounting (fun g dt : ℚ => g * dt / 100000000000) (fun _ _ => 0)
      23668200000 (by norm_num)).2.1 ⟨1 / 1000, 15778800000, 0⟩).1 (by
        unfold DamageRheology.substep_rejected DamageRheology.substep_timestep
        norm_num),
   (substep_time_accounting (fun g dt : ℚ => g * dt / 100000000000) (fun _ _ => 0) 23668200000
    (by norm_num)).2.2 4 (1 / 1000) _ false (by decide!)⟩

/-- C19 (amended): for every grain size `s`, every minimum grain size `m` and whatever
`std::log` and `std::exp` return, converting the grain-size field to its logarithm with
`convert_log_grain_size(true, .)` and back with `convert_log_grain_size(false, .)` leaves
the other fields unchanged and yields `max(exp(log(max(s, m))), m)` in the grain-size
field.  This is never below `m`; it differs from `max(s, m)` by at most the error of
`exp(log(.))` at `max(s, m)`; and it is the identity for `s ≥ m` wherever `exp(log(.))`
returns its argument, as it does in exact arithmetic. -/
theorem convert_log_grain_size_round_trip {α : Type} [LinearOrderedField α]
    (log exp : α → α) (m : α) (idx : Nat) (composition : Nat → α) :
    DamageRheology.convert_log_grain_size log exp m (some idx) false
        (DamageRheology.convert_log_grain_size log exp m (some idx) true composition)
      = Function.update composition idx (max (exp (log (max (composition idx) m))) m) ∧
    m ≤ DamageRheology.convert_log_grain_size log exp m (some idx) false
        (DamageRheology.convert_log_grain_size log exp m (some idx) true composition) idx ∧
    |DamageRheology.convert_log_grain_size log exp m (some idx) false
        (DamageRheology.convert_log_grain_size log exp m (some idx) true composition) idx
      - max (composition idx) m|
      ≤ |exp (log (max (composition idx) m)) - max (composition idx) m| ∧
    (exp (log (max (composition idx) m)) = max (composition idx) m →
      DamageRheology.convert_log_grain_size log exp m (some idx) false
        (DamageRheology.convert_log_grain_size log exp m (some idx) true composition)
        = Function.update composition idx (max (composition idx) m) ∧
      (m ≤ composition idx →
        DamageRheology.convert_log_grain_size log exp m (some idx) false
          (DamageRheology.convert_log_grain_size log exp m (some idx) true composition)
          = composition)) := by
  have hround : DamageRheology.convert_log_grain_size log exp m (some idx) false
        (DamageRheology.convert_log_grain_size log exp m (some idx) true composition)
      = Function.update composition idx (max (exp (log (max (composition idx) m))) m) := by
    unfold DamageRheology.convert_log_grain_size
    simp only [if_true, Bool.false_eq_true, if_false, Function.update_same, neg_neg,
      Function.update_idem]
  have hm : m ≤ max (composition idx) m := le_max_right _ _
  refine ⟨hround, ?_, ?_, ?_⟩
  · rw [hround, Function.update_same]
    exact le_max_right _ _
  · rw [hround, Function.update_same]
    rcases le_total (exp (log (max (composition idx) m))) m with h | h
    · rw [max_eq_right h, abs_sub_comm, abs_sub_comm (exp _),
        abs_of_nonneg (sub_nonneg.mpr hm), abs_of_nonneg (sub_nonneg.mpr (h.trans hm))]
      linarith
    · rw [max_eq_left h]
  · intro hexact
    have h1 : DamageRheology.convert_log_grain_size log exp m (some idx) false
        (DamageRheology.convert_log_grain_size log exp m (some idx) true composition)
        = Function.update composition idx (max (composition idx) m) := by
      rw [hround, hexact, max_eq_left hm]
    refine ⟨h1, ?_⟩
    intro hge
    rw [h1, max_eq_left hge, Function.update_eq_self]

/-- C19 (witness): exact arithmetic (`Real.log`, `Real.exp`), minimum grain size `1e-5`
and a field value `2e-5`: the round trip is the identity. -/
theorem convert_log_grain_size_round_trip_witness :
    DamageRheology.convert_log_grain_size Real.log Real.exp 1e-5 (some 0) false
        (DamageRheology.convert_log_grain_size Real.log Real.exp 1e-5 (some 0) true
          fun _ => 2e-5)
      = fun _ => 2e-5 :=
  ((convert_log_grain_size_round_trip Real.log Real.exp 1e-5 0 fun _ => 2e-5).2.2.2
    (Real.exp_log (lt_of_lt_of_le (by norm_num) (le_max_right _ _)))).2
    (by norm_num)

/-- C19 (counterexample): in `double` arithmetic the round trip is not the identity on
the grain sizes `≥ m`.  The `double`s of `[2^-16, 2^-15)` (from `1.5e-5` to `3.1e-5`) are
the numbers `k / 2^68` with `2^52 ≤ k < 2^53`, and the `double`s of `[10, 12]`, where the
negative logarithms of these grain sizes lie, are the numbers `n / 2^49` with
`10 * 2^49 ≤ n ≤ 12 * 2^49`; there are fewer of the latter.  So whatever values `std::log`
and `std::exp` return, for every minimum grain size `m ≤ 2^-16` two grain sizes get the
same logarithm and the round trip changes one of them. -/
theorem convert_log_grain_size_round_trip_counterexample :
    ¬ ∃ (log exp : ℚ → ℚ) (m : ℚ), m ≤ 1 / 65536 ∧
      (∀ k : Nat, 2 ^ 52 ≤ k → k < 2 ^ 53 →
        ∃ n : Nat, 10 * 2 ^ 49 ≤ n ∧ n ≤ 12 * 2 ^ 49 ∧
          -log ((k : ℚ) / 2 ^ 68) = (n : ℚ) / 2 ^ 49) ∧
      (∀ k : Nat, 2 ^ 52 ≤ k → k < 2 ^ 53 →
        DamageRheology.convert_log_grain_size log exp m (some 0) false
          (DamageRheology.convert_log_grain_size log exp m (some 0) true
            fun _ => (k : ℚ) / 2 ^ 68) 0
          = (k : ℚ) / 2 ^ 68) := by
  rintro ⟨log, exp, m, hm, hlog, hid⟩
  have hrt : ∀ k : Nat, 2 ^ 52 ≤ k → k < 2 ^ 53 →
      max (exp (-(-log ((k : ℚ) / 2 ^ 68)))) m = (k : ℚ) / 2 ^ 68 := by
    intro k h1 h2
    have hk : m ≤ (k : ℚ) / 2 ^ 68 := by
      have : ((2 ^ 52 : Nat) : ℚ) ≤ (k : ℚ) := by exact_mod_cast h1
      have h3 : (1 / 65536 : ℚ) ≤ (k : ℚ) / 2 ^ 68 := by
        rw [le_div_iff₀ (by positivity)]
        norm_num at this ⊢
        linarith
      linarith
    have := hid k h1 h2
    unfold DamageRheology.convert_log_grain_size at this
    simp only [if_true, Bool.false_eq_true, if_false, Function.update_same,
      max_eq_left hk] at this
    exact this
  choose! f hf using hlog
  have hmaps : ∀ k ∈ Finset.Ico (2 ^ 52) (2 ^ 53),
      f k ∈ Finset.Icc (10 * 2 ^ 49) (12 * 2 ^ 49) := by
    intro k hk
    rw [Finset.mem_Ico] at hk
    rw [Finset.mem_Icc]
    exact ⟨(hf k hk.1 hk.2).1, (hf k hk.1 hk.2).2.1⟩
  have hcard : (Finset.Icc (10 * 2 ^ 49) (12 * 2 ^ 49)).card
      < (Finset.Ico (2 ^ 52) (2 ^ 53)).card := by
    rw [Nat.card_Icc, Nat.card_Ico]
    norm_num
  obtain ⟨x, hx, y, hy, hxy, hfxy⟩ := Finset.exists_ne_map_eq_of_card_lt_of_maps_to hcard hmaps
  rw [Finset.mem_Ico] at hx hy
  have hlx := (hf x hx.1 hx.2).2.2
  have hly := (hf y hy.1 hy.2).2.2
  have hrx := hrt x hx.1 hx.2
  have hry := hrt y hy.1 hy.2
  rw [hlx] at hrx
  rw [hly, ← hfxy, hrx] at hry
  have h68 : (2 ^ 68 : ℚ) ≠ 0 := by positivity
  have h2 : (x : ℚ) = (y : ℚ) := (div_left_inj' h68).mp hry
  exact hxy (by exact_mod_cast h2)

/-- C20: with `eta_diff = diffusion_viscosity(...)`, `eta_dis = dislocation_viscosity(...)`
and `second_strain_rate_invariant = sqrt(-second_invariant(shear_strain_rate))`,
`DamageRheology::viscosity` returns `eta_dis*eta_diff/(eta_dis+eta_diff)` when the
invariant exceeds `1e-30` and exactly `eta_diff` otherwise; the combined value is
unchanged when `eta_dis` and `eta_diff` are exchanged. -/
theorem viscosity_reference_law (diffusion dislocation : DamageRheology.Creep)
    (gas_constant max_dependence : ℝ) (s : DamageRheology.State) :
    (Real.sqrt (-s.second_invariant) > 1e-30 →
      DamageRheology.viscosity diffusion dislocation gas_constant max_dependence s
        = DamageRheology.dislocation_viscosity dislocation gas_constant max_dependence s
          * DamageRheology.diffusion_viscosity diffusion gas_constant max_dependence s
          / (DamageRheology.dislocation_viscosity dislocation gas_constant max_dependence s
             + DamageRheology.diffusion_viscosity diffusion gas_constant max_dependence s)) ∧
    (¬ Real.sqrt (-s.second_invariant) > 1e-30 →
      DamageRheology.viscosity diffusion dislocation gas_constant max_dependence s
        = DamageRheology.diffusion_viscosity diffusion gas_constant max_dependence s) ∧
    DamageRheology.dislocation_viscosity dislocation gas_constant max_dependence s
        * DamageRheology.diffusion_viscosity diffusion gas_constant max_dependence s
        / (DamageRheology.dislocation_viscosity dislocation gas_constant max_dependence s
           + DamageRheology.diffusion_viscosity diffusion gas_constant max_dependence s)
      = DamageRheology.diffusion_viscosity diffusion gas_constant max_dependence s
        * DamageRheology.dislocation_viscosity dislocation gas_constant max_dependence s
        / (DamageRheology.diffusion_viscosity diffusion gas_constant max_dependence s
           + DamageRheology.dislocation_viscosity dislocation gas_constant max_dependence s) := by
  have habs : |Real.sqrt (-s.second_invariant)| = Real.sqrt (-s.second_invariant) :=
    abs_of_nonneg (Real.sqrt_nonneg _)
  refine ⟨?_, ?_, ?_⟩
  · intro h
    unfold DamageRheology.viscosity
    dsimp only
    rw [habs, if_pos h]
  · intro h
    unfold DamageRheology.viscosity
    dsimp only
    rw [habs, if_neg h]
  · rw [mul_comm, add_comm]

/-- C20 (witness): default creep parameters, 1600 K, grain size 1 mm and a strain rate
with `second_invariant(shear_strain_rate) = -1e-30`, whose invariant `1e-15` exceeds
`1e-30`. -/
theorem viscosity_reference_law_witness :
    DamageRheology.viscosity ⟨3.35e5, 4e-6, 1, 7.4e-15, 3⟩ ⟨4.8e5, 1.1e-5, 3.5, 4.5e-15, 0⟩
        8.3144621 100 ⟨1600, 1e9, some 1600, 1e-3, -1e-30⟩
      = DamageRheology.dislocation_viscosity ⟨4.8e5, 1.1e-5, 3.5, 4.5e-15, 0⟩ 8.3144621 100
            ⟨1600, 1e9, some 1600, 1e-3, -1e-30⟩
          * DamageRheology.diffusion_viscosity ⟨3.35e5, 4e-6, 1, 7.4e-15, 3⟩ 8.3144621 100
            ⟨1600, 1e9, some 1600, 1e-3, -1e-30⟩
          / (DamageRheology.dislocation_viscosity ⟨4.8e5, 1.1e-5, 3.5, 4.5e-15, 0⟩ 8.3144621 100
              ⟨1600, 1e9, some 1600, 1e-3, -1e-30⟩
             + DamageRheology.diffusion_viscosity ⟨3.35e5, 4e-6, 1, 7.4e-15, 3⟩ 8.3144621 100
              ⟨1600, 1e9, some 1600, 1e-3, -1e-30⟩) :=
  (viscosity_reference_law ⟨3.35e5, 4e-6, 1, 7.4e-15, 3⟩ ⟨4.8e5, 1.1e-5, 3.5, 4.5e-15, 0⟩
    8.3144621 100 ⟨1600, 1e9, some 1600, 1e-3, -1e-30⟩).1 (by
      have h : Real.sqrt (-(-1e-30 : ℝ)) = 1e-15 := by
        rw [neg_neg, show (1e-30 : ℝ) = 1e-15 ^ 2 by norm_num]
        exact Real.sqrt_sq (by norm_num)
      show Real.sqrt (-(-1e-30 : ℝ)) > 1e-30
      rw [h]
      norm_num)

/-- C21: in `diffusion_viscosity` and `dislocation_viscosity`, when the adiabatic
conditions are available and the maximum factor `M = max_temperature_dependence_of_eta`
satisfies `M ≥ 1`, the energy term finally used lies between
`adiabatic_energy_term / M` and `adiabatic_energy_term * M`, and it is the unclamped
energy term whenever that already lies in this range. -/
theorem energy_term_clamped (c : DamageRheology.Creep) (gas_constant M : ℝ)
    (s : DamageRheology.State) (adiabatic_temperature : ℝ)
    (had : s.adiabatic_temperature = some adiabatic_temperature) (hM : 1 ≤ M) :
    Real.exp ((c.activation_energy + c.activation_volume * s.adiabatic_pressure)
        / (c.creep_exponent * gas_constant * adiabatic_temperature)) / M
      ≤ DamageRheology.energy_term c gas_constant M s ∧
    DamageRheology.energy_term c gas_constant M s
      ≤ Real.exp ((c.activation_energy + c.activation_volume * s.adiabatic_pressure)
        / (c.creep_exponent * gas_constant * adiabatic_temperature)) * M ∧
    (Real.exp ((c.activation_energy + c.activation_volume * s.adiabatic_pressure)
        / (c.creep_exponent * gas_constant * adiabatic_temperature)) / M
      ≤ Real.exp ((c.activation_energy + c.activation_volume * s.adiabatic_pressure)
        / (c.creep_exponent * gas_constant * s.temperature)) ∧
     Real.exp ((c.activation_energy + c.activation_volume * s.adiabatic_pressure)
        / (c.creep_exponent * gas_constant * s.temperature))
      ≤ Real.exp ((c.activation_energy + c.activation_volume * s.adiabatic_pressure)
        / (c.creep_exponent * gas_constant * adiabatic_temperature)) * M →
     DamageRheology.energy_term c gas_constant M s
      = Real.exp ((c.activation_energy + c.activation_volume * s.adiabatic_pressure)
        / (c.creep_exponent * gas_constant * s.temperature))) := by
  have hM0 : 0 < M := by linarith
  unfold DamageRheology.energy_term
  rw [had]
  dsimp only
  generalize Real.exp ((c.activation_energy + c.activation_volume * s.adiabatic_pressure)
    / (c.creep_exponent * gas_constant * s.temperature)) = e
  have ha : 0 < Real.exp ((c.activation_energy + c.activation_volume * s.adiabatic_pressure)
    / (c.creep_exponent * gas_constant * adiabatic_temperature)) := Real.exp_pos _
  generalize Real.exp ((c.activation_energy + c.activation_volume * s.adiabatic_pressure)
    / (c.creep_exponent * gas_constant * adiabatic_temperature)) = a at ha ⊢
  have hMM : 1 ≤ M * M := by nlinarith
  have hle : a / M ≤ a * M := by
    rw [div_le_iff₀ hM0]
    nlinarith [mul_le_mul_of_nonneg_left hMM ha.le]
  have hinv : 1 / M ≤ M := by
    rw [div_le_iff₀ hM0]
    exact hMM
  by_cases h1 : e / a > M
  · have h2 : ¬ e / a < 1 / M := by
      intro h
      linarith
    rw [if_neg h2, if_pos h1]
    refine ⟨hle, le_refl _, ?_⟩
    rintro ⟨-, hup⟩
    exfalso
    have : e / a ≤ M := by
      rw [div_le_iff₀ ha]
      linarith
    linarith
  · rw [if_neg h1]
    have hup : e ≤ a * M := by
      have := not_lt.mp h1
      rw [div_le_iff₀ ha] at this
      linarith
    by_cases h2 : e / a < 1 / M
    · rw [if_pos h2]
      refine ⟨le_refl _, hle, ?_⟩
      rintro ⟨hlo, -⟩
      exfalso
      have : 1 / M ≤ e / a := by
        rw [le_div_iff₀ ha, div_mul_eq_mul_div, one_mul]
        exact hlo
      linarith
    · rw [if_neg h2]
      have hlo : a / M ≤ e := by
        have := not_lt.mp h2
        rw [le_div_iff₀ ha, div_mul_eq_mul_div, one_mul] at this
        exact this
      exact ⟨hlo, hup, fun _ => rfl⟩

/-- C21 (witness): the default diffusion creep parameters at 1700 K with the adiabatic
temperature 1600 K and the default maximum factor 100. -/
theorem energy_term_clamped_witness :
    Real.exp (((3.35e5 : ℝ) + 4e-6 * 1e9) / (1 * 8.314462 * 1600)) / 100
      ≤ DamageRheology.energy_term ⟨3.35e5, 4e-6, 1, 7.4e-15, 3⟩ 8.314462 100
          ⟨1700, 1e9, some 1600, 1e-3, -1e-30⟩ ∧
    DamageRheology.energy_term ⟨3.35e5, 4e-6, 1, 7.4e-15, 3⟩ 8.314462 100
          ⟨1700, 1e9, some 1600, 1e-3, -1e-30⟩
      ≤ Real.exp (((3.35e5 : ℝ) + 4e-6 * 1e9) / (1 * 8.314462 * 1600)) * 100 :=
  ⟨(energy_term_clamped ⟨3.35e5, 4e-6, 1, 7.4e-15, 3⟩ 8.314462 100
      ⟨1700, 1e9, some 1600, 1e-3, -1e-30⟩ 1600 rfl (by norm_num)).1,
   (energy_term_clamped ⟨3.35e5, 4e-6, 1, 7.4e-15, 3⟩ 8.314462 100
      ⟨1700, 1e9, some 1600, 1e-3, -1e-30⟩ 1600 rfl (by norm_num)).2.1⟩

/-- C22 (`DamageRheology::parse_parameters`): a parameter file whose list
'Diffusion creep prefactor' is empty, the per-transition lists having consistent lengths,
is not rejected with the fatal error of the length checks: the scaling of the last
entries, which the source runs before the checks of the per-phase lists, reads
`diffusion_creep_prefactor[size()-1]` past the end of the empty vector. -/
theorem parse_parameters_empty_list_out_of_range {α : Type} [Field α] (pow : α → α → α)
    (c : DamageRheology.ParameterLists α)
    (h1 : c.transition_temperatures.length = c.transition_depths.length)
    (h2 : c.transition_slopes.length = c.transition_depths.length)
    (h3 : c.transition_phases.length = c.transition_depths.length)
    (h4 : c.transition_widths.length = c.transition_depths.length)
    (h5 : c.recrystallized_grain_size.length = c.transition_depths.length)
    (he : c.diffusion_creep_prefactor = []) :
    DamageRheology.parse_parameters pow c = DamageRheology.Parsed.out_of_range := by
  unfold DamageRheology.parse_parameters
  have ht : ¬ (c.transition_temperatures.length ≠ c.transition_depths.length ∨
      c.transition_slopes.length ≠ c.transition_depths.length ∨
      c.transition_phases.length ≠ c.transition_depths.length ∨
      c.transition_widths.length ≠ c.transition_depths.length ∨
      c.recrystallized_grain_size.length ≠ c.transition_depths.length) := by
    simp only [h1, h2, h3, h4, h5, ne_eq, not_true_eq_false, or_self, not_false_eq_true]
  rw [if_neg ht]
  split
  · rename_i hp _
    rw [he] at hp
    cases hp
  · rfl

theorem parse_parameters_empty_list_out_of_range_witness :
    DamageRheology.parse_parameters (fun a b => a ^ Int.toNat ⌊b⌋)
      { DamageRheology.exampleLists [410000, 660000] 2 3 with diffusion_creep_prefactor := [] }
      = DamageRheology.Parsed.out_of_range :=
  parse_parameters_empty_list_out_of_range (fun a b => a ^ Int.toNat ⌊b⌋)
    { DamageRheology.exampleLists [410000, 660000] 2 3 with diffusion_creep_prefactor := [] }
    (by decide) (by decide) (by decide) (by decide) (by decide) rfl

/-- C23 (`DamageRheology::parse_parameters`): a parameter file with the transition depths
`660000, 410000`, which are not in increasing order, and lists of consistent lengths is
accepted; the depths are stored as given. -/
theorem parse_parameters_accepts_unordered_depths (pow : ℚ → ℚ → ℚ) :
    ∃ r, DamageRheology.parse_parameters pow
        (DamageRheology.exampleLists [660000, 410000] 2 3)
        = DamageRheology.Parsed.accepted r ∧
      r.transition_depths = [660000, 410000] ∧
      ¬ r.transition_depths.Pairwise (fun a b => a < b) := by
  refine ⟨_, rfl, rfl, ?_⟩
  simp only [DamageRheology.exampleLists, List.pairwise_cons, List.mem_singleton,
    forall_eq, not_and]
  norm_num

/-- C24 (`MeltGlobal::melt_fraction`): with the default parameters, at temperature 1200,
pressure 0 and depletion -2 the function returns 1/5, whereas the documented linear law
gives 3/5: the source limits the solidus change with depletion to at least -200. -/
theorem melt_global_melt_fraction_not_documented_law :
    MeltGlobal.defaults.melt_fraction 1200 0 (-2) = 1 / 5 ∧
    MeltGlobal.defaults.documented_melt_fraction 1200 0 (-2) = 3 / 5 := by
  decide!

/-- C25 (constructor of `MeltFractionLookup`): with the temperature unit `Celsius` the unit
selection fails for every pressure unit, the documented ones included, because the second
test compares the pressure unit with `Celsius`; with `Kelvin` the four documented pressure
units give the factors 1, 1e9, 1e5 and 1e8 and the offset 0. -/
theorem melt_fraction_lookup_units_celsius_rejected :
    (∀ p_unit : String, MeltFractionLookup.units p_unit "Celsius" = none) ∧
    MeltFractionLookup.units "Pa" "Kelvin" = some (1, 0) ∧
    MeltFractionLookup.units "GPa" "Kelvin" = some (1000000000, 0) ∧
    MeltFractionLookup.units "bar" "Kelvin" = some (100000, 0) ∧
    MeltFractionLookup.units "kbar" "Kelvin" = some (100000000, 0) := by
  refine ⟨?_, by decide!, by decide!, by decide!, by decide!⟩
  intro p_unit
  unfold MeltFractionLookup.units
  have hK : ¬ ("Celsius" = "Kelvin") := by decide
  rw [if_neg hK]
  by_cases h1 : p_unit = "GPa"
  · subst h1
    decide
  · by_cases h2 : p_unit = "Pa"
    · subst h2
      decide
    · by_cases h3 : p_unit = "bar"
      · subst h3
        decide
      · by_cases h4 : p_unit = "kbar"
        · subst h4
          decide
        · rw [if_neg h1, if_neg h2, if_neg h3, if_neg h4]
          rfl

/-- C26 (`Viscoelastic::compute_volume_fractions`, amended): for every rounding `fl` of the
arithmetic results that is monotone, leaves its own results, 0, 1 and the given fields
unchanged (exact arithmetic, `double` arithmetic) and every vector of compositional
fields with at least `n_stress = dim*(dim+1)/2` entries, the function returns a vector
with one entry more, whose entries lie in `[0, 1]` and whose entries of the stress fields
(indices `1 .. n_stress`) are 0; without rounding the entries sum to exactly 1. -/
theorem compute_volume_fractions_partition (fl : ℚ → ℚ) (dim : Nat)
    (compositional_fields : List ℚ)
    (h0 : fl 0 = 0) (h1 : fl 1 = 1) (hmono : Monotone fl) (hidem : ∀ x, fl (fl x) = fl x)
    (hrep : ∀ x ∈ compositional_fields, fl x = x)
    (h : dim * (dim + 1) / 2 ≤ compositional_fields.length) :
    ∃ volume_fractions,
      Viscoelastic.compute_volume_fractions fl dim compositional_fields
        = some volume_fractions ∧
      volume_fractions.length = compositional_fields.length + 1 ∧
      (∀ v ∈ volume_fractions, 0 ≤ v ∧ v ≤ 1) ∧
      (∀ i, i < dim * (dim + 1) / 2 → volume_fractions.get? (i + 1) = some 0) ∧
      ((∀ x, fl x = x) → volume_fractions.sum = 1) := by
  unfold Viscoelastic.compute_volume_fractions
  dsimp only
  have hclip : ∀ x ∈ compositional_fields.map (fun x => min (max x 0) 1), 0 ≤ x ∧ x ≤ 1 := by
    intro x hx
    obtain ⟨y, _, rfl⟩ := List.mem_map.mp hx
    exact ⟨le_min (le_max_right _ _) zero_le_one, min_le_right _ _⟩
  have hcliprep : ∀ x ∈ compositional_fields.map (fun x => min (max x 0) 1), fl x = x := by
    intro x hx
    obtain ⟨y, hy, rfl⟩ := List.mem_map.mp hx
    rcases le_total (max y 0) 1 with hle | hle
    · rw [min_eq_left hle]
      rcases le_total y 0 with hy0 | hy0
      · rw [max_eq_right hy0, h0]
      · rw [max_eq_left hy0, hrep y hy]
    · rw [min_eq_right hle, h1]
  have hsome := Viscoelastic.zero_first_isSome (dim * (dim + 1) / 2)
    (compositional_fields.map fun x => min (max x 0) 1) (by simpa using h)
  obtain ⟨ys, hys⟩ := Option.isSome_iff_exists.mp hsome
  obtain ⟨hl, hb, hz⟩ := Viscoelastic.zero_first_spec _ _ _ hclip hys
  have hysrep : ∀ y ∈ ys, 0 ≤ y ∧ fl y = y := by
    intro y hy
    refine ⟨(hb y hy).1, ?_⟩
    rcases Viscoelastic.zero_first_mem _ _ _ hys y hy with rfl | hmem
    · exact h0
    · exact hcliprep y hmem
  rw [List.length_map] at hl
  obtain ⟨hs0, hle⟩ := Viscoelastic.rounded_sum_bounds fl hmono hidem ys 0 le_rfl h0 hysrep
  rw [hys]
  simp only [Option.map_some']
  by_cases hs : ys.foldl (fun s x => fl (s + x)) 0 ≥ 1
  · rw [if_pos hs]
    have hpos : 0 < ys.foldl (fun s x => fl (s + x)) 0 := by linarith
    refine ⟨_, rfl, by simp [hl], ?_, ?_, ?_⟩
    · intro v hv
      rcases List.mem_cons.mp hv with rfl | hv
      · norm_num
      · obtain ⟨y, hy, rfl⟩ := List.mem_map.mp hv
        constructor
        · have := hmono (div_nonneg (hb y hy).1 hs0)
          rwa [h0] at this
        · have := hmono ((div_le_one hpos).mpr (hle y hy))
          rwa [h1] at this
    · intro i hi
      have hzi := hz i hi
      rw [List.get?_eq_getElem?] at hzi
      rw [List.get?_cons_succ, List.get?_eq_getElem?, List.getElem?_map, hzi]
      simp only [Option.map_some', zero_div, h0]
    · intro hid
      obtain rfl : fl = id := funext hid
      simp only [id_eq] at hpos ⊢
      rw [Viscoelastic.exact_sum, zero_add] at hpos ⊢
      rw [List.sum_cons, Viscoelastic.sum_map_div, zero_add, div_self hpos.ne']
  · rw [if_neg hs]
    have hlt : ys.foldl (fun s x => fl (s + x)) 0 < 1 := not_le.mp hs
    refine ⟨_, rfl, by simp [hl], ?_, ?_, ?_⟩
    · intro v hv
      rcases List.mem_cons.mp hv with rfl | hv
      · constructor
        · have := hmono (show (0 : ℚ) ≤ 1 - ys.foldl (fun s x => fl (s + x)) 0 by linarith)
          rwa [h0] at this
        · have := hmono (show 1 - ys.foldl (fun s x => fl (s + x)) 0 ≤ (1 : ℚ) by linarith)
          rwa [h1] at this
      · exact hb v hv
    · intro i hi
      simp only [List.get?_cons_succ, hz i hi]
    · intro hid
      obtain rfl : fl = id := funext hid
      simp only [id_eq]
      rw [Viscoelastic.exact_sum, zero_add, List.sum_cons]
      ring

/-- C26 (witness): two dimensions, the fields `5, 5, 5, 0.96, 0.6`, in exact arithmetic
(the volume fractions `0, 0, 0, 0, 8/13, 5/13` sum to 1) and in `double` arithmetic. -/
theorem compute_volume_fractions_partition_witness :
    (∃ volume_fractions,
      Viscoelastic.compute_volume_fractions id 2 [5, 5, 5, 24 / 25, 3 / 5]
        = some volume_fractions ∧
      volume_fractions.length = [5, 5, 5, 24 / 25, (3 / 5 : ℚ)].length + 1 ∧
      (∀ v ∈ volume_fractions, 0 ≤ v ∧ v ≤ 1) ∧
      (∀ i, i < 2 * (2 + 1) / 2 → volume_fractions.get? (i + 1) = some 0) ∧
      ((∀ x : ℚ, id x = x) → volume_fractions.sum = 1)) ∧
    (∃ volume_fractions,
      Viscoelastic.compute_volume_fractions binary64 2
          [5, 5, 5, binary64 (96 / 100), binary64 (6 / 10)]
        = some volume_fractions ∧
      volume_fractions.length
        = [5, 5, 5, binary64 (96 / 100), binary64 (6 / 10)].length + 1 ∧
      (∀ v ∈ volume_fractions, 0 ≤ v ∧ v ≤ 1) ∧
      (∀ i, i < 2 * (2 + 1) / 2 → volume_fractions.get? (i + 1) = some 0) ∧
      ((∀ x : ℚ, binary64 x = x) → volume_fractions.sum = 1)) :=
  ⟨compute_volume_fractions_partition id 2 [5, 5, 5, 24 / 25, 3 / 5] rfl rfl monotone_id
    (fun _ => rfl) (fun _ _ => rfl) (by decide),
   compute_volume_fractions_partition binary64 2
    [5, 5, 5, binary64 (96 / 100), binary64 (6 / 10)] binary64_zero binary64_one
    binary64_monotone binary64_idempotent
    (by
      intro x hx
      simp only [List.mem_cons, List.mem_singleton, List.not_mem_nil, or_false] at hx
      rcases hx with rfl | rfl | rfl | rfl | rfl
      · decide!
      · decide!
      · decide!
      · exact binary64_idempotent _
      · exact binary64_idempotent _)
    (by decide)⟩

/-- C26 (counterexample): in `double` arithmetic in two dimensions the fields
`5, 5, 5, 0.96, 0.6` give the sum `1.56` and the volume fractions
`0, 0, 0, 0, 0.6153846153846153, 0.3846153846153846`, which sum to `1 - 2^-53`
(`0.9999999999999999`) and not to 1. -/
theorem compute_volume_fractions_sum_counterexample :
    Viscoelastic.compute_volume_fractions binary64 2
        [5, 5, 5, binary64 (96 / 100), binary64 (6 / 10)]
      = some [0, 0, 0, 0, 5542891849071379 / 9007199254740992,
          866076851417403 / 2251799813685248] ∧
    ([0, 0, 0, 0, 5542891849071379 / 9007199254740992,
        866076851417403 / 2251799813685248] : List ℚ).sum
      = 1 - 1 / 9007199254740992 ∧
    ([0, 0, 0, 0, 5542891849071379 / 9007199254740992,
        866076851417403 / 2251799813685248] : List ℚ).sum ≠ 1 := by
  decide!

/-- C27 (`MeltPeridotiteEclogite::evaluate`): the peridotite reaction term
`melting * (1 - maximum_melt_fractions[i]) / (1 - maximum_melt_fractions[i])` is not always
`melting`.  For `maximum_melt_fractions[i] = 1` it divides zero by zero; and in `double`
arithmetic with `melting = 0.01` and `maximum_melt_fractions[i] = 0.94` it is
`0.010000000000000002`, the `double` next above `melting`. -/
theorem peridotite_reaction_term_not_melting :
    MeltPeridotiteEclogite.reaction_term binary64 0 1 1 true (binary64 (1 / 100)) 1 3000 1000 0
      = none ∧
    MeltPeridotiteEclogite.reaction_term binary64 0 1 1 true (binary64 (1 / 100))
        (binary64 (94 / 100)) 3000 1000 0
      = some (binary64 (1 / 100) + 1 / 576460752303423488) ∧
    binary64 (1 / 100) + 1 / 576460752303423488 ≠ binary64 (1 / 100) := by
  decide!

/-- C28 (`DamageRheology::get_phase_index`, `thermodynamic_phase`, `phase_function`): with
the adiabatic conditions initialized and a non-empty list of grain growth parameters, if
among the `n` transitions exactly the first `k` (in list order, `0 ≤ k ≤ n`) have a
positive pressure deviation, then `get_phase_index` returns `k` and so does
`thermodynamic_phase`. -/
theorem get_phase_index_classifies {α : Type} [LinearOrderedField α]
    (P : DamageRheology.Transitions α) (depth gravity_norm temperature pressure : α)
    (k : Nat) (hinit : P.adiabatic_initialized = true)
    (hg : P.grain_growth_activation_energy.length > 0)
    (hk : k ≤ P.transition_depths.length)
    (hdev : ∀ j, j < P.transition_depths.length →
      ∃ d, DamageRheology.pressure_deviation P temperature pressure j = some d ∧
        (0 < d ↔ j < k)) :
    DamageRheology.get_phase_index P depth gravity_norm temperature pressure = some k ∧
    DamageRheology.thermodynamic_phase P temperature pressure = some k := by
  constructor
  · unfold DamageRheology.get_phase_index
    rw [if_neg (not_not.mpr hg)]
    by_cases hn : P.transition_depths.length > 0
    · obtain ⟨d, hd, hkd⟩ := hdev (P.transition_depths.length - 1) (by omega)
      have h1 := DamageRheology.phase_function_of_deviation P depth gravity_norm temperature
        pressure k (P.transition_depths.length - 1) d hinit (by omega) hd hkd
      rw [if_pos hn, h1]
      simp only [Option.map_some', Option.some_bind]
      rw [DamageRheology.get_phase_index_loop P depth gravity_norm temperature pressure k _
        hinit hdev (P.transition_depths.length - 1) (by omega)]
      congr 1
      by_cases ha : P.transition_depths.length - 1 < k
      · have hb : ¬ (1 ≤ k ∧ k ≤ P.transition_depths.length - 1) := by omega
        rw [if_neg hb, if_pos ha, if_pos rfl]
        omega
      · by_cases hb : 1 ≤ k ∧ k ≤ P.transition_depths.length - 1
        · rw [if_pos hb]
        · rw [if_neg hb, if_neg ha, if_neg zero_ne_one]
          omega
    · have h0 : P.transition_depths.length = 0 := by omega
      rw [if_neg hn, h0]
      simp only [Option.some_bind, Nat.zero_sub, List.range'_zero, List.foldl_nil,
        Option.some.injEq]
      omega
  · unfold DamageRheology.thermodynamic_phase
    rw [DamageRheology.thermodynamic_phase_loop P temperature pressure k hdev _ le_rfl]
    congr 1
    omega

theorem get_phase_index_classifies_witness :
    DamageRheology.get_phase_index DamageRheology.exampleTransitions 500000 10 1600
        15000000000 = some 1 ∧
    DamageRheology.thermodynamic_phase DamageRheology.exampleTransitions 1600
        15000000000 = some 1 :=
  get_phase_index_classifies DamageRheology.exampleTransitions 500000 10 1600 15000000000 1
    rfl (by decide) (by decide) (by
      intro j hj
      have hj2 : j < 2 := hj
      interval_cases j
      · exact ⟨15000000000 - 30000 * 410000 - 0 * (1600 - 1600), rfl, by norm_num⟩
      · exact ⟨15000000000 - 30000 * 660000 - 0 * (1600 - 1600), rfl, by norm_num⟩)

/-- C29: in one pass of the sub-stepping loop, for every current grain size `d > 0` and
growth and reduction terms `≥ 0` of the pass, the grain size `d'` after the pass
(accepted or rejected) satisfies `0.5*d ≤ d' ≤ 1.1*d` and the pass does not end in the
branch `grain size smaller 0`; hence, with terms that are `≥ 0` for positive grain
size and sub-step, a loop started with a positive grain size keeps it positive and
is never left through that `break`. -/
theorem substep_grain_size_bounds {α : Type} [LinearOrderedField α]
    (growth reduction : α → α → α) (timestep : α) :
    (∀ s : DamageRheology.Substep α, 0 < s.grain_size →
      0 ≤ growth s.grain_size
        (if timestep - (s.time + s.grain_growth_timestep) < 0 then
          timestep - (s.time + s.grain_growth_timestep - s.grain_growth_timestep)
        else s.grain_growth_timestep) →
      0 ≤ reduction s.grain_size
        (if timestep - (s.time + s.grain_growth_timestep) < 0 then
          timestep - (s.time + s.grain_growth_timestep - s.grain_growth_timestep)
        else s.grain_growth_timestep) →
      s.grain_size / 2 ≤ (DamageRheology.substep growth reduction timestep s).1.grain_size ∧
      (DamageRheology.substep growth reduction timestep s).1.grain_size
        ≤ 11 / 10 * s.grain_size ∧
      (DamageRheology.substep growth reduction timestep s).2 = false) ∧
    ((∀ g dt, 0 < g → 0 < dt → 0 ≤ growth g dt) →
     (∀ g dt, 0 < g → 0 < dt → 0 ≤ reduction g dt) →
     0 < timestep →
     ∀ (fuel : Nat) (original_grain_size : α) (r : DamageRheology.Substep α) (b : Bool),
      0 < original_grain_size →
      DamageRheology.substep_loop growth reduction timestep fuel
        { grain_size := original_grain_size, grain_growth_timestep := 15778800000, time := 0 }
        = some (r, b) →
      0 < r.grain_size ∧ b = false) :=
  ⟨fun s hs hg _ => DamageRheology.substep_positive growth reduction timestep s hs hg,
   fun hg _ ht fuel g r b hpos h =>
    DamageRheology.substep_loop_positive growth reduction timestep hg fuel _ r b hpos
      (by norm_num) ht h⟩

/-- C29 (witness): grain size 1 mm, growth term `g * dt / 1e11`, reduction term
`g * dt / 2e11`, first pass of 500 years in a time step of 750 years. -/
theorem substep_grain_size_bounds_witness :
    (1 / 1000 : ℚ) / 2
      ≤ (DamageRheology.substep (fun g dt : ℚ => g * dt / 100000000000)
          (fun g dt : ℚ => g * dt / 200000000000) 23668200000
          ⟨1 / 1000, 15778800000, 0⟩).1.grain_size ∧
    (DamageRheology.substep (fun g dt : ℚ => g * dt / 100000000000)
          (fun g dt : ℚ => g * dt / 200000000000) 23668200000
          ⟨1 / 1000, 15778800000, 0⟩).1.grain_size ≤ 11 / 10 * (1 / 1000 : ℚ) ∧
    (DamageRheology.substep (fun g dt : ℚ => g * dt / 100000000000)
          (fun g dt : ℚ => g * dt / 200000000000) 23668200000
          ⟨1 / 1000, 15778800000, 0⟩).2 = false :=
  (substep_grain_size_bounds (fun g dt : ℚ => g * dt / 100000000000)
    (fun g dt : ℚ => g * dt / 200000000000) 23668200000).1 ⟨1 / 1000, 15778800000, 0⟩
    (by norm_num) (by norm_num) (by norm_num)

/-- C30 (`AnalyticSolutions::interpolate`): on the strictly decreasing table
`coordinate = [3, 2, 1]` the search for `x = 5/2`, which lies between `coordinate[1]` and
`coordinate[0]`, starts at `j = 1` with step `i = 0` and never leaves this state, so no
number of passes finishes the loop; and on the table `[4, 3, 2, 1]` the search for
`x = coordinate[0] = 4` steps below index 0 and reads past the end of the table. -/
theorem interpolate_search_not_terminating :
    (∀ fuel : Nat,
      AnalyticSolutions.interpolate [3, 2, 1] [1 / 10, 1 / 5, 1 / 2] fuel (5 / 2) 0
        = AnalyticSolutions.Outcome.unfinished) ∧
    AnalyticSolutions.interpolate [4, 3, 2, 1] [1 / 10, 1 / 5, 1 / 2, 1] 10 4 0
      = AnalyticSolutions.Outcome.out_of_range := by
  refine ⟨?_, by decide!⟩
  intro fuel
  unfold AnalyticSolutions.interpolate
  have h0 : ((5 / 2 : ℚ) > 0) := by norm_num
  have h3 : ¬ ((5 / 2 - 0 : ℚ) > 3) := by norm_num
  have hj : ([3, 2, (1 : ℚ)].length + 18446744073709551614) % 18446744073709551616
      % 4294967296 = 1 := by decide
  have hs := AnalyticSolutions.search_three_entries fuel
  simp only [List.get?, if_pos h0, if_neg h3, hj]
  have h5 : (5 / 2 - 0 : ℚ) = 5 / 2 := by norm_num
  rw [h5, hs]

end Aspect
